import Mathlib

/-!
# USPJWL Rivet analyses: observable extraction and binning

A shallow embedding of the analysis plugins `RAA_ATLAS` (USPJWL_JETSPEC.cc),
`USPJWL_PHIDIST`, `USPJWL_INOUTPLANESPEC`, `USPJWL_HJET` and `USPJWL_SUBFRAG`.

Conventions of the embedding.

* A C++ `double` is a rational number and arithmetic on it is exact: decimal
  literals stand for the rationals they denote and no rounding is modelled.
  `M_PI` is the rational that the IEEE double nearest to pi denotes; the
  proofs only use that it is positive.
* A histogram is external. An analysis is modelled by the list of `fill`
  calls it makes, in program order: a fill is a pair (histogram, value).
* The jets that the declared `FastJets` projection finds in an event are an
  input (`Event.jets`); clustering is not modelled.
* `GeV` is the unit 1.
* Undefined behaviour (reading an element of an empty vector) is `none`.
-/

namespace Rivet

/-! ## Numeric helpers of the C and Rivet libraries -/

/-- The constant `M_PI` of `<cmath>`: the double nearest to pi, as a rational. -/
def M_PI : ℚ := 884279719003555 / 281474976710656

/-- Conversion of a double to an integer: truncation toward zero. -/
def trunc (q : ℚ) : ℤ := if 0 ≤ q then ⌊q⌋ else ⌈q⌉

/-- The C library `fmod`: `x - n * y` with `n` the quotient `x / y` truncated
toward zero, so the result has the sign of `x`. -/
def fmod (x y : ℚ) : ℚ := x - (trunc (x / y) : ℚ) * y

/-- Rivet `mapAngleMPiToPi`: the angle reduced to (-pi, pi]. -/
def mapAngleMPiToPi (angle : ℚ) : ℚ :=
  let rtn := fmod angle (2 * M_PI)
  if rtn > M_PI then rtn - 2 * M_PI
  else if rtn ≤ -M_PI then rtn + 2 * M_PI
  else rtn

/-- Rivet `deltaPhi(phi1, phi2)`: the azimuthal separation of two angles, the
absolute value of their difference reduced to (-pi, pi]. It is a function of the
Rivet library, written here after `Rivet/Math/MathUtils.hh`; the specification
describes it as the shortest circular distance, in the range [0, pi]. -/
def deltaPhi (phi1 phi2 : ℚ) : ℚ := |mapAngleMPiToPi (phi1 - phi2)|

/-! ## Data model -/

/-- A final-state particle; `isHadron` and `isCharged` are the values of
`PID::isHadron(pid)` and `PID::isCharged(pid)`. -/
structure Particle where
  pT : ℚ
  eta : ℚ
  phi : ℚ
  isHadron : Bool
  isCharged : Bool
  deriving DecidableEq

/-- A fastjet `PseudoJet`, of which the analyses read the transverse momentum. -/
structure PseudoJet where
  perp : ℚ
  deriving DecidableEq

/-- A clustered jet. -/
structure Jet where
  pT : ℚ
  eta : ℚ
  rap : ℚ
  phi : ℚ
  mass : ℚ
  constituents : List Particle
  deriving DecidableEq

/-- An event: all its particles, and the jets found by the FastJets projection
that the analysis declares. -/
structure Event where
  allParticles : List Particle
  jets : List Jet

/-- The method `FastJets::jetsByPt(cut)`: the jets passing the cut, by decreasing pT. -/
def jetsByPt (cut : Jet → Bool) (jets : List Jet) : List Jet :=
  List.insertionSort (fun a b => b.pT ≤ a.pT) (jets.filter cut)

/-- fastjet `sorted_by_pt`: the pseudojets by decreasing pT. -/
def sorted_by_pt (jets : List PseudoJet) : List PseudoJet :=
  List.insertionSort (fun a b => b.perp ≤ a.perp) jets

/-- The values filled into the histogram `h`, in program order, in a list of
fills. -/
def valuesOf {H : Type} [DecidableEq H] (h : H) (fills : List (H × ℚ)) : List ℚ :=
  (fills.filter (fun f => decide (f.1 = h))).map (fun f => f.2)

/-- Runs `body` on each element in turn and joins the fills; the run is
undefined as soon as the run of one element is. -/
def runEach {H α : Type} (body : α → Option (List (H × ℚ))) : List α → Option (List (H × ℚ))
  | [] => some []
  | x :: xs =>
    match body x with
    | none => none
    | some a =>
      match runEach body xs with
      | none => none
      | some b => some (a ++ b)

/-! ## The range scan of `absrapRange` and `pTRange` -/

/-- The body shared by `absrapRange` and the two `pTRange`:
`for (double edge : EDGES) { if (v > edge) pos++; else return pos; } return 0;`
started at `pos`. -/
def rangeScan (v : ℚ) : List ℚ → Nat → Nat
  | [], _ => 0
  | edge :: rest, pos => if v > edge then rangeScan v rest (pos + 1) else pos

/-- The index the specification describes for an edge table `E`: the 1-based
`i` with `e_{i-1} < v ≤ e_i`, where `e_0` is minus infinity. -/
def SpecIndex (E : List ℚ) (v : ℚ) (i : Nat) : Prop :=
  1 ≤ i ∧ i ≤ E.length ∧ v ≤ E.getD (i - 1) 0 ∧ (2 ≤ i → E.getD (i - 2) 0 < v)

instance SpecIndex.instDecidable (E : List ℚ) (v : ℚ) (i : Nat) :
    Decidable (SpecIndex E v i) := by
  unfold SpecIndex; infer_instance

/-! ## RAA_ATLAS (USPJWL_JETSPEC.cc) -/

namespace RAA_ATLAS

/-- The local table `ABSRAPEDGES` of `absrapRange`. -/
def absrapRange.ABSRAPEDGES : List ℚ := [0., 0.3, 0.8, 1.2, 1.6, 2.1, 2.8]

/-- The method `RAA_ATLAS::absrapRange`. -/
def absrapRange (jety : ℚ) : Nat := rangeScan jety absrapRange.ABSRAPEDGES 0

/-- The local table `PTEDGES` of `pTRange`. -/
def pTRange.PTEDGES : List ℚ :=
  [10., 30., 60., 90., 100., 112., 126., 141., 158., 178., 200., 224., 251., 282., 316.,
   398., 562., 630., 1000.]

/-- The method `RAA_ATLAS::pTRange`. -/
def pTRange (jetpT : ℚ) : Nat := rangeScan jetpT pTRange.PTEDGES 0

/-- The histograms of the analysis, under the names of the data members. -/
inductive Hist
  | _hist_1 | _hist_2 | _hist_3 | _hist_4 | _hist_5 | _hist_6 | _hist_7
  | _hist_8 | _hist_9 | _hist_10
  | _xj_1 | _xj_2 | _xj_3 | _xj_4 | _xj_5 | _xj_6 | _xj_7 | _xj_8 | _xj_9
  | _xj_10 | _xj_11 | _xj_12 | _xj_13 | _xj_14 | _xj_15 | _xj_16 | _xj_17
  | _xj_18
  | _lead | _sublead | _counter
  deriving DecidableEq

/-- One call `h -> fill(x)`. -/
abbrev Fill := Hist × ℚ

/-- The cut `Cuts::pT > 20 * GeV && Cuts::abseta < etamax`, `etamax = 3.2 - RJETS_f`. -/
def jetcuts (RJETS_f : ℚ) (j : Jet) : Bool :=
  decide (j.pT > 20 ∧ |j.eta| < 3.2 - RJETS_f)

/-- The cut `Cuts::abseta < 2.1 && Cuts::pT > 20 * GeV`. -/
def xjcuts (j : Jet) : Bool := decide (|j.eta| < 2.1 ∧ j.pT > 20)

/-- The switch on `absrapRange(y)` of the jet loop. -/
def rapSwitch (k : Nat) (pt : ℚ) : List Fill :=
  match k with
  | 1 => [(Hist._hist_1, pt)]
  | 2 => [(Hist._hist_2, pt)]
  | 3 => [(Hist._hist_3, pt)]
  | 4 => [(Hist._hist_4, pt)]
  | 5 => [(Hist._hist_5, pt)]
  | 6 => [(Hist._hist_6, pt)]
  | _ => []

/-- The body of the loop `for (const Jet& j : jets)` of `analyze`. -/
def jetBody (j : Jet) : List Fill :=
  let y := |j.rap|
  let pt := j.pT
  rapSwitch (absrapRange y) pt
    ++ (if y ≤ 2.1 then [(Hist._hist_7, pt)] else [])
    ++ (if y ≤ 2.8 then [(Hist._hist_8, pt)] else [])
    ++ (if y ≤ 1.2 then [(Hist._hist_9, pt)] else [])
    ++ [(Hist._hist_10, pt)]

/-- The switch on `pTRange(pTLead)` of the xJ section. -/
def xjSwitch (k : Nat) (xj : ℚ) : List Fill :=
  match k with
  | 1 => [(Hist._xj_1, xj)]
  | 2 => [(Hist._xj_2, xj)]
  | 3 => [(Hist._xj_3, xj)]
  | 4 => [(Hist._xj_4, xj)]
  | 5 => [(Hist._xj_5, xj)]
  | 6 => [(Hist._xj_6, xj)]
  | 7 => [(Hist._xj_7, xj)]
  | 8 => [(Hist._xj_8, xj)]
  | 9 => [(Hist._xj_9, xj)]
  | 10 => [(Hist._xj_10, xj)]
  | 11 => [(Hist._xj_11, xj)]
  | 12 => [(Hist._xj_12, xj)]
  | 13 => [(Hist._xj_13, xj)]
  | 14 => [(Hist._xj_14, xj)]
  | 15 => [(Hist._xj_15, xj)]
  | 16 => [(Hist._xj_16, xj)]
  | 17 => [(Hist._xj_17, xj)]
  | 18 => [(Hist._xj_18, xj)]
  | _ => []

/-- The xJ section of `analyze`, from `vector<Jet> sorted_jets = select(jets, xjcuts)`
to the end of the function. -/
def xjSection (jets : List Jet) : List Fill :=
  let sorted_jets := jets.filter xjcuts
  match sorted_jets with
  | j0 :: j1 :: _ =>
    let pTLead := j0.pT
    let pTSubLead := j1.pT
    let Dphi := deltaPhi j0.phi j1.phi
    if Dphi > 7 * M_PI / 8 then
      let xj := pTSubLead / pTLead
      [(Hist._counter, 1), (Hist._lead, pTLead), (Hist._sublead, pTSubLead)]
        ++ xjSwitch (pTRange pTLead) xj
    else
      [(Hist._counter, 0)]
  | _ => []

/-- The method `RAA_ATLAS::analyze`: the fills one event makes, for the jet radius `RJETS_f`. -/
def analyze (RJETS_f : ℚ) (evt : Event) : List Fill :=
  let jets := jetsByPt (jetcuts RJETS_f) evt.jets
  jets.flatMap jetBody ++ xjSection jets

/-- The histograms of the xJ section: the counter, the leading and subleading
spectra and the eighteen xJ histograms. -/
def Hist.isDijet : Hist → Bool
  | ._hist_1 | ._hist_2 | ._hist_3 | ._hist_4 | ._hist_5 | ._hist_6 | ._hist_7
  | ._hist_8 | ._hist_9 | ._hist_10 => false
  | _ => true

/-- The eighteen xJ histograms. -/
def Hist.isXJ : Hist → Bool
  | ._xj_1 | ._xj_2 | ._xj_3 | ._xj_4 | ._xj_5 | ._xj_6 | ._xj_7 | ._xj_8 | ._xj_9
  | ._xj_10 | ._xj_11 | ._xj_12 | ._xj_13 | ._xj_14 | ._xj_15 | ._xj_16 | ._xj_17
  | ._xj_18 => true
  | _ => false

/-- The fills of an event into the histograms of the xJ section. -/
def dijetFills (RJETS_f : ℚ) (evt : Event) : List Fill :=
  (analyze RJETS_f evt).filter (fun f => f.1.isDijet)

end RAA_ATLAS

/-! ## USPJWL_PHIDIST -/

namespace USPJWL_PHIDIST

/-- The local table `PTBINS` of `pTRange`. -/
def pTRange.PTBINS : List ℚ :=
  [71., 79., 89., 100., 126., 158., 200., 251., 316., 398., 500., 650., 1000.]

/-- The method `USPJWL_PHIDIST::pTRange`. -/
def pTRange (jetpT : ℚ) : Nat := rangeScan jetpT pTRange.PTBINS 0

/-- The histograms of the analysis, under the names of the data members. -/
inductive Hist
  | _hist_1 | _hist_2 | _hist_3 | _hist_4 | _hist_5 | _hist_6 | _hist_7
  | _hist_8 | _hist_9 | _hist_10 | _hist_11 | _hist_12
  deriving DecidableEq

/-- One call `h -> fill(x)`. -/
abbrev Fill := Hist × ℚ

/-- The cut `Cuts::pT > 70 * GeV && Cuts::absrap < 1.2 && Cuts::abseta < etamax`,
`etamax = 3.2 - RJETS_f`. -/
def jetcuts (RJETS_f : ℚ) (j : Jet) : Bool :=
  decide (j.pT > 70 ∧ |j.rap| < 1.2 ∧ |j.eta| < 3.2 - RJETS_f)

/-- The switch on `pTRange(pt)` of the jet loop. -/
def phiSwitch (k : Nat) (phi : ℚ) : List Fill :=
  match k with
  | 1 => [(Hist._hist_1, phi)]
  | 2 => [(Hist._hist_2, phi)]
  | 3 => [(Hist._hist_3, phi)]
  | 4 => [(Hist._hist_4, phi)]
  | 5 => [(Hist._hist_5, phi)]
  | 6 => [(Hist._hist_6, phi)]
  | 7 => [(Hist._hist_7, phi)]
  | 8 => [(Hist._hist_8, phi)]
  | 9 => [(Hist._hist_9, phi)]
  | 10 => [(Hist._hist_10, phi)]
  | 11 => [(Hist._hist_11, phi)]
  | 12 => [(Hist._hist_12, phi)]
  | _ => []

/-- The method `USPJWL_PHIDIST::analyze`: the fills one event makes, for the jet radius
`RJETS_f`. -/
def analyze (RJETS_f : ℚ) (evt : Event) : List Fill :=
  let jets := jetsByPt (jetcuts RJETS_f) evt.jets
  jets.flatMap (fun j =>
    let phi := j.phi
    let pt := j.pT
    phiSwitch (pTRange pt) phi)

end USPJWL_PHIDIST

/-! ## USPJWL_INOUTPLANESPEC -/

/-- The function `planeConversion`: `fmod(psi + 2 * M_PI, 2 * M_PI)`. -/
def planeConversion (psi : ℚ) : ℚ := fmod (psi + 2 * M_PI) (2 * M_PI)

/-- The function `angDistance`: the distance of the two angles, each brought to
[0, 2 pi) by `planeConversion`, folded at pi. -/
def angDistance (phi1 phi2 : ℚ) : ℚ :=
  let phi1_conv := planeConversion phi1
  let phi2_conv := planeConversion phi2
  let diff := |phi1_conv - phi2_conv|
  if diff > M_PI then 2 * M_PI - diff else diff

/-- The vector `dists` that the loop `for (int i = 0; i < n - 1; i++)` of
`isInPlane` builds. -/
def isInPlane.dists (phi psi : ℚ) (n : ℤ) : List ℚ :=
  (List.range (n - 1).toNat).map
    (fun (i : ℕ) => angDistance phi (psi + 2 * M_PI * (i : ℚ) / (n : ℚ)))

/-- The function `isInPlane`; `none` when `dists` is empty, where `*std::min_element` reads
past the end of the vector. -/
def isInPlane (phi psi : ℚ) (n : ℤ) : Option Bool :=
  let maxinplanedist := (2 / 3) * M_PI / (2 * n)
  (isInPlane.dists phi psi n).min?.map (fun mindist => decide (mindist < maxinplanedist))

namespace USPJWL_INOUTPLANESPEC

/-- The histograms of the analysis, under the names of the data members. -/
inductive Hist
  | _hist_inplane2 | _hist_outplane2 | _hist_inplane3 | _hist_outplane3
  | _hist_inplane4 | _hist_outplane4 | _hist_allplane
  deriving DecidableEq

/-- One call `h -> fill(x)`. -/
abbrev Fill := Hist × ℚ

/-- The data members that `init` sets: the jet radius and the three plane
angles. -/
structure Config where
  RJETS_f : ℚ
  PSI2 : ℚ
  PSI3 : ℚ
  PSI4 : ℚ

/-- The part of `init` that sets the data members, from the values read from
the environment: each plane angle goes through `planeConversion`. -/
def init (RJETS_f psi2 psi3 psi4 : ℚ) : Config :=
  { RJETS_f := RJETS_f, PSI2 := planeConversion psi2, PSI3 := planeConversion psi3,
    PSI4 := planeConversion psi4 }

/-- The cut `Cuts::pT > 5 * GeV && Cuts::pT < 100 * GeV` on the constituents. -/
def cutlead (p : Particle) : Bool := decide (p.pT > 5 ∧ p.pT < 100)

/-- The cut `Cuts::pT > 20 * GeV && Cuts::abseta < etamax`, `etamax = 0.9 - RJETS_f`. -/
def jetcuts (RJETS_f : ℚ) (j : Jet) : Bool :=
  decide (j.pT > 20 ∧ |j.eta| < 0.9 - RJETS_f)

/-- One statement
`if (isInPlane(phi, psiIn, nIn)) inHist -> fill(pt); else if (isInPlane(phi, psiOut, nOut)) outHist -> fill(pt);`
of the jet loop; the second test is made only when the first is false. -/
def planeTest (inHist outHist : Hist) (pt phi psiIn : ℚ) (nIn : ℤ) (psiOut : ℚ) (nOut : ℤ) :
    Option (List Fill) :=
  match isInPlane phi psiIn nIn with
  | none => none
  | some true => some [(inHist, pt)]
  | some false =>
    match isInPlane phi psiOut nOut with
    | none => none
    | some true => some [(outHist, pt)]
    | some false => some []

/-- The body of the loop `for (const Jet& j : jets)` of `analyze`. -/
def jetBody (cfg : Config) (j : Jet) : Option (List Fill) :=
  let pt := j.pT
  let phi := j.phi
  let plead := j.constituents.filter cutlead
  if plead.length = 0 then some []
  else
    match planeTest Hist._hist_inplane2 Hist._hist_outplane2 pt phi cfg.PSI2 2
        (cfg.PSI2 + M_PI / 2) 2,
      planeTest Hist._hist_inplane3 Hist._hist_outplane3 pt phi cfg.PSI3 3
        (cfg.PSI2 + M_PI / 3) 2,
      planeTest Hist._hist_inplane4 Hist._hist_outplane4 pt phi cfg.PSI4 4
        (cfg.PSI2 + M_PI / 4) 2 with
    | some f2, some f3, some f4 => some (f2 ++ f3 ++ f4 ++ [(Hist._hist_allplane, pt)])
    | _, _, _ => none

/-- The method `USPJWL_INOUTPLANESPEC::analyze`: the fills one event makes. -/
def analyze (cfg : Config) (evt : Event) : Option (List Fill) :=
  let jets := jetsByPt (jetcuts cfg.RJETS_f) evt.jets
  runEach (jetBody cfg) jets

end USPJWL_INOUTPLANESPEC

/-! ## USPJWL_HJET -/

namespace USPJWL_HJET

/-- The histograms of the analysis, under the names of the data members. -/
inductive Hist
  | _hs_Ntrig | _hs_pTJet | _hs_Ntrig_8_9 | _hs_pTJet_8_9
  | _hs_Ntrig_1 | _hs_pTJet_1 | _hs_Ntrig_eta | _hs_pTJet_eta | _hs_pTJet_all
  | _hs_pTJet_all_8_9 | _hs_pTJet_all_1 | _hs_pTJet_all_eta | _hs_Ntrig_6_7
  | _hs_pTJet_6_7 | _hs_pTJet_all_6_7 | _hs_Ntrig_12_50 | _hs_pTJet_12_50
  | _hs_pTJet_all_12_50
  deriving DecidableEq

/-- One call `h->fill(x)`. -/
abbrev Fill := Hist × ℚ

/-- The values `init` gives the data members `RJETS_f`, `etamax`, `etamax_jet`. -/
def RJETS_f : ℚ := 0.4

def etamax : ℚ := 0.9

def etamax_jet : ℚ := etamax - RJETS_f

/-- The trigger cuts of `analyze`. -/
def partcuts (p : Particle) : Bool := decide (p.pT > 20 ∧ p.pT < 50 ∧ |p.eta| < etamax)

def partcuts8_9 (p : Particle) : Bool := decide (p.pT > 8 ∧ p.pT < 9 ∧ |p.eta| < etamax)

def partcuts6_7 (p : Particle) : Bool := decide (p.pT > 6 ∧ p.pT < 7 ∧ |p.eta| < etamax)

def partcuts12_50 (p : Particle) : Bool := decide (p.pT > 12 ∧ p.pT < 50 ∧ |p.eta| < etamax)

def partcuts1 (p : Particle) : Bool := decide (p.pT > 1 ∧ |p.eta| < etamax)

def partcuts_eta (p : Particle) : Bool := decide (|p.eta| < etamax)

/-- The jet cut `Cuts::pT >= 0.15 * GeV && Cuts::pT <= 100.0 * GeV && Cuts::abseta < etamax_jet`. -/
def jetcuts (j : Jet) : Bool := decide (j.pT ≥ 0.15 ∧ j.pT ≤ 100.0 ∧ |j.eta| < etamax_jet)

/-- The inner loop `for (const Jet& j : alljets)`, the same in the six trigger
loops but for the two histograms it fills: `all` with every jet, `away` with
the jets at `deltaPhi(phi, phi_j) >= M_PI - 0.6`. -/
def jetLoop (all away : Hist) (phi : ℚ) (alljets : List Jet) : List Fill :=
  alljets.flatMap (fun j =>
    let phi_j := j.phi
    let pt_j := j.pT
    (all, pt_j) :: (if deltaPhi phi phi_j ≥ M_PI - 0.6 then [(away, pt_j)] else []))

/-- The loop over `Particles` (the 20-50 class); here `pt` is a double. -/
def loop20_50 (Particles : List Particle) (alljets : List Jet) : List Fill :=
  Particles.flatMap (fun p =>
    let phi := p.phi
    let pt := p.pT
    if p.isHadron && p.isCharged then
      (Hist._hs_Ntrig, pt) :: jetLoop Hist._hs_pTJet_all Hist._hs_pTJet phi alljets
    else [])

/-- The loop over `Particles6_7`; `pt` is declared `int`, so the pT is truncated. -/
def loop6_7 (Particles6_7 : List Particle) (alljets : List Jet) : List Fill :=
  Particles6_7.flatMap (fun p =>
    let pt : ℤ := trunc p.pT
    let phi := p.phi
    if p.isHadron && p.isCharged then
      (Hist._hs_Ntrig_6_7, (pt : ℚ)) :: jetLoop Hist._hs_pTJet_all_6_7 Hist._hs_pTJet_6_7 phi alljets
    else [])

/-- The loop over `Particles8_9`. Its closing brace is at line 311 of the
source, after the loop over `Particles6_7`, which is therefore part of its
body and runs once for every element of `Particles8_9`. -/
def loop8_9 (Particles8_9 Particles6_7 : List Particle) (alljets : List Jet) : List Fill :=
  Particles8_9.flatMap (fun p =>
    let pt : ℤ := trunc p.pT
    let phi := p.phi
    (if p.isHadron && p.isCharged then
      (Hist._hs_Ntrig_8_9, (pt : ℚ)) :: jetLoop Hist._hs_pTJet_all_8_9 Hist._hs_pTJet_8_9 phi alljets
    else [])
      ++ loop6_7 Particles6_7 alljets)

/-- The loop over `Particles1`. -/
def loop1 (Particles1 : List Particle) (alljets : List Jet) : List Fill :=
  Particles1.flatMap (fun p =>
    let pt : ℤ := trunc p.pT
    let phi := p.phi
    if p.isHadron && p.isCharged then
      (Hist._hs_Ntrig_1, (pt : ℚ)) :: jetLoop Hist._hs_pTJet_all_1 Hist._hs_pTJet_1 phi alljets
    else [])

/-- The loop over `Particles_eta`. -/
def loop_eta (Particles_eta : List Particle) (alljets : List Jet) : List Fill :=
  Particles_eta.flatMap (fun p =>
    let pt : ℤ := trunc p.pT
    let phi := p.phi
    if p.isHadron && p.isCharged then
      (Hist._hs_Ntrig_eta, (pt : ℚ)) :: jetLoop Hist._hs_pTJet_all_eta Hist._hs_pTJet_eta phi alljets
    else [])

/-- The loop over `Particles12_50`. -/
def loop12_50 (Particles12_50 : List Particle) (alljets : List Jet) : List Fill :=
  Particles12_50.flatMap (fun p =>
    let pt : ℤ := trunc p.pT
    let phi := p.phi
    if p.isHadron && p.isCharged then
      (Hist._hs_Ntrig_12_50, (pt : ℚ))
        :: jetLoop Hist._hs_pTJet_all_12_50 Hist._hs_pTJet_12_50 phi alljets
    else [])

/-- The method `USPJWL_HJET::analyze`: the fills one event makes. The counters
`counter_hadrons...` that the loops also increment are not histograms and are
not part of the list. -/
def analyze (evt : Event) : List Fill :=
  let alljets := jetsByPt jetcuts evt.jets
  let Particles := evt.allParticles.filter partcuts
  let Particles8_9 := evt.allParticles.filter partcuts8_9
  let Particles6_7 := evt.allParticles.filter partcuts6_7
  let Particles12_50 := evt.allParticles.filter partcuts12_50
  let Particles1 := evt.allParticles.filter partcuts1
  let Particles_eta := evt.allParticles.filter partcuts_eta
  loop20_50 Particles alljets
    ++ loop8_9 Particles8_9 Particles6_7 alljets
    ++ loop1 Particles1 alljets
    ++ loop_eta Particles_eta alljets
    ++ loop12_50 Particles12_50 alljets

/-- The three histograms of the 6-7 trigger class. -/
def Hist.is6_7 : Hist → Bool
  | ._hs_Ntrig_6_7 | ._hs_pTJet_all_6_7 | ._hs_pTJet_6_7 => true
  | _ => false

/-- A call the analysis makes on a histogram: `h->fill(x)` or `scale(h, f)`. -/
inductive Call
  | fill (h : Hist) (x : ℚ)
  | scale (h : Hist) (f : ℚ)
  deriving DecidableEq

/-- The method `USPJWL_HJET::finalize`: its six `scale` calls, in order. -/
def finalize : List Call :=
  [Call.scale Hist._hs_pTJet (1 / (2 * etamax_jet)),
   Call.scale Hist._hs_pTJet_8_9 (1 / (2 * etamax_jet)),
   Call.scale Hist._hs_pTJet_6_7 (1 / (2 * etamax_jet)),
   Call.scale Hist._hs_pTJet_12_50 (1 / (2 * etamax_jet)),
   Call.scale Hist._hs_pTJet_1 (1 / (2 * etamax_jet)),
   Call.scale Hist._hs_pTJet_eta (1 / (2 * etamax_jet))]

/-- A run of the analysis after `init`: `analyze` on every event in turn, then
`finalize`. -/
def run (events : List Event) : List Call :=
  events.flatMap (fun evt => (analyze evt).map (fun f => Call.fill f.1 f.2)) ++ finalize

/-- The `scale` calls of a list of calls, as pairs (histogram, factor). -/
def scaleCalls : List Call → List (Hist × ℚ)
  | [] => []
  | Call.scale h f :: rest => (h, f) :: scaleCalls rest
  | Call.fill _ _ :: rest => scaleCalls rest

/-- The data members that `analyze` writes: the six trigger counters. -/
structure State where
  counter_hadrons : ℚ
  counter_hadrons8_9 : ℚ
  counter_hadrons6_7 : ℚ
  counter_hadrons12_50 : ℚ
  counter_hadrons1 : ℚ
  counter_hadrons_eta : ℚ
  deriving DecidableEq

/-- The values `init` gives the six counters. -/
def State.init : State :=
  { counter_hadrons := 0, counter_hadrons8_9 := 0, counter_hadrons6_7 := 0,
    counter_hadrons12_50 := 0, counter_hadrons1 := 0, counter_hadrons_eta := 0 }

/-- A loop over a vector whose body reads and writes the data members and
makes fills. -/
def loopS {α : Type} (body : α → State → State × List Fill) : List α → State → State × List Fill
  | [], s => (s, [])
  | x :: xs, s =>
    let r1 := body x s
    let r2 := loopS body xs r1.1
    (r2.1, r1.2 ++ r2.2)

/-- The loop over `Particles` with its counter `counter_hadrons`. -/
def loop20_50S (Particles : List Particle) (alljets : List Jet) : State → State × List Fill :=
  loopS (fun p s =>
    let phi := p.phi
    let pt := p.pT
    if p.isHadron && p.isCharged then
      ({ s with counter_hadrons := s.counter_hadrons + 1 },
        (Hist._hs_Ntrig, pt) :: jetLoop Hist._hs_pTJet_all Hist._hs_pTJet phi alljets)
    else (s, [])) Particles

/-- The loop over `Particles6_7` with its counter `counter_hadrons6_7`. -/
def loop6_7S (Particles6_7 : List Particle) (alljets : List Jet) : State → State × List Fill :=
  loopS (fun p s =>
    let pt : ℤ := trunc p.pT
    let phi := p.phi
    if p.isHadron && p.isCharged then
      ({ s with counter_hadrons6_7 := s.counter_hadrons6_7 + 1 },
        (Hist._hs_Ntrig_6_7, (pt : ℚ))
          :: jetLoop Hist._hs_pTJet_all_6_7 Hist._hs_pTJet_6_7 phi alljets)
    else (s, [])) Particles6_7

/-- The loop over `Particles8_9` with its counter `counter_hadrons8_9`; the loop
over `Particles6_7` is part of its body. -/
def loop8_9S (Particles8_9 Particles6_7 : List Particle) (alljets : List Jet) :
    State → State × List Fill :=
  loopS (fun p s =>
    let pt : ℤ := trunc p.pT
    let phi := p.phi
    let r1 : State × List Fill :=
      if p.isHadron && p.isCharged then
        ({ s with counter_hadrons8_9 := s.counter_hadrons8_9 + 1 },
          (Hist._hs_Ntrig_8_9, (pt : ℚ))
            :: jetLoop Hist._hs_pTJet_all_8_9 Hist._hs_pTJet_8_9 phi alljets)
      else (s, [])
    let r2 := loop6_7S Particles6_7 alljets r1.1
    (r2.1, r1.2 ++ r2.2)) Particles8_9

/-- The loop over `Particles1` with its counter `counter_hadrons1`. -/
def loop1S (Particles1 : List Particle) (alljets : List Jet) : State → State × List Fill :=
  loopS (fun p s =>
    let pt : ℤ := trunc p.pT
    let phi := p.phi
    if p.isHadron && p.isCharged then
      ({ s with counter_hadrons1 := s.counter_hadrons1 + 1 },
        (Hist._hs_Ntrig_1, (pt : ℚ)) :: jetLoop Hist._hs_pTJet_all_1 Hist._hs_pTJet_1 phi alljets)
    else (s, [])) Particles1

/-- The loop over `Particles_eta` with its counter `counter_hadrons_eta`. -/
def loop_etaS (Particles_eta : List Particle) (alljets : List Jet) :
    State → State × List Fill :=
  loopS (fun p s =>
    let pt : ℤ := trunc p.pT
    let phi := p.phi
    if p.isHadron && p.isCharged then
      ({ s with counter_hadrons_eta := s.counter_hadrons_eta + 1 },
        (Hist._hs_Ntrig_eta, (pt : ℚ))
          :: jetLoop Hist._hs_pTJet_all_eta Hist._hs_pTJet_eta phi alljets)
    else (s, [])) Particles_eta

/-- The loop over `Particles12_50` with its counter `counter_hadrons12_50`. -/
def loop12_50S (Particles12_50 : List Particle) (alljets : List Jet) :
    State → State × List Fill :=
  loopS (fun p s =>
    let pt : ℤ := trunc p.pT
    let phi := p.phi
    if p.isHadron && p.isCharged then
      ({ s with counter_hadrons12_50 := s.counter_hadrons12_50 + 1 },
        (Hist._hs_Ntrig_12_50, (pt : ℚ))
          :: jetLoop Hist._hs_pTJet_all_12_50 Hist._hs_pTJet_12_50 phi alljets)
    else (s, [])) Particles12_50

/-- The method `USPJWL_HJET::analyze` with the data members it writes: from the
counters before the event to the counters after it and the fills it makes. -/
def analyzeS (s : State) (evt : Event) : State × List Fill :=
  let alljets := jetsByPt jetcuts evt.jets
  let Particles := evt.allParticles.filter partcuts
  let Particles8_9 := evt.allParticles.filter partcuts8_9
  let Particles6_7 := evt.allParticles.filter partcuts6_7
  let Particles12_50 := evt.allParticles.filter partcuts12_50
  let Particles1 := evt.allParticles.filter partcuts1
  let Particles_eta := evt.allParticles.filter partcuts_eta
  let r1 := loop20_50S Particles alljets s
  let r2 := loop8_9S Particles8_9 Particles6_7 alljets r1.1
  let r3 := loop1S Particles1 alljets r2.1
  let r4 := loop_etaS Particles_eta alljets r3.1
  let r5 := loop12_50S Particles12_50 alljets r4.1
  (r5.1, r1.2 ++ r2.2 ++ r3.2 ++ r4.2 ++ r5.2)

/-- The event loop: `analyzeS` on every event in turn, from the counters `s`. -/
def runS : State → List Event → State × List Fill
  | s, [] => (s, [])
  | s, evt :: rest =>
    let r1 := analyzeS s evt
    let r2 := runS r1.1 rest
    (r2.1, r1.2 ++ r2.2)

end USPJWL_HJET

/-! ## USPJWL_SUBFRAG -/

namespace USPJWL_SUBFRAG

/-- The histograms of the analysis, under the names of the data members. -/
inductive Hist
  | zfull_1 | zhigh_1 | zhighd_1 | zcustom_1
  | zfull_2 | zhigh_2 | zhighd_2 | zcustom_2
  | jetcount
  deriving DecidableEq

/-- One call `h -> fill(x)`. -/
abbrev Fill := Hist × ℚ

/-- The cut `Cuts::pT > 80 * GeV && Cuts::pT < 150 * GeV && Cuts::abseta < etamax`,
`etamax = 0.9 - RJETS_f`. -/
def jetcuts (RJETS_f : ℚ) (j : Jet) : Bool :=
  decide (j.pT > 80 ∧ j.pT < 150 ∧ |j.eta| < 0.9 - RJETS_f)

/-- The reclustering radii `rs`. -/
def rs : List ℚ := [0.1, 0.2]

/-- The vector `histos` chosen by `if (r == 0.1)`. -/
def histos (r : ℚ) : Fin 4 → Hist :=
  if r = 0.1 then ![Hist.zfull_1, Hist.zhigh_1, Hist.zhighd_1, Hist.zcustom_1]
  else ![Hist.zfull_2, Hist.zhigh_2, Hist.zhighd_2, Hist.zcustom_2]

/-- Runs `body` on each element in turn and joins the fills; undefined as
soon as one run is. -/
def runAll {α : Type} (body : α → Option (List Fill)) : List α → Option (List Fill)
  | [] => some []
  | x :: xs => do
    let a ← body x
    let b ← runAll body xs
    pure (a ++ b)

/-- The body of the loop `for (double r : rs)`. The function `inclusive_jets`
stands for fastjet: `inclusive_jets jetconsti r` is `cs.inclusive_jets()` of
the kt `ClusterSequence` of `jetconsti` at radius `r`. Reading `subjets[0]`
of an empty vector is undefined. -/
def radiusBody (inclusive_jets : List Particle → ℚ → List PseudoJet)
    (jetconsti : List Particle) (jpt : ℚ) (r : ℚ) : Option (List Fill) :=
  let subjets := sorted_by_pt (inclusive_jets jetconsti r)
  match subjets[0]? with
  | none => none
  | some lead_subjet =>
    let z_lead := lead_subjet.perp / jpt
    some ((if jpt < 120 then [(histos r 1, z_lead), (Hist.jetcount, 0)] else [])
      ++ (if jpt > 100 then [(histos r 2, z_lead), (Hist.jetcount, 1)] else [])
      ++ [(histos r 3, z_lead)]
      ++ subjets.map (fun subj => (histos r 0, subj.perp / jpt)))

/-- The leading z of a jet at a radius: the pT of the first of its subjets, in
decreasing pT order, over the pT of the jet (0 for a jet without subjets). -/
def leadZ (inclusive_jets : List Particle → ℚ → List PseudoJet) (r : ℚ) (j : Jet) : ℚ :=
  match (sorted_by_pt (inclusive_jets j.constituents r))[0]? with
  | some lead_subjet => lead_subjet.perp / j.pT
  | none => 0

/-- The body of the loop `for (const Jet& j : jets)`. -/
def jetBody (inclusive_jets : List Particle → ℚ → List PseudoJet) (j : Jet) :
    Option (List Fill) :=
  let jetconsti := j.constituents
  let jpt := j.pT
  runAll (radiusBody inclusive_jets jetconsti jpt) rs

/-- The method `USPJWL_SUBFRAG::analyze`: the fills one event makes, or `none` when
the run is undefined. -/
def analyze (inclusive_jets : List Particle → ℚ → List PseudoJet) (RJETS_f : ℚ)
    (evt : Event) : Option (List Fill) :=
  let jets := jetsByPt (jetcuts RJETS_f) evt.jets
  runAll (jetBody inclusive_jets) jets

end USPJWL_SUBFRAG

/-! ## USPJWL_JET_MASS -/

namespace USPJWL_JET_MASS

/-- The histograms of the analysis: the array `_hs_mass[13]`, by index, and
`_h_JetpT_NSub_04`. -/
inductive Hist
  | _hs_mass (i : Nat)
  | _h_JetpT_NSub_04
  deriving DecidableEq

/-- One call `h->fill(x)`. -/
abbrev Fill := Hist × ℚ

/-- The values `init` gives the data members `_jetR`, `_pTCut`, `_etaMax`. -/
def _jetR : ℚ := 0.4

def _pTCut : ℚ := 0.15

def _etaMax : ℚ := 0.9

/-- The cut `(Cuts::abseta < _etaMax) & (Cuts::pT > _pTCut*GeV)`. -/
def cuts (j : Jet) : Bool := decide (|j.eta| < _etaMax ∧ j.pT > _pTCut)

/-- The body of the first loop over `jets_noSub_04`. -/
def ptBody (jet : Jet) : List Fill :=
  if |jet.eta| < 0.5 ∧ jet.pT > 20.0 then [(Hist._h_JetpT_NSub_04, jet.pT)] else []

/-- The body of the second loop over `jets_noSub_04`: the chain of thirteen
range tests on the jet pT. -/
def massBody (jet : Jet) : List Fill :=
  let m := jet.mass
  let eta := jet.eta
  let pt := jet.pT
  if m ≥ 0 ∧ |eta| < _etaMax - _jetR then
    (if 60.0 ≤ pt ∧ pt < 80.0 then [(Hist._hs_mass 0, m)] else [])
      ++ (if 80.0 ≤ pt ∧ pt < 100.0 then [(Hist._hs_mass 1, m)] else [])
      ++ (if 100.0 ≤ pt ∧ pt < 120.0 then [(Hist._hs_mass 2, m)] else [])
      ++ (if 120.0 ≤ pt ∧ pt < 140.0 then [(Hist._hs_mass 3, m)] else [])
      ++ (if 140.0 ≤ pt ∧ pt < 160.0 then [(Hist._hs_mass 4, m)] else [])
      ++ (if 160.0 ≤ pt ∧ pt < 180.0 then [(Hist._hs_mass 5, m)] else [])
      ++ (if 180.0 ≤ pt ∧ pt < 200.0 then [(Hist._hs_mass 6, m)] else [])
      ++ (if 200.0 ≤ pt ∧ pt < 220.0 then [(Hist._hs_mass 7, m)] else [])
      ++ (if 220.0 ≤ pt ∧ pt < 240.0 then [(Hist._hs_mass 8, m)] else [])
      ++ (if 240.0 ≤ pt ∧ pt < 260.0 then [(Hist._hs_mass 9, m)] else [])
      ++ (if 260.0 ≤ pt ∧ pt < 280.0 then [(Hist._hs_mass 10, m)] else [])
      ++ (if 280.0 ≤ pt ∧ pt < 300.0 then [(Hist._hs_mass 11, m)] else [])
      ++ (if 300.0 ≤ pt then [(Hist._hs_mass 12, m)] else [])
  else []

/-- The method `USPJWL_JET_MASS::analyze`: the fills one event makes. -/
def analyze (evt : Event) : List Fill :=
  let jets_noSub_04 := jetsByPt cuts evt.jets
  jets_noSub_04.flatMap ptBody ++ jets_noSub_04.flatMap massBody

/-- The index the specification gives for the mass histogram of a jet of
transverse momentum `pt`: min(floor((pT - 60) / 20), 12). It is compared with
the chain of range tests of `massBody`. -/
def specMassBin (pt : ℚ) : Nat := min (⌊(pt - 60) / 20⌋.toNat) 12

/-- A jet of pT 125 and mass 10 at eta = 0, made of one particle. -/
def jet125 : Jet :=
  { pT := 125, eta := 0, rap := 0, phi := 0, mass := 10,
    constituents := [{ pT := 125, eta := 0, phi := 0, isHadron := true, isCharged := true }] }

end USPJWL_JET_MASS

/-! ## EXTRA (USPJWL_EXTRASPEC.cc) -/

namespace EXTRA

/-- The histograms of the analysis, under the names of the data members. -/
inductive Hist
  | _hist_jet | _hist_alice | _hist_alice2 | _hist_cms
  deriving DecidableEq

/-- One call `h -> fill(x)`. -/
abbrev Fill := Hist × ℚ

/-- The cut `Cuts::pT > (10 * RJETS_f + 3) * GeV` on the constituents. -/
def cutlead (RJETS_f : ℚ) (p : Particle) : Bool := decide (p.pT > 10 * RJETS_f + 3)

/-- The local variable `etaspace`. -/
def etaspace (RJETS_f : ℚ) : ℚ := if RJETS_f ≤ 0.4 then 0.7 - RJETS_f else 3.2 - RJETS_f

/-- The cut `Cuts::pT > 40 * GeV && Cuts::abseta < etamax`, `etamax = 3.2 - RJETS_f`. -/
def jetcuts (RJETS_f : ℚ) (j : Jet) : Bool :=
  decide (j.pT > 40 ∧ |j.eta| < 3.2 - RJETS_f)

/-- The vector `sizelead` after the first loop over the jets: for each jet, the
number of its constituents that pass `cutlead`. -/
def sizelead (RJETS_f : ℚ) (jets : List Jet) : List ℤ :=
  jets.map (fun j => ((j.constituents.filter (cutlead RJETS_f)).length : ℤ))

/-- The second loop over the jets, from the jet at position `counter_jets` on.
Reading `sizelead[counter_jets]` past the end of the vector is undefined. -/
def fillLoop (RJETS_f : ℚ) (sizelead : List ℤ) : List Jet → Nat → Option (List Fill)
  | [], _ => some []
  | j :: rest, counter_jets =>
    let y := |j.rap|
    let pt := j.pT
    let eta := |j.eta|
    let fjet : List Fill := if y ≤ 1.2 then [(Hist._hist_jet, pt)] else []
    let fcms : List Fill := if eta ≤ 2 then [(Hist._hist_cms, pt)] else []
    let falice : Option (List Fill) :=
      if eta ≤ etaspace RJETS_f then
        match sizelead[counter_jets]? with
        | none => none
        | some n => some ((Hist._hist_alice2, pt) :: (if n > 0 then [(Hist._hist_alice, pt)] else []))
      else some []
    match falice with
    | none => none
    | some fa =>
      match fillLoop RJETS_f sizelead rest (counter_jets + 1) with
      | none => none
      | some frest => some (fjet ++ fcms ++ fa ++ frest)

/-- The method `EXTRA::analyze`: the fills one event makes, or `none` when the
run is undefined. -/
def analyze (RJETS_f : ℚ) (evt : Event) : Option (List Fill) :=
  let jets := jetsByPt (jetcuts RJETS_f) evt.jets
  fillLoop RJETS_f (sizelead RJETS_f jets) jets 0

end EXTRA

/-! ## Example events -/

/-- A jet of pT 100 at eta = 0, phi = 0, made of one particle. -/
def RAA_ATLAS.jet100 : Jet :=
  { pT := 100, eta := 0, rap := 0, phi := 0, mass := 0,
    constituents := [{ pT := 100, eta := 0, phi := 0, isHadron := true, isCharged := true }] }

/-- A jet of pT 40 at eta = 0, phi = pi, made of one particle. -/
def RAA_ATLAS.jet40back : Jet :=
  { pT := 40, eta := 0, rap := 0, phi := M_PI, mass := 0,
    constituents := [{ pT := 40, eta := 0, phi := M_PI, isHadron := true, isCharged := true }] }

/-- A jet of pT 40 at eta = 0, phi = pi / 2, made of one particle. -/
def RAA_ATLAS.jet40side : Jet :=
  { pT := 40, eta := 0, rap := 0, phi := M_PI / 2, mass := 0,
    constituents :=
      [{ pT := 40, eta := 0, phi := M_PI / 2, isHadron := true, isCharged := true }] }

/-- The dijet scenario of the specification: the jets (pT = 100, phi = 0) and
(pT = 40, phi = pi). -/
def RAA_ATLAS.dijetEvent : Event :=
  { allParticles := RAA_ATLAS.jet100.constituents ++ RAA_ATLAS.jet40back.constituents,
    jets := [RAA_ATLAS.jet100, RAA_ATLAS.jet40back] }

/-- An event with the one jet (pT = 100, phi = 0). -/
def RAA_ATLAS.singleJetEvent : Event :=
  { allParticles := RAA_ATLAS.jet100.constituents, jets := [RAA_ATLAS.jet100] }

/-- An event with two jets a quarter turn apart, (pT = 100, phi = 0) and
(pT = 40, phi = pi / 2). -/
def RAA_ATLAS.sideEvent : Event :=
  { allParticles := RAA_ATLAS.jet100.constituents ++ RAA_ATLAS.jet40side.constituents,
    jets := [RAA_ATLAS.jet100, RAA_ATLAS.jet40side] }

/-- A charged hadron of pT 6.5 at eta = 0, phi = 0: inside the 6-7 trigger
window and outside the 8-9 window. -/
def USPJWL_HJET.hadron6_7 : Particle :=
  { pT := 6.5, eta := 0, phi := 0, isHadron := true, isCharged := true }

/-- A charged hadron of pT 30 at eta = 0, phi = pi. -/
def USPJWL_HJET.hadron30 : Particle :=
  { pT := 30, eta := 0, phi := M_PI, isHadron := true, isCharged := true }

/-- A neutral hadron of pT 8.5 at eta = 0, phi = pi / 2: inside the 8-9 window of
the cut `partcuts8_9`, outside the 6-7 window, and not a constituent of any
charged jet. -/
def USPJWL_HJET.neutral8_9 : Particle :=
  { pT := 8.5, eta := 0, phi := M_PI / 2, isHadron := true, isCharged := false }

/-- A second neutral hadron of pT 8.5, at phi = 3 pi / 2. -/
def USPJWL_HJET.neutral8_9b : Particle :=
  { pT := 8.5, eta := 0, phi := 3 * M_PI / 2, isHadron := true, isCharged := false }

/-- The charged jet made of the hadron of pT 30. -/
def USPJWL_HJET.jet30 : Jet :=
  { pT := 30, eta := 0, rap := 0, phi := M_PI, mass := 0,
    constituents := [USPJWL_HJET.hadron30] }

/-- The charged jet made of the hadron of pT 6.5. -/
def USPJWL_HJET.jet6_5 : Jet :=
  { pT := 6.5, eta := 0, rap := 0, phi := 0, mass := 0,
    constituents := [USPJWL_HJET.hadron6_7] }

/-- An event with the two charged hadrons, back to back, and their jets. -/
def USPJWL_HJET.event6_7 : Event :=
  { allParticles := [USPJWL_HJET.hadron6_7, USPJWL_HJET.hadron30],
    jets := [USPJWL_HJET.jet30, USPJWL_HJET.jet6_5] }

/-- The same event with a neutral hadron of the 8-9 window added; the charged
jets are the same. -/
def USPJWL_HJET.event6_7_8_9 : Event :=
  { allParticles := [USPJWL_HJET.hadron6_7, USPJWL_HJET.hadron30, USPJWL_HJET.neutral8_9],
    jets := [USPJWL_HJET.jet30, USPJWL_HJET.jet6_5] }

/-- The same event with two neutral hadrons of the 8-9 window added. -/
def USPJWL_HJET.event6_7_8_9_8_9 : Event :=
  { allParticles := [USPJWL_HJET.hadron6_7, USPJWL_HJET.hadron30, USPJWL_HJET.neutral8_9,
      USPJWL_HJET.neutral8_9b],
    jets := [USPJWL_HJET.jet30, USPJWL_HJET.jet6_5] }

/-- A clustering that makes every constituent a subjet of its own, as the kt
algorithm does when no two constituents are within the radius. -/
def USPJWL_SUBFRAG.singletons (jetconsti : List Particle) (_r : ℚ) : List PseudoJet :=
  jetconsti.map (fun p => { perp := p.pT })

/-- A jet of pT 100 inside the jet cuts, without constituents. -/
def USPJWL_SUBFRAG.emptyJet : Jet :=
  { pT := 100, eta := 0, rap := 0, phi := 0, mass := 0, constituents := [] }

/-- A jet of pT 90 inside the jet cuts, made of one particle. -/
def USPJWL_SUBFRAG.oneParticleJet : Jet :=
  { pT := 90, eta := 0, rap := 0, phi := 0, mass := 0,
    constituents := [{ pT := 90, eta := 0, phi := 0, isHadron := true, isCharged := true }] }

/-- A jet of pT 80 inside the pseudorapidity cut, made of one particle. -/
def USPJWL_SUBFRAG.jet80 : Jet :=
  { pT := 80, eta := 0, rap := 0, phi := 1.5, mass := 0,
    constituents := [{ pT := 80, eta := 0, phi := 1.5, isHadron := true, isCharged := true }] }

/-- A jet of pT 150 inside the pseudorapidity cut, made of one particle. -/
def USPJWL_SUBFRAG.jet150 : Jet :=
  { pT := 150, eta := 0, rap := 0, phi := 0, mass := 0,
    constituents := [{ pT := 150, eta := 0, phi := 0, isHadron := true, isCharged := true }] }

/-- A jet of pT 110 inside the jet cuts, made of two particles of pT 70 and 40. -/
def USPJWL_SUBFRAG.jet110 : Jet :=
  { pT := 110, eta := 0, rap := 0, phi := 0, mass := 0,
    constituents := [{ pT := 40, eta := 0, phi := 0.3, isHadron := true, isCharged := true },
                     { pT := 70, eta := 0, phi := 0, isHadron := true, isCharged := true }] }

/-- A jet of pT 130 inside the jet cuts, made of one particle. -/
def USPJWL_SUBFRAG.jet130 : Jet :=
  { pT := 130, eta := 0, rap := 0, phi := 3, mass := 0,
    constituents := [{ pT := 130, eta := 0, phi := 3, isHadron := true, isCharged := true }] }

/-- An event with jets of pT 80, 110 and 130. -/
def USPJWL_SUBFRAG.threeJetEvent : Event :=
  { allParticles := USPJWL_SUBFRAG.jet80.constituents ++ USPJWL_SUBFRAG.jet110.constituents
      ++ USPJWL_SUBFRAG.jet130.constituents,
    jets := [USPJWL_SUBFRAG.jet80, USPJWL_SUBFRAG.jet110, USPJWL_SUBFRAG.jet130] }

/-- A jet of pT 2000 at eta = 0, phi = 0, made of one particle. -/
def RAA_ATLAS.jet2000 : Jet :=
  { pT := 2000, eta := 0, rap := 0, phi := 0, mass := 0,
    constituents := [{ pT := 2000, eta := 0, phi := 0, isHadron := true, isCharged := true }] }

/-- A forward jet of pT 50 at eta = y = 2.9, made of one particle. -/
def RAA_ATLAS.forwardJet : Jet :=
  { pT := 50, eta := 2.9, rap := 2.9, phi := 0, mass := 0,
    constituents := [{ pT := 50, eta := 2.9, phi := 0, isHadron := true, isCharged := true }] }

/-- An event with a leading jet above the last pT edge: the jets (pT = 2000,
phi = 0) and (pT = 40, phi = pi). -/
def RAA_ATLAS.overflowEvent : Event :=
  { allParticles := RAA_ATLAS.jet2000.constituents ++ RAA_ATLAS.jet40back.constituents,
    jets := [RAA_ATLAS.jet2000, RAA_ATLAS.jet40back] }

/-- A charged jet of pT 30 at eta = 0 and azimuth `phi`, made of one particle. -/
def USPJWL_INOUTPLANESPEC.jetAt (phi : ℚ) : Jet :=
  { pT := 30, eta := 0, rap := 0, phi := phi, mass := 0,
    constituents := [{ pT := 30, eta := 0, phi := phi, isHadron := true, isCharged := true }] }

/-- An event with the one jet `jetAt phi`. -/
def USPJWL_INOUTPLANESPEC.eventAt (phi : ℚ) : Event :=
  { allParticles := (USPJWL_INOUTPLANESPEC.jetAt phi).constituents,
    jets := [USPJWL_INOUTPLANESPEC.jetAt phi] }

/-- A jet of pT 50 at eta = y = 0.5, phi = 0, made of one particle. -/
def RAA_ATLAS.jetMid : Jet :=
  { pT := 50, eta := 0.5, rap := 0.5, phi := 0, mass := 0,
    constituents := [{ pT := 50, eta := 0.5, phi := 0, isHadron := true, isCharged := true }] }

/-! # Theorems -/

/-! ## Bin indexer -/

/-- The scan either falls off the end of the table, every edge being below the
value, or stops at the first edge the value does not exceed, having counted the
edges before it. -/
theorem rangeScan_cases (v : ℚ) (E : List ℚ) (pos : Nat) :
    (rangeScan v E pos = 0 ∧ ∀ e ∈ E, e < v) ∨
    (∃ k hi, rangeScan v E pos = pos + k ∧ E[k]? = some hi ∧ v ≤ hi ∧
      ∀ j lo, j < k → E[j]? = some lo → lo < v) := by
  induction E generalizing pos with
  | nil => left; simp [rangeScan]
  | cons e rest ih =>
    by_cases h : v > e
    · rcases ih (pos + 1) with ⟨h0, hall⟩ | ⟨k, hi, hk, hget, hle, hlt⟩
      · left
        refine ⟨by simp [rangeScan, h, h0], ?_⟩
        intro x hx
        rcases List.mem_cons.mp hx with rfl | hx
        · exact h
        · exact hall x hx
      · right
        refine ⟨k + 1, hi, ?_, by simpa using hget, hle, ?_⟩
        · simp [rangeScan, h, hk]; omega
        · intro j lo hj hjget
          cases j with
          | zero => simp at hjget; subst hjget; exact h
          | succ j => exact hlt j lo (by omega) (by simpa using hjget)
    · right
      exact ⟨0, e, by simp [rangeScan, h], by simp, not_lt.mp h, by intro j lo hj; omega⟩

/-- In a strictly increasing table the entries grow with the position. -/
theorem sorted_getElem?_le {E : List ℚ} (hE : List.Sorted (· < ·) E) {j k : Nat} {a b : ℚ}
    (hjk : j ≤ k) (ha : E[j]? = some a) (hb : E[k]? = some b) : a ≤ b := by
  rcases Nat.eq_or_lt_of_le hjk with rfl | hlt
  · rw [ha] at hb; exact le_of_eq (Option.some.inj hb)
  · obtain ⟨hj, rfl⟩ := List.getElem?_eq_some.mp ha
    obtain ⟨hk, rfl⟩ := List.getElem?_eq_some.mp hb
    exact le_of_lt (List.pairwise_iff_getElem.mp hE j k hj hk hlt)

/-- The scan from 0 returns 0 exactly when the value is above every edge or not
above the first one. -/
theorem rangeScan_eq_zero_iff (v : ℚ) (E : List ℚ) :
    rangeScan v E 0 = 0 ↔ (∀ e ∈ E, e < v) ∨ (∃ e1, E.head? = some e1 ∧ v ≤ e1) := by
  cases E with
  | nil => simp [rangeScan]
  | cons e rest =>
    by_cases h : v > e
    · rcases rangeScan_cases v rest 1 with ⟨h0, hall⟩ | ⟨k, hi, hk, hget, hle, -⟩
      · simp only [rangeScan, h, if_true, h0, true_iff]
        left
        intro x hx
        rcases List.mem_cons.mp hx with rfl | hx
        · exact h
        · exact hall x hx
      · have hne : rangeScan v rest 1 ≠ 0 := by omega
        simp only [rangeScan, h, if_true, hne, false_iff]
        rintro (hall | ⟨e1, he1, hv⟩)
        · have hmem : hi ∈ rest := List.getElem?_mem hget
          exact absurd (hall hi (List.mem_cons_of_mem _ hmem)) (not_lt.mpr hle)
        · simp at he1; subst he1; exact absurd h (not_lt.mpr hv)
    · simp only [rangeScan, h, if_false, true_iff]
      right
      exact ⟨e, by simp, not_lt.mp h⟩

/-- In a strictly increasing table the scan from 0 returns `k ≥ 1` exactly when
the value is in the interval between the edge of position `k - 1` and the edge
of position `k` (positions counted from 0), the upper end included. -/
theorem rangeScan_eq_pos_iff {E : List ℚ} (hE : List.Sorted (· < ·) E) (v : ℚ) {k : Nat}
    (hk : 1 ≤ k) :
    rangeScan v E 0 = k ↔
      ∃ lo hi, E[k - 1]? = some lo ∧ E[k]? = some hi ∧ lo < v ∧ v ≤ hi := by
  constructor
  · intro h
    rcases rangeScan_cases v E 0 with ⟨h0, -⟩ | ⟨k1, hi, hk1, hget, hle, hlt⟩
    · omega
    · have hkk : k1 = k := by omega
      subst hkk
      have hlen : k1 < E.length := (List.getElem?_eq_some.mp hget).1
      have hlo : E[k1 - 1]? = some (E[k1 - 1]) := List.getElem?_eq_getElem (by omega)
      exact ⟨_, hi, hlo, hget, hlt _ _ (by omega) hlo, hle⟩
  · rintro ⟨lo, hi, hlo, hhi, hlt, hle⟩
    rcases rangeScan_cases v E 0 with ⟨-, hall⟩ | ⟨k1, hi1, hk1, hget, hle1, hlt1⟩
    · exact absurd (hall hi (List.getElem?_mem hhi)) (not_lt.mpr hle)
    · rw [hk1, Nat.zero_add]
      rcases Nat.lt_trichotomy k1 k with hc | hc | hc
      · have := sorted_getElem?_le hE (show k1 ≤ k - 1 by omega) hget hlo
        linarith
      · exact hc
      · have := hlt1 k hi hc hhi
        linarith

/-- The scan from 0 returns less than the number of edges (for a table that
has an edge). -/
theorem rangeScan_lt_length (v : ℚ) (E : List ℚ) (hE : E ≠ []) :
    rangeScan v E 0 < E.length := by
  rcases rangeScan_cases v E 0 with ⟨h0, -⟩ | ⟨k1, hi, hk1, hget, -, -⟩
  · rw [h0]; exact List.length_pos.mpr hE
  · have := (List.getElem?_eq_some.mp hget).1
    omega

/-- In a strictly increasing table the scan from 0 returns `i - 1` for the
1-based `i` with `e_{i-1} < v ≤ e_i`. -/
theorem rangeScan_eq_pred_of_specIndex {E : List ℚ} (hE : List.Sorted (· < ·) E) {v : ℚ}
    {i : Nat} (hi : SpecIndex E v i) : rangeScan v E 0 = i - 1 := by
  obtain ⟨h1, hlen, hle, hlt⟩ := hi
  have hget : E[i - 1]? = some (E.getD (i - 1) 0) := by
    rw [List.getD_eq_getElem?_getD, List.getElem?_eq_getElem (by omega)]; simp
  rcases Nat.eq_or_lt_of_le h1 with rfl | h2
  · refine (rangeScan_eq_zero_iff v E).mpr (Or.inr ⟨E.getD 0 0, ?_, hle⟩)
    rw [List.head?_eq_getElem?]; exact hget
  · have hget2 : E[i - 1 - 1]? = some (E.getD (i - 2) 0) := by
      rw [List.getD_eq_getElem?_getD, show i - 1 - 1 = i - 2 by omega,
        List.getElem?_eq_getElem (by omega)]; simp
    exact (rangeScan_eq_pos_iff hE v (by omega)).mpr ⟨_, _, hget2, hget, hlt h2, hle⟩

/-- The three edge tables of the code are strictly increasing. -/
theorem PTEDGES_sorted : List.Sorted (· < ·) RAA_ATLAS.pTRange.PTEDGES := by
  norm_num [RAA_ATLAS.pTRange.PTEDGES]

theorem ABSRAPEDGES_sorted : List.Sorted (· < ·) RAA_ATLAS.absrapRange.ABSRAPEDGES := by
  norm_num [RAA_ATLAS.absrapRange.ABSRAPEDGES]

theorem PTBINS_sorted : List.Sorted (· < ·) USPJWL_PHIDIST.pTRange.PTBINS := by
  norm_num [USPJWL_PHIDIST.pTRange.PTBINS]

/-- The result of `RAA_ATLAS::pTRange` is 0 exactly outside (10, 1000]. -/
theorem RAA_ATLAS.pTRange_eq_zero_iff (v : ℚ) :
    RAA_ATLAS.pTRange v = 0 ↔ v ≤ 10 ∨ 1000 < v := by
  unfold RAA_ATLAS.pTRange
  rw [rangeScan_eq_zero_iff]
  simp only [RAA_ATLAS.pTRange.PTEDGES, List.mem_cons, List.mem_singleton, forall_eq_or_imp,
    forall_eq, List.head?_cons, Option.some.injEq, exists_eq_left', List.not_mem_nil,
    false_imp_iff, implies_true, and_true]
  norm_num
  constructor
  · rintro (h | h)
    · right; exact h.2.2.2.2.2.2.2.2.2.2.2.2.2.2.2.2.2.2
    · left; exact h
  · rintro (h | h)
    · right; exact h
    · left
      refine ⟨?_, ?_, ?_, ?_, ?_, ?_, ?_, ?_, ?_, ?_, ?_, ?_, ?_, ?_, ?_, ?_, ?_, ?_, h⟩ <;> linarith

/-- The result of `RAA_ATLAS::absrapRange` is 0 exactly outside (0, 2.8]. -/
theorem RAA_ATLAS.absrapRange_eq_zero_iff (v : ℚ) :
    RAA_ATLAS.absrapRange v = 0 ↔ v ≤ 0 ∨ 2.8 < v := by
  unfold RAA_ATLAS.absrapRange
  rw [rangeScan_eq_zero_iff]
  simp only [RAA_ATLAS.absrapRange.ABSRAPEDGES, List.mem_cons, List.mem_singleton,
    forall_eq_or_imp, forall_eq, List.head?_cons, Option.some.injEq, exists_eq_left',
    List.not_mem_nil, false_imp_iff, implies_true, and_true]
  norm_num
  constructor
  · rintro (h | h)
    · right; exact h.2.2.2.2.2.2
    · left; exact h
  · rintro (h | h)
    · right; exact h
    · left
      refine ⟨?_, ?_, ?_, ?_, ?_, ?_, h⟩ <;> linarith

/-- The result of `USPJWL_PHIDIST::pTRange` is 0 exactly outside (71, 1000]. -/
theorem USPJWL_PHIDIST.phidist_pTRange_eq_zero_iff (v : ℚ) :
    USPJWL_PHIDIST.pTRange v = 0 ↔ v ≤ 71 ∨ 1000 < v := by
  unfold USPJWL_PHIDIST.pTRange
  rw [rangeScan_eq_zero_iff]
  simp only [USPJWL_PHIDIST.pTRange.PTBINS, List.mem_cons, List.mem_singleton,
    forall_eq_or_imp, forall_eq, List.head?_cons, Option.some.injEq, exists_eq_left',
    List.not_mem_nil, false_imp_iff, implies_true, and_true]
  norm_num
  constructor
  · rintro (h | h)
    · right; exact h.2.2.2.2.2.2.2.2.2.2.2.2
    · left; exact h
  · rintro (h | h)
    · right; exact h
    · left
      refine ⟨?_, ?_, ?_, ?_, ?_, ?_, ?_, ?_, ?_, ?_, ?_, ?_, h⟩ <;> linarith

theorem RAA_ATLAS.pTRange_le (v : ℚ) : RAA_ATLAS.pTRange v ≤ 18 := by
  have := rangeScan_lt_length v RAA_ATLAS.pTRange.PTEDGES (by simp [RAA_ATLAS.pTRange.PTEDGES])
  simp only [RAA_ATLAS.pTRange.PTEDGES, List.length_cons, List.length_nil] at this
  unfold RAA_ATLAS.pTRange RAA_ATLAS.pTRange.PTEDGES
  omega

theorem RAA_ATLAS.absrapRange_le (v : ℚ) : RAA_ATLAS.absrapRange v ≤ 6 := by
  have := rangeScan_lt_length v RAA_ATLAS.absrapRange.ABSRAPEDGES
    (by simp [RAA_ATLAS.absrapRange.ABSRAPEDGES])
  simp only [RAA_ATLAS.absrapRange.ABSRAPEDGES, List.length_cons, List.length_nil] at this
  unfold RAA_ATLAS.absrapRange RAA_ATLAS.absrapRange.ABSRAPEDGES
  omega

theorem USPJWL_PHIDIST.phidist_pTRange_le (v : ℚ) : USPJWL_PHIDIST.pTRange v ≤ 12 := by
  have := rangeScan_lt_length v USPJWL_PHIDIST.pTRange.PTBINS
    (by simp [USPJWL_PHIDIST.pTRange.PTBINS])
  simp only [USPJWL_PHIDIST.pTRange.PTBINS, List.length_cons, List.length_nil] at this
  unfold USPJWL_PHIDIST.pTRange USPJWL_PHIDIST.pTRange.PTBINS
  omega

/-- For an index from 1 to 18 the switch fills one xJ histogram. -/
theorem RAA_ATLAS.xjSwitch_single {k : Nat} (h1 : 1 ≤ k) (h2 : k ≤ 18) (xj : ℚ) :
    ∃ h, RAA_ATLAS.xjSwitch k xj = [(h, xj)] := by
  interval_cases k <;> exact ⟨_, rfl⟩

/-- For an index from 1 to 6 the switch fills one rapidity-slice histogram. -/
theorem RAA_ATLAS.rapSwitch_single {k : Nat} (h1 : 1 ≤ k) (h2 : k ≤ 6) (pt : ℚ) :
    ∃ h, RAA_ATLAS.rapSwitch k pt = [(h, pt)] := by
  interval_cases k <;> exact ⟨_, rfl⟩

/-- For an index from 1 to 12 the switch fills one phi histogram. -/
theorem USPJWL_PHIDIST.phiSwitch_single {k : Nat} (h1 : 1 ≤ k) (h2 : k ≤ 12) (phi : ℚ) :
    ∃ h, USPJWL_PHIDIST.phiSwitch k phi = [(h, phi)] := by
  interval_cases k <;> exact ⟨_, rfl⟩

/-- Claim C1, as stated, fails on the code: with the edges 10, 30, 60, 90 the
specification index of the value 10 is 1 and that of 10.01 is 2, and the scan
returns 0 and 1. -/
theorem rangeScan_ne_specIndex :
    List.Sorted (· < ·) ([10, 30, 60, 90] : List ℚ) ∧
    SpecIndex [10, 30, 60, 90] 10 1 ∧ rangeScan 10 [10, 30, 60, 90] 0 ≠ 1 ∧
    SpecIndex [10, 30, 60, 90] 10.01 2 ∧ rangeScan 10.01 [10, 30, 60, 90] 0 ≠ 2 := by
  refine ⟨by norm_num, by norm_num [SpecIndex], by norm_num [rangeScan],
    by norm_num [SpecIndex], by norm_num [rangeScan]⟩

/-- Claim C1, amended: for a strictly increasing edge table and a value `v`
that has a 1-based specification index `i` (`e_{i-1} < v ≤ e_i`, so `v` does
not exceed the last edge), the bin indexer returns `i - 1`, the number of
edges strictly below `v`. -/
theorem rangeScan_specIndex_pred (E : List ℚ) (v : ℚ) (i : Nat)
    (hE : List.Sorted (· < ·) E) (hi : SpecIndex E v i) :
    rangeScan v E 0 = i - 1 :=
  rangeScan_eq_pred_of_specIndex hE hi

/-- Claim C1, amended, on the example table: with the edges 10, 30, 60, 90 the
value 10 gets 0, the value 10.01 gets 1, and 1000 gets 0. -/
theorem rangeScan_specIndex_pred_witness :
    rangeScan 10 [10, 30, 60, 90] 0 = 0 ∧ rangeScan 10.01 [10, 30, 60, 90] 0 = 1 ∧
    rangeScan 1000 [10, 30, 60, 90] 0 = 0 :=
  ⟨rangeScan_specIndex_pred [10, 30, 60, 90] 10 1 (by norm_num) (by norm_num [SpecIndex]),
   rangeScan_specIndex_pred [10, 30, 60, 90] 10.01 2 (by norm_num) (by norm_num [SpecIndex]),
   by norm_num [rangeScan]⟩

/-- Claim C2: `pTRange` and `absrapRange` number the intervals between
consecutive edges of their tables. A non-zero result `k + 1` is returned exactly
for the values above the edge of position `k` and not above the edge of position
`k + 1` (positions from 0), so that 1 is the interval (10, 30] and 18 the
interval (630, 1000] of `RAA_ATLAS::pTRange`; the result is 0 exactly for the
values not above the first edge or above the last; the result is at most 18, 6
and 12, one less than the number of edges; and for every non-zero result the
switch on it has a case, which fills one histogram. -/
theorem range_numbers_intervals :
    ((∀ v k, RAA_ATLAS.pTRange v = k + 1 ↔
        ∃ lo hi, RAA_ATLAS.pTRange.PTEDGES[k]? = some lo ∧
          RAA_ATLAS.pTRange.PTEDGES[k + 1]? = some hi ∧ lo < v ∧ v ≤ hi) ∧
      (∀ v, RAA_ATLAS.pTRange v = 0 ↔ v ≤ 10 ∨ 1000 < v) ∧
      (∀ v, RAA_ATLAS.pTRange v ≤ 18) ∧
      (∀ v, RAA_ATLAS.pTRange v = 1 ↔ 10 < v ∧ v ≤ 30) ∧
      (∀ v, RAA_ATLAS.pTRange v = 18 ↔ 630 < v ∧ v ≤ 1000) ∧
      (∀ v xj, RAA_ATLAS.pTRange v = 0 ∨
        ∃ h, RAA_ATLAS.xjSwitch (RAA_ATLAS.pTRange v) xj = [(h, xj)])) ∧
    ((∀ v k, RAA_ATLAS.absrapRange v = k + 1 ↔
        ∃ lo hi, RAA_ATLAS.absrapRange.ABSRAPEDGES[k]? = some lo ∧
          RAA_ATLAS.absrapRange.ABSRAPEDGES[k + 1]? = some hi ∧ lo < v ∧ v ≤ hi) ∧
      (∀ v, RAA_ATLAS.absrapRange v = 0 ↔ v ≤ 0 ∨ 2.8 < v) ∧
      (∀ v, RAA_ATLAS.absrapRange v ≤ 6) ∧
      (∀ v pt, RAA_ATLAS.absrapRange v = 0 ∨
        ∃ h, RAA_ATLAS.rapSwitch (RAA_ATLAS.absrapRange v) pt = [(h, pt)])) ∧
    ((∀ v k, USPJWL_PHIDIST.pTRange v = k + 1 ↔
        ∃ lo hi, USPJWL_PHIDIST.pTRange.PTBINS[k]? = some lo ∧
          USPJWL_PHIDIST.pTRange.PTBINS[k + 1]? = some hi ∧ lo < v ∧ v ≤ hi) ∧
      (∀ v, USPJWL_PHIDIST.pTRange v = 0 ↔ v ≤ 71 ∨ 1000 < v) ∧
      (∀ v, USPJWL_PHIDIST.pTRange v ≤ 12) ∧
      (∀ v phi, USPJWL_PHIDIST.pTRange v = 0 ∨
        ∃ h, USPJWL_PHIDIST.phiSwitch (USPJWL_PHIDIST.pTRange v) phi = [(h, phi)])) := by
  have hpt : ∀ v k, RAA_ATLAS.pTRange v = k + 1 ↔
      ∃ lo hi, RAA_ATLAS.pTRange.PTEDGES[k]? = some lo ∧
        RAA_ATLAS.pTRange.PTEDGES[k + 1]? = some hi ∧ lo < v ∧ v ≤ hi := fun v k =>
    rangeScan_eq_pos_iff PTEDGES_sorted v (Nat.succ_le_succ (Nat.zero_le k))
  refine ⟨⟨hpt, RAA_ATLAS.pTRange_eq_zero_iff, RAA_ATLAS.pTRange_le, ?_, ?_, ?_⟩,
    ⟨fun v k => rangeScan_eq_pos_iff ABSRAPEDGES_sorted v (Nat.succ_le_succ (Nat.zero_le k)),
      RAA_ATLAS.absrapRange_eq_zero_iff, RAA_ATLAS.absrapRange_le, ?_⟩,
    ⟨fun v k => rangeScan_eq_pos_iff PTBINS_sorted v (Nat.succ_le_succ (Nat.zero_le k)),
      USPJWL_PHIDIST.phidist_pTRange_eq_zero_iff, USPJWL_PHIDIST.phidist_pTRange_le, ?_⟩⟩
  · intro v
    rw [hpt v 0]
    norm_num [RAA_ATLAS.pTRange.PTEDGES]
  · intro v
    rw [hpt v 17]
    norm_num [RAA_ATLAS.pTRange.PTEDGES]
  · intro v xj
    rcases Nat.eq_zero_or_pos (RAA_ATLAS.pTRange v) with h | h
    · exact Or.inl h
    · exact Or.inr (RAA_ATLAS.xjSwitch_single h (RAA_ATLAS.pTRange_le v) xj)
  · intro v pt
    rcases Nat.eq_zero_or_pos (RAA_ATLAS.absrapRange v) with h | h
    · exact Or.inl h
    · exact Or.inr (RAA_ATLAS.rapSwitch_single h (RAA_ATLAS.absrapRange_le v) pt)
  · intro v phi
    rcases Nat.eq_zero_or_pos (USPJWL_PHIDIST.pTRange v) with h | h
    · exact Or.inl h
    · exact Or.inr (USPJWL_PHIDIST.phiSwitch_single h (USPJWL_PHIDIST.phidist_pTRange_le v) phi)

/-- Claim C3, as stated, fails on the code: with the edges 10, 30, 60, 90 the
value 5 gets the index 0 although it exceeds no edge. -/
theorem rangeScan_zero_not_iff_exceeds :
    List.Sorted (· < ·) ([10, 30, 60, 90] : List ℚ) ∧
    ¬ (rangeScan 5 [10, 30, 60, 90] 0 = 0 ↔ ∀ e ∈ ([10, 30, 60, 90] : List ℚ), e < 5) := by
  refine ⟨by norm_num, ?_⟩
  norm_num [rangeScan]

/-- Claim C3, amended: for every edge table (strictly increasing or not) and
every value, the index is 0 if and only if the value exceeds every edge of the
table or does not exceed its first edge. -/
theorem rangeScan_zero_iff_out_of_bounds (E : List ℚ) (v : ℚ) :
    rangeScan v E 0 = 0 ↔ (∀ e ∈ E, e < v) ∨ (∃ e1, E.head? = some e1 ∧ v ≤ e1) :=
  rangeScan_eq_zero_iff v E

/-! ## Angles -/

theorem M_PI_pos : 0 < M_PI := by norm_num [M_PI]

/-- For a positive modulus, `fmod` of a value in `[k * y, (k + 1) * y)` removes
`k` times the modulus. -/
theorem fmod_eq_sub {x y : ℚ} (hy : 0 < y) (k : ℕ) (h1 : (k : ℚ) * y ≤ x)
    (h2 : x < ((k : ℚ) + 1) * y) : fmod x y = x - (k : ℚ) * y := by
  have hq1 : (k : ℚ) ≤ x / y := (le_div_iff₀ hy).mpr h1
  have hq2 : x / y < (k : ℚ) + 1 := (div_lt_iff₀ hy).mpr h2
  have hq0 : (0 : ℚ) ≤ x / y := le_trans (Nat.cast_nonneg k) hq1
  have hfloor : ⌊x / y⌋ = (k : ℤ) := by
    rw [Int.floor_eq_iff]
    exact ⟨by exact_mod_cast hq1, by exact_mod_cast hq2⟩
  simp [fmod, trunc, hq0, hfloor]

/-- The function `planeConversion` leaves an angle of [0, 2 pi) as it is. -/
theorem planeConversion_eq_self {x : ℚ} (h0 : 0 ≤ x) (h1 : x < 2 * M_PI) :
    planeConversion x = x := by
  have hpi := M_PI_pos
  unfold planeConversion
  rw [fmod_eq_sub (by linarith) 1 (by push_cast; linarith) (by push_cast; linarith)]
  push_cast; ring

theorem planeConversion_zero : planeConversion 0 = 0 :=
  planeConversion_eq_self le_rfl (by linarith [M_PI_pos])

theorem planeConversion_M_PI : planeConversion M_PI = M_PI :=
  planeConversion_eq_self M_PI_pos.le (by linarith [M_PI_pos])

/-- For `n = 2` the loop of `isInPlane` runs once: `dists` holds the distance to
`psi` alone. -/
theorem isInPlane_two (phi psi : ℚ) :
    isInPlane phi psi 2 = some (decide (angDistance phi psi < M_PI / 6)) := by
  have hr : ((2 : ℤ) - 1).toNat = 1 := by decide
  have ht : (2 / 3 : ℚ) * M_PI / (2 * ((2 : ℤ) : ℚ)) = M_PI / 6 := by push_cast; ring
  simp only [isInPlane, isInPlane.dists, hr, ht]
  simp [List.range_succ, List.min?]

/-- Claim C4, evaluated on the code at phi = pi, psi = 0, n = 2 (both angles in
[0, 2 pi)): the image of psi for k = 1 is at distance 0 from phi, below the
threshold, so the minimum over the two images is below it, and `isInPlane`
returns false. -/
theorem isInPlane_misses_last_image :
    (0 ≤ M_PI ∧ M_PI < 2 * M_PI) ∧
    angDistance M_PI (0 + 2 * M_PI * 1 / 2) < (2 / 3) * M_PI / (2 * 2) ∧
    isInPlane M_PI 0 2 = some false := by
  have hpi := M_PI_pos
  refine ⟨⟨hpi.le, by linarith⟩, ?_, ?_⟩
  · have h1 : (0 : ℚ) + 2 * M_PI * 1 / 2 = M_PI := by ring
    rw [h1]
    simp only [angDistance, sub_self, abs_zero]
    rw [if_neg (by linarith)]
    linarith
  · rw [isInPlane_two]
    have hd : angDistance M_PI 0 = M_PI := by
      simp only [angDistance, planeConversion_zero, planeConversion_M_PI, sub_zero,
        abs_of_pos hpi]
      rw [if_neg (lt_irrefl _)]
    rw [hd]
    simp only [Option.some.injEq, decide_eq_false_iff_not, not_lt]
    linarith

/-- Claim C5, evaluated on the code at phi = 0, psi = 0, n = 2, k = 1: phi is
in-plane for psi and not in-plane for the image psi + 2 pi k / n = pi of psi. -/
theorem isInPlane_not_image_invariant :
    isInPlane 0 0 2 = some true ∧ isInPlane 0 (0 + 2 * M_PI * 1 / 2) 2 = some false := by
  have hpi := M_PI_pos
  have h1 : (0 : ℚ) + 2 * M_PI * 1 / 2 = M_PI := by ring
  rw [h1, isInPlane_two, isInPlane_two]
  have hd0 : angDistance 0 0 = 0 := by
    simp only [angDistance, sub_self, abs_zero]
    rw [if_neg (by linarith)]
  have hd : angDistance 0 M_PI = M_PI := by
    simp only [angDistance, planeConversion_zero, planeConversion_M_PI, zero_sub, abs_neg,
      abs_of_pos hpi]
    rw [if_neg (lt_irrefl _)]
  rw [hd0, hd]
  refine ⟨?_, ?_⟩
  · simp only [Option.some.injEq, decide_eq_true_eq]
    linarith
  · simp only [Option.some.injEq, decide_eq_false_iff_not, not_lt]
    linarith

/-- The function `fmod` leaves a value smaller in absolute value than the modulus as it is. -/
theorem fmod_eq_self {x y : ℚ} (h : |x| < y) : fmod x y = x := by
  have hy : 0 < y := lt_of_le_of_lt (abs_nonneg x) h
  obtain ⟨hlo, hhi⟩ := abs_lt.mp h
  have ht : trunc (x / y) = 0 := by
    unfold trunc
    split
    · rename_i h0
      rw [Int.floor_eq_iff]
      exact ⟨by simpa using h0, by rw [Int.cast_zero, zero_add]; exact (div_lt_one hy).mpr hhi⟩
    · rename_i h0
      rw [Int.ceil_eq_iff]
      refine ⟨?_, by simpa using (not_le.mp h0).le⟩
      rw [Int.cast_zero, zero_sub, lt_div_iff₀ hy]
      linarith
  simp [fmod, ht]

/-- Two jets in the same direction have no azimuthal separation. -/
theorem deltaPhi_self (x : ℚ) : deltaPhi x x = 0 := by
  have hpi := M_PI_pos
  have hf : fmod 0 (2 * M_PI) = 0 := fmod_eq_self (by simpa using hpi)
  simp only [deltaPhi, mapAngleMPiToPi, sub_self, hf]
  rw [if_neg (by linarith), if_neg (by linarith)]
  simp

/-- The directions 0 and pi are back to back. -/
theorem deltaPhi_zero_M_PI : deltaPhi 0 M_PI = M_PI := by
  have hpi := M_PI_pos
  have hf : fmod (-M_PI) (2 * M_PI) = -M_PI :=
    fmod_eq_self (by rw [abs_neg, abs_of_pos hpi]; linarith)
  simp only [deltaPhi, mapAngleMPiToPi, zero_sub, hf]
  rw [if_neg (by linarith), if_pos le_rfl]
  rw [show -M_PI + 2 * M_PI = M_PI by ring, abs_of_pos hpi]

/-- The directions 0 and pi / 2 are a quarter turn apart. -/
theorem deltaPhi_zero_half_M_PI : deltaPhi 0 (M_PI / 2) = M_PI / 2 := by
  have hpi := M_PI_pos
  have hf : fmod (-(M_PI / 2)) (2 * M_PI) = -(M_PI / 2) :=
    fmod_eq_self (by rw [abs_neg, abs_of_pos (by linarith)]; linarith)
  simp only [deltaPhi, mapAngleMPiToPi, zero_sub, hf]
  rw [if_neg (by linarith), if_neg (by linarith), abs_neg, abs_of_pos (by linarith)]

/-! ## Dijet asymmetry (RAA_ATLAS) -/

theorem RAA_ATLAS.rapSwitch_isDijet (k : Nat) (pt : ℚ) :
    ∀ f ∈ RAA_ATLAS.rapSwitch k pt, f.1.isDijet = false := by
  unfold RAA_ATLAS.rapSwitch
  split <;> simp [RAA_ATLAS.Hist.isDijet]

theorem RAA_ATLAS.xjSwitch_isDijet (k : Nat) (xj : ℚ) :
    ∀ f ∈ RAA_ATLAS.xjSwitch k xj, f.1.isDijet = true := by
  unfold RAA_ATLAS.xjSwitch
  split <;> simp [RAA_ATLAS.Hist.isDijet]

theorem RAA_ATLAS.jetBody_isDijet (j : Jet) :
    ∀ f ∈ RAA_ATLAS.jetBody j, f.1.isDijet = false := by
  intro f hf
  simp only [RAA_ATLAS.jetBody, List.mem_append, List.mem_singleton] at hf
  rcases hf with (((hf | hf) | hf) | hf) | hf
  · exact RAA_ATLAS.rapSwitch_isDijet _ _ f hf
  · split at hf <;> simp at hf; subst hf; rfl
  · split at hf <;> simp at hf; subst hf; rfl
  · split at hf <;> simp at hf; subst hf; rfl
  · subst hf; rfl

/-- The xJ section when at least two jets pass the xJ cuts. -/
theorem RAA_ATLAS.xjSection_of_two {jets : List Jet} {j0 j1 : Jet} {rest : List Jet}
    (h : jets.filter RAA_ATLAS.xjcuts = j0 :: j1 :: rest) :
    RAA_ATLAS.xjSection jets =
      if deltaPhi j0.phi j1.phi > 7 * M_PI / 8 then
        [(RAA_ATLAS.Hist._counter, 1), (RAA_ATLAS.Hist._lead, j0.pT),
          (RAA_ATLAS.Hist._sublead, j1.pT)]
          ++ RAA_ATLAS.xjSwitch (RAA_ATLAS.pTRange j0.pT) (j1.pT / j0.pT)
      else [(RAA_ATLAS.Hist._counter, 0)] := by
  simp only [RAA_ATLAS.xjSection, h]

/-- The xJ section when fewer than two jets pass the xJ cuts. -/
theorem RAA_ATLAS.xjSection_of_short {jets : List Jet}
    (h : (jets.filter RAA_ATLAS.xjcuts).length < 2) : RAA_ATLAS.xjSection jets = [] := by
  unfold RAA_ATLAS.xjSection
  match hm : jets.filter RAA_ATLAS.xjcuts with
  | [] => rfl
  | [_] => rfl
  | _ :: _ :: _ => rw [hm] at h; simp at h; omega

theorem RAA_ATLAS.xjSection_isDijet (jets : List Jet) :
    ∀ f ∈ RAA_ATLAS.xjSection jets, f.1.isDijet = true := by
  intro f hf
  match hm : jets.filter RAA_ATLAS.xjcuts with
  | [] => rw [RAA_ATLAS.xjSection_of_short (by simp [hm])] at hf; simp at hf
  | [_] => rw [RAA_ATLAS.xjSection_of_short (by simp [hm])] at hf; simp at hf
  | j0 :: j1 :: rest =>
    rw [RAA_ATLAS.xjSection_of_two hm] at hf
    split at hf
    · simp only [List.mem_append, List.mem_cons, List.mem_singleton, List.not_mem_nil,
        or_false] at hf
      rcases hf with (hf | hf | hf) | hf
      · subst hf; rfl
      · subst hf; rfl
      · subst hf; rfl
      · exact RAA_ATLAS.xjSwitch_isDijet _ _ f hf
    · simp at hf; subst hf; rfl

/-- The fills of an event into the histograms of the xJ section are the fills
of the xJ section. -/
theorem RAA_ATLAS.dijetFills_eq (RJETS_f : ℚ) (evt : Event) :
    RAA_ATLAS.dijetFills RJETS_f evt
      = RAA_ATLAS.xjSection (jetsByPt (RAA_ATLAS.jetcuts RJETS_f) evt.jets) := by
  unfold RAA_ATLAS.dijetFills RAA_ATLAS.analyze
  simp only [List.filter_append]
  have h1 : List.filter (fun f => f.1.isDijet)
      (List.flatMap (jetsByPt (RAA_ATLAS.jetcuts RJETS_f) evt.jets) RAA_ATLAS.jetBody) = [] := by
    rw [List.filter_eq_nil_iff]
    intro f hf
    obtain ⟨j, -, hj⟩ := List.mem_flatMap.mp hf
    simp [RAA_ATLAS.jetBody_isDijet j f hj]
  have h2 := List.filter_eq_self.mpr
    (RAA_ATLAS.xjSection_isDijet (jetsByPt (RAA_ATLAS.jetcuts RJETS_f) evt.jets))
  rw [h1, h2, List.nil_append]

/-- The jets of the example events pass the jet cuts and the xJ cuts, in their
order. -/
theorem RAA_ATLAS.dijetEvent_selected :
    (jetsByPt (RAA_ATLAS.jetcuts 0.4) RAA_ATLAS.dijetEvent.jets).filter RAA_ATLAS.xjcuts
      = [RAA_ATLAS.jet100, RAA_ATLAS.jet40back] := by
  norm_num [jetsByPt, RAA_ATLAS.jetcuts, RAA_ATLAS.xjcuts, RAA_ATLAS.dijetEvent,
    RAA_ATLAS.jet100, RAA_ATLAS.jet40back, List.insertionSort, List.orderedInsert, List.filter]

theorem RAA_ATLAS.singleJetEvent_selected :
    (jetsByPt (RAA_ATLAS.jetcuts 0.4) RAA_ATLAS.singleJetEvent.jets).filter RAA_ATLAS.xjcuts
      = [RAA_ATLAS.jet100] := by
  norm_num [jetsByPt, RAA_ATLAS.jetcuts, RAA_ATLAS.xjcuts, RAA_ATLAS.singleJetEvent,
    RAA_ATLAS.jet100, List.insertionSort, List.orderedInsert, List.filter]

theorem RAA_ATLAS.sideEvent_selected :
    (jetsByPt (RAA_ATLAS.jetcuts 0.4) RAA_ATLAS.sideEvent.jets).filter RAA_ATLAS.xjcuts
      = [RAA_ATLAS.jet100, RAA_ATLAS.jet40side] := by
  norm_num [jetsByPt, RAA_ATLAS.jetcuts, RAA_ATLAS.xjcuts, RAA_ATLAS.sideEvent,
    RAA_ATLAS.jet100, RAA_ATLAS.jet40side, List.insertionSort, List.orderedInsert, List.filter]

/-- Claim C6: when the jets that pass the jet cuts and the xJ cuts, in
decreasing pT order, are `j0`, `j1` and possibly more, and the azimuthal
separation of `j0` and `j1` is above 7 pi / 8, the fills of `analyze` into the
counter, the leading and subleading spectra and the xJ histograms are, in
order: the value 1 into the counter, the pT of `j0` into the leading spectrum,
the pT of `j1` into the subleading spectrum, and xJ = pT(j1) / pT(j0) into the
histogram that the switch on `pTRange(pT(j0))` selects, and nothing else. For
a leading pT up to 1000 the switch selects one xJ histogram. -/
theorem RAA_ATLAS.analyze_accepts_dijet (RJETS_f : ℚ) (evt : Event) (j0 j1 : Jet)
    (rest : List Jet)
    (hsel : (jetsByPt (RAA_ATLAS.jetcuts RJETS_f) evt.jets).filter RAA_ATLAS.xjcuts
      = j0 :: j1 :: rest)
    (hphi : deltaPhi j0.phi j1.phi > 7 * M_PI / 8) :
    RAA_ATLAS.dijetFills RJETS_f evt =
      [(RAA_ATLAS.Hist._counter, 1), (RAA_ATLAS.Hist._lead, j0.pT),
        (RAA_ATLAS.Hist._sublead, j1.pT)]
        ++ RAA_ATLAS.xjSwitch (RAA_ATLAS.pTRange j0.pT) (j1.pT / j0.pT) ∧
    (j0.pT ≤ 1000 →
      ∃ h, RAA_ATLAS.xjSwitch (RAA_ATLAS.pTRange j0.pT) (j1.pT / j0.pT)
        = [(h, j1.pT / j0.pT)]) := by
  refine ⟨?_, ?_⟩
  · rw [RAA_ATLAS.dijetFills_eq, RAA_ATLAS.xjSection_of_two hsel, if_pos hphi]
  · intro hle
    have hmem : j0 ∈ (jetsByPt (RAA_ATLAS.jetcuts RJETS_f) evt.jets).filter RAA_ATLAS.xjcuts := by
      rw [hsel]; exact List.mem_cons_self _ _
    have hcut := (List.mem_filter.mp hmem).2
    simp only [RAA_ATLAS.xjcuts, decide_eq_true_eq] at hcut
    have hne : RAA_ATLAS.pTRange j0.pT ≠ 0 := by
      rw [Ne, RAA_ATLAS.pTRange_eq_zero_iff]
      rintro (h | h) <;> linarith [hcut.2]
    exact RAA_ATLAS.xjSwitch_single (Nat.one_le_iff_ne_zero.mpr hne) (RAA_ATLAS.pTRange_le _) _

/-- Claim C6 on the scenario of the specification: the jets (pT = 100, phi = 0)
and (pT = 40, phi = pi) are accepted, with xJ = 0.4 filled into the histogram
of the leading pT range 90-100. -/
theorem RAA_ATLAS.analyze_accepts_dijet_witness :
    RAA_ATLAS.dijetFills 0.4 RAA_ATLAS.dijetEvent =
      [(RAA_ATLAS.Hist._counter, 1), (RAA_ATLAS.Hist._lead, 100),
        (RAA_ATLAS.Hist._sublead, 40), (RAA_ATLAS.Hist._xj_4, 0.4)] := by
  have h := (RAA_ATLAS.analyze_accepts_dijet 0.4 RAA_ATLAS.dijetEvent
    RAA_ATLAS.jet100 RAA_ATLAS.jet40back [] RAA_ATLAS.dijetEvent_selected
    (by
      show deltaPhi 0 M_PI > 7 * M_PI / 8
      rw [deltaPhi_zero_M_PI]; linarith [M_PI_pos])).1
  have hr : RAA_ATLAS.pTRange 100 = 4 := by
    norm_num [RAA_ATLAS.pTRange, RAA_ATLAS.pTRange.PTEDGES, rangeScan]
  rw [h]
  simp only [RAA_ATLAS.jet100, RAA_ATLAS.jet40back, hr, RAA_ATLAS.xjSwitch]
  norm_num

/-- Claim C7, as stated, fails on the code: the event with the one jet
(pT = 100, phi = 0) has fewer than two qualifying jets, and `analyze` fills
nothing into the pass/fail counter, the value 0 included. -/
theorem RAA_ATLAS.analyze_single_jet_no_fail :
    ((jetsByPt (RAA_ATLAS.jetcuts 0.4) RAA_ATLAS.singleJetEvent.jets).filter
        RAA_ATLAS.xjcuts).length < 2 ∧
    (RAA_ATLAS.Hist._counter, (0 : ℚ)) ∉ RAA_ATLAS.analyze 0.4 RAA_ATLAS.singleJetEvent ∧
    ∀ x, (RAA_ATLAS.Hist._counter, x) ∉ RAA_ATLAS.analyze 0.4 RAA_ATLAS.singleJetEvent := by
  have hlen : ((jetsByPt (RAA_ATLAS.jetcuts 0.4) RAA_ATLAS.singleJetEvent.jets).filter
      RAA_ATLAS.xjcuts).length < 2 := by
    rw [RAA_ATLAS.singleJetEvent_selected]; decide
  have hall : ∀ x, (RAA_ATLAS.Hist._counter, x) ∉
      RAA_ATLAS.analyze 0.4 RAA_ATLAS.singleJetEvent := by
    intro x hx
    have hd : (RAA_ATLAS.Hist._counter, x) ∈ RAA_ATLAS.dijetFills 0.4 RAA_ATLAS.singleJetEvent :=
      List.mem_filter.mpr ⟨hx, rfl⟩
    rw [RAA_ATLAS.dijetFills_eq, RAA_ATLAS.xjSection_of_short hlen] at hd
    exact List.not_mem_nil _ hd
  exact ⟨hlen, hall 0, hall⟩

/-- Claim C7, amended: when the two leading qualifying jets have an azimuthal
separation not above 7 pi / 8, the only fill of `analyze` into the counter, the
leading and subleading spectra and the xJ histograms is the value 0 into the
counter; when fewer than two jets qualify, `analyze` fills none of these
histograms, the counter included. -/
theorem RAA_ATLAS.analyze_rejects_dijet (RJETS_f : ℚ) (evt : Event)
    (h : ((jetsByPt (RAA_ATLAS.jetcuts RJETS_f) evt.jets).filter RAA_ATLAS.xjcuts).length < 2 ∨
      ∃ j0 j1 rest,
        (jetsByPt (RAA_ATLAS.jetcuts RJETS_f) evt.jets).filter RAA_ATLAS.xjcuts
          = j0 :: j1 :: rest ∧
        ¬ deltaPhi j0.phi j1.phi > 7 * M_PI / 8) :
    RAA_ATLAS.dijetFills RJETS_f evt =
      if ((jetsByPt (RAA_ATLAS.jetcuts RJETS_f) evt.jets).filter RAA_ATLAS.xjcuts).length < 2
      then [] else [(RAA_ATLAS.Hist._counter, 0)] := by
  rw [RAA_ATLAS.dijetFills_eq]
  rcases h with h | ⟨j0, j1, rest, hsel, hphi⟩
  · rw [if_pos h, RAA_ATLAS.xjSection_of_short h]
  · rw [RAA_ATLAS.xjSection_of_two hsel, if_neg hphi, if_neg (by rw [hsel]; simp)]

/-- Claim C7, amended, on two events: one jet alone leaves the counter and the
other histograms of the xJ section without a fill; two jets a quarter turn
apart give the single fill of 0 into the counter. -/
theorem RAA_ATLAS.analyze_rejects_dijet_witness :
    RAA_ATLAS.dijetFills 0.4 RAA_ATLAS.singleJetEvent = [] ∧
    RAA_ATLAS.dijetFills 0.4 RAA_ATLAS.sideEvent = [(RAA_ATLAS.Hist._counter, 0)] := by
  constructor
  · have h := RAA_ATLAS.analyze_rejects_dijet 0.4 RAA_ATLAS.singleJetEvent
      (Or.inl (by rw [RAA_ATLAS.singleJetEvent_selected]; decide))
    rw [h, RAA_ATLAS.singleJetEvent_selected]
    rfl
  · have h := RAA_ATLAS.analyze_rejects_dijet 0.4 RAA_ATLAS.sideEvent
      (Or.inr ⟨RAA_ATLAS.jet100, RAA_ATLAS.jet40side, [], RAA_ATLAS.sideEvent_selected, by
        show ¬ deltaPhi 0 (M_PI / 2) > 7 * M_PI / 8
        rw [deltaPhi_zero_half_M_PI]; linarith [M_PI_pos]⟩)
    rw [h, RAA_ATLAS.sideEvent_selected]
    rfl

/-! ## Hadron-jet correlation (USPJWL_HJET) -/

/-- Truncation of a non-negative value between `k` and `k + 1`. -/
theorem trunc_eq_of_mem {q : ℚ} (k : ℕ) (h1 : (k : ℚ) ≤ q) (h2 : q < (k : ℚ) + 1) :
    trunc q = (k : ℤ) := by
  have h0 : (0 : ℚ) ≤ q := le_trans (Nat.cast_nonneg k) h1
  unfold trunc
  rw [if_pos h0, Int.floor_eq_iff]
  exact ⟨by exact_mod_cast h1, by exact_mod_cast h2⟩

theorem USPJWL_HJET.alljets_example :
    jetsByPt USPJWL_HJET.jetcuts [USPJWL_HJET.jet30, USPJWL_HJET.jet6_5]
      = [USPJWL_HJET.jet30, USPJWL_HJET.jet6_5] := by
  norm_num [jetsByPt, USPJWL_HJET.jetcuts, USPJWL_HJET.jet30, USPJWL_HJET.jet6_5,
    USPJWL_HJET.etamax_jet, USPJWL_HJET.etamax, USPJWL_HJET.RJETS_f, List.insertionSort,
    List.orderedInsert, List.filter]

/-- The 6-7 loop on the 6-7 hadron and the two jets: one trigger, two jets, of
which the jet of pT 30 is on the away side. -/
theorem USPJWL_HJET.loop6_7_example :
    USPJWL_HJET.loop6_7 [USPJWL_HJET.hadron6_7] [USPJWL_HJET.jet30, USPJWL_HJET.jet6_5] =
      [(USPJWL_HJET.Hist._hs_Ntrig_6_7, 6), (USPJWL_HJET.Hist._hs_pTJet_all_6_7, 30),
       (USPJWL_HJET.Hist._hs_pTJet_6_7, 30), (USPJWL_HJET.Hist._hs_pTJet_all_6_7, 6.5)] := by
  have ht : trunc (13 / 2 : ℚ) = 6 := trunc_eq_of_mem 6 (by norm_num) (by norm_num)
  have h0 : ¬ (M_PI ≤ 3 / 5) := by norm_num [M_PI]
  norm_num [USPJWL_HJET.loop6_7, USPJWL_HJET.jetLoop, USPJWL_HJET.hadron6_7,
    USPJWL_HJET.jet30, USPJWL_HJET.jet6_5, ht, deltaPhi_zero_M_PI, deltaPhi_self, h0]

/-- The inner jet loop fills its two histograms only. -/
theorem USPJWL_HJET.mem_jetLoop {all away : USPJWL_HJET.Hist} {phi : ℚ} {alljets : List Jet}
    {f : USPJWL_HJET.Fill} (hf : f ∈ USPJWL_HJET.jetLoop all away phi alljets) :
    f.1 = all ∨ f.1 = away := by
  obtain ⟨j, -, hj⟩ := List.mem_flatMap.mp hf
  simp only [List.mem_cons] at hj
  rcases hj with hj | hj
  · left; rw [hj]
  · right
    split at hj
    · simp only [List.mem_singleton] at hj; rw [hj]
    · simp at hj

/-- A trigger loop that fills the histograms `trig`, `all` and `away`. -/
theorem USPJWL_HJET.mem_trigger_loop {trig all away : USPJWL_HJET.Hist}
    {val : Particle → ℚ} {ps : List Particle} {alljets : List Jet} {f : USPJWL_HJET.Fill}
    (hf : f ∈ ps.flatMap (fun p =>
      if p.isHadron && p.isCharged then
        (trig, val p) :: USPJWL_HJET.jetLoop all away p.phi alljets
      else [])) :
    f.1 = trig ∨ f.1 = all ∨ f.1 = away := by
  obtain ⟨p, -, hp⟩ := List.mem_flatMap.mp hf
  split at hp
  · rcases List.mem_cons.mp hp with hp | hp
    · left; rw [hp]
    · right; exact USPJWL_HJET.mem_jetLoop hp
  · simp at hp

/-- Every fill of the 6-7 loop goes to a histogram of the 6-7 class. -/
theorem USPJWL_HJET.loop6_7_is6_7 (ps : List Particle) (alljets : List Jet) :
    ∀ f ∈ USPJWL_HJET.loop6_7 ps alljets, f.1.is6_7 = true := by
  intro f hf
  rcases USPJWL_HJET.mem_trigger_loop hf with h | h | h <;> rw [h] <;> rfl

/-- The fills of the 8-9 loop into the histograms of the 6-7 class: the fills
of the whole 6-7 loop, once for every element of `Particles8_9`. -/
theorem USPJWL_HJET.loop8_9_filter_6_7 (ps8_9 ps6_7 : List Particle) (alljets : List Jet) :
    (USPJWL_HJET.loop8_9 ps8_9 ps6_7 alljets).filter (fun f => f.1.is6_7)
      = ps8_9.flatMap (fun _ => USPJWL_HJET.loop6_7 ps6_7 alljets) := by
  induction ps8_9 with
  | nil => rfl
  | cons p ps ih =>
    have ih2 : List.filter (fun f => f.1.is6_7)
        (List.flatMap ps (fun p =>
          (if p.isHadron && p.isCharged then
            (USPJWL_HJET.Hist._hs_Ntrig_8_9, ((trunc p.pT : ℤ) : ℚ))
              :: USPJWL_HJET.jetLoop USPJWL_HJET.Hist._hs_pTJet_all_8_9
                  USPJWL_HJET.Hist._hs_pTJet_8_9 p.phi alljets
          else []) ++ USPJWL_HJET.loop6_7 ps6_7 alljets))
        = ps.flatMap (fun _ => USPJWL_HJET.loop6_7 ps6_7 alljets) := ih
    have h1 : List.filter (fun f => f.1.is6_7)
        (if p.isHadron && p.isCharged then
          (USPJWL_HJET.Hist._hs_Ntrig_8_9, ((trunc p.pT : ℤ) : ℚ))
            :: USPJWL_HJET.jetLoop USPJWL_HJET.Hist._hs_pTJet_all_8_9
                USPJWL_HJET.Hist._hs_pTJet_8_9 p.phi alljets
        else []) = [] := by
      rw [List.filter_eq_nil_iff]
      intro f hf
      split at hf
      · rcases List.mem_cons.mp hf with hf | hf
        · rw [hf]; simp [USPJWL_HJET.Hist.is6_7]
        · rcases USPJWL_HJET.mem_jetLoop hf with h | h <;> rw [h] <;>
            simp [USPJWL_HJET.Hist.is6_7]
      · simp at hf
    have h2 := List.filter_eq_self.mpr (USPJWL_HJET.loop6_7_is6_7 ps6_7 alljets)
    simp only [USPJWL_HJET.loop8_9, List.flatMap_cons, List.filter_append, h1, h2, ih2,
      List.nil_append]

/-- The fills of `analyze` into the histograms of the 6-7 class: the fills of
the 6-7 loop over the particles of the 6-7 window, repeated once for every
particle of the event in the 8-9 window. -/
theorem USPJWL_HJET.analyze_filter_6_7 (evt : Event) :
    (USPJWL_HJET.analyze evt).filter (fun f => f.1.is6_7)
      = (evt.allParticles.filter USPJWL_HJET.partcuts8_9).flatMap (fun _ =>
          USPJWL_HJET.loop6_7 (evt.allParticles.filter USPJWL_HJET.partcuts6_7)
            (jetsByPt USPJWL_HJET.jetcuts evt.jets)) := by
  have hnil : ∀ (trig all away : USPJWL_HJET.Hist) (val : Particle → ℚ) (ps : List Particle)
      (alljets : List Jet), trig.is6_7 = false → all.is6_7 = false → away.is6_7 = false →
      List.filter (fun f : USPJWL_HJET.Fill => f.1.is6_7) (ps.flatMap (fun p =>
        if p.isHadron && p.isCharged then
          (trig, val p) :: USPJWL_HJET.jetLoop all away p.phi alljets
        else [])) = [] := by
    intro trig all away val ps alljets h1 h2 h3
    rw [List.filter_eq_nil_iff]
    intro f hf
    rcases USPJWL_HJET.mem_trigger_loop hf with h | h | h <;> rw [h] <;> simp [h1, h2, h3]
  have ha := hnil USPJWL_HJET.Hist._hs_Ntrig USPJWL_HJET.Hist._hs_pTJet_all
    USPJWL_HJET.Hist._hs_pTJet (fun p => p.pT)
    (evt.allParticles.filter USPJWL_HJET.partcuts) (jetsByPt USPJWL_HJET.jetcuts evt.jets)
    rfl rfl rfl
  have hb := hnil USPJWL_HJET.Hist._hs_Ntrig_1 USPJWL_HJET.Hist._hs_pTJet_all_1
    USPJWL_HJET.Hist._hs_pTJet_1 (fun p => ((trunc p.pT : ℤ) : ℚ))
    (evt.allParticles.filter USPJWL_HJET.partcuts1) (jetsByPt USPJWL_HJET.jetcuts evt.jets)
    rfl rfl rfl
  have hc := hnil USPJWL_HJET.Hist._hs_Ntrig_eta USPJWL_HJET.Hist._hs_pTJet_all_eta
    USPJWL_HJET.Hist._hs_pTJet_eta (fun p => ((trunc p.pT : ℤ) : ℚ))
    (evt.allParticles.filter USPJWL_HJET.partcuts_eta) (jetsByPt USPJWL_HJET.jetcuts evt.jets)
    rfl rfl rfl
  have hd := hnil USPJWL_HJET.Hist._hs_Ntrig_12_50 USPJWL_HJET.Hist._hs_pTJet_all_12_50
    USPJWL_HJET.Hist._hs_pTJet_12_50 (fun p => ((trunc p.pT : ℤ) : ℚ))
    (evt.allParticles.filter USPJWL_HJET.partcuts12_50) (jetsByPt USPJWL_HJET.jetcuts evt.jets)
    rfl rfl rfl
  have he := USPJWL_HJET.loop8_9_filter_6_7 (evt.allParticles.filter USPJWL_HJET.partcuts8_9)
    (evt.allParticles.filter USPJWL_HJET.partcuts6_7) (jetsByPt USPJWL_HJET.jetcuts evt.jets)
  unfold USPJWL_HJET.analyze
  simp only [List.filter_append]
  unfold USPJWL_HJET.loop20_50 USPJWL_HJET.loop1 USPJWL_HJET.loop_eta USPJWL_HJET.loop12_50
  rw [ha, hb, hc, hd, he]
  simp

/-- The particles of the example events in the 6-7 and 8-9 windows. -/
theorem USPJWL_HJET.windows_example :
    (USPJWL_HJET.partcuts6_7 USPJWL_HJET.hadron6_7 = true ∧
      USPJWL_HJET.partcuts8_9 USPJWL_HJET.hadron6_7 = false) ∧
    (USPJWL_HJET.partcuts6_7 USPJWL_HJET.hadron30 = false ∧
      USPJWL_HJET.partcuts8_9 USPJWL_HJET.hadron30 = false) ∧
    (USPJWL_HJET.partcuts6_7 USPJWL_HJET.neutral8_9 = false ∧
      USPJWL_HJET.partcuts8_9 USPJWL_HJET.neutral8_9 = true) ∧
    (USPJWL_HJET.partcuts6_7 USPJWL_HJET.neutral8_9b = false ∧
      USPJWL_HJET.partcuts8_9 USPJWL_HJET.neutral8_9b = true) := by
  norm_num [USPJWL_HJET.partcuts6_7, USPJWL_HJET.partcuts8_9, USPJWL_HJET.hadron6_7,
    USPJWL_HJET.hadron30, USPJWL_HJET.neutral8_9, USPJWL_HJET.neutral8_9b,
    USPJWL_HJET.etamax]

/-- The fills of the three example events into the histograms of the 6-7
class. -/
theorem USPJWL_HJET.event6_7_fills :
    (USPJWL_HJET.analyze USPJWL_HJET.event6_7).filter (fun f => f.1.is6_7) = [] := by
  rw [USPJWL_HJET.analyze_filter_6_7]
  simp [USPJWL_HJET.event6_7, List.filter, USPJWL_HJET.windows_example]

theorem USPJWL_HJET.event6_7_8_9_fills :
    (USPJWL_HJET.analyze USPJWL_HJET.event6_7_8_9).filter (fun f => f.1.is6_7)
      = [(USPJWL_HJET.Hist._hs_Ntrig_6_7, 6), (USPJWL_HJET.Hist._hs_pTJet_all_6_7, 30),
         (USPJWL_HJET.Hist._hs_pTJet_6_7, 30), (USPJWL_HJET.Hist._hs_pTJet_all_6_7, 6.5)] := by
  rw [USPJWL_HJET.analyze_filter_6_7]
  simp only [USPJWL_HJET.event6_7_8_9, List.filter, USPJWL_HJET.windows_example,
    USPJWL_HJET.alljets_example, List.flatMap_cons, List.flatMap_nil, List.append_nil,
    USPJWL_HJET.loop6_7_example]

theorem USPJWL_HJET.event6_7_8_9_8_9_fills :
    (USPJWL_HJET.analyze USPJWL_HJET.event6_7_8_9_8_9).filter (fun f => f.1.is6_7)
      = [(USPJWL_HJET.Hist._hs_Ntrig_6_7, 6), (USPJWL_HJET.Hist._hs_pTJet_all_6_7, 30),
         (USPJWL_HJET.Hist._hs_pTJet_6_7, 30), (USPJWL_HJET.Hist._hs_pTJet_all_6_7, 6.5),
         (USPJWL_HJET.Hist._hs_Ntrig_6_7, 6), (USPJWL_HJET.Hist._hs_pTJet_all_6_7, 30),
         (USPJWL_HJET.Hist._hs_pTJet_6_7, 30), (USPJWL_HJET.Hist._hs_pTJet_all_6_7, 6.5)] := by
  rw [USPJWL_HJET.analyze_filter_6_7]
  simp only [USPJWL_HJET.event6_7_8_9_8_9, List.filter, USPJWL_HJET.windows_example,
    USPJWL_HJET.alljets_example, List.flatMap_cons, List.flatMap_nil, List.append_nil,
    USPJWL_HJET.loop6_7_example]
  rfl

/-- Claim C8, evaluated on the code for the 6-7 class. The event has one charged
hadron in the 6-7 window, no particle in the 8-9 window and two selected jets,
one of them on the away side of the hadron: the claim has one fill of the
trigger histogram, two of the all-jets histogram and one of the away-side
histogram of the 6-7 class, and `analyze` makes none. With two neutral particles
of the 8-9 window added, `analyze` makes each of these fills twice. -/
theorem USPJWL_HJET.class_6_7_miscounted :
    (USPJWL_HJET.event6_7.allParticles.filter (fun p =>
        USPJWL_HJET.partcuts6_7 p && (p.isHadron && p.isCharged)) = [USPJWL_HJET.hadron6_7] ∧
      USPJWL_HJET.event6_7.allParticles.filter USPJWL_HJET.partcuts8_9 = [] ∧
      jetsByPt USPJWL_HJET.jetcuts USPJWL_HJET.event6_7.jets
        = [USPJWL_HJET.jet30, USPJWL_HJET.jet6_5] ∧
      deltaPhi USPJWL_HJET.hadron6_7.phi USPJWL_HJET.jet30.phi ≥ M_PI - 0.6 ∧
      ¬ deltaPhi USPJWL_HJET.hadron6_7.phi USPJWL_HJET.jet6_5.phi ≥ M_PI - 0.6) ∧
    (USPJWL_HJET.analyze USPJWL_HJET.event6_7).filter (fun f => f.1.is6_7) = [] ∧
    (USPJWL_HJET.analyze USPJWL_HJET.event6_7_8_9_8_9).filter (fun f => f.1.is6_7)
      = [(USPJWL_HJET.Hist._hs_Ntrig_6_7, 6), (USPJWL_HJET.Hist._hs_pTJet_all_6_7, 30),
         (USPJWL_HJET.Hist._hs_pTJet_6_7, 30), (USPJWL_HJET.Hist._hs_pTJet_all_6_7, 6.5),
         (USPJWL_HJET.Hist._hs_Ntrig_6_7, 6), (USPJWL_HJET.Hist._hs_pTJet_all_6_7, 30),
         (USPJWL_HJET.Hist._hs_pTJet_6_7, 30), (USPJWL_HJET.Hist._hs_pTJet_all_6_7, 6.5)] := by
  refine ⟨⟨?_, ?_, USPJWL_HJET.alljets_example, ?_, ?_⟩,
    USPJWL_HJET.event6_7_fills, USPJWL_HJET.event6_7_8_9_8_9_fills⟩
  · simp [USPJWL_HJET.event6_7, List.filter, USPJWL_HJET.windows_example]
    simp [USPJWL_HJET.hadron6_7]
  · simp [USPJWL_HJET.event6_7, List.filter, USPJWL_HJET.windows_example]
  · show deltaPhi 0 M_PI ≥ M_PI - 0.6
    rw [deltaPhi_zero_M_PI]; norm_num
  · show ¬ deltaPhi 0 0 ≥ M_PI - 0.6
    rw [deltaPhi_self]; norm_num [M_PI]

/-- Claim C9, evaluated on the code for the 6-7 class. The neutral hadron of
pT 8.5 is outside the 6-7 window; adding it to the event, with the jet list
unchanged, changes the fills of the 6-7 class from none to four. -/
theorem USPJWL_HJET.class_6_7_not_independent :
    USPJWL_HJET.partcuts6_7 USPJWL_HJET.neutral8_9 = false ∧
    USPJWL_HJET.event6_7_8_9.jets = USPJWL_HJET.event6_7.jets ∧
    USPJWL_HJET.event6_7_8_9.allParticles
      = USPJWL_HJET.event6_7.allParticles ++ [USPJWL_HJET.neutral8_9] ∧
    (USPJWL_HJET.analyze USPJWL_HJET.event6_7).filter (fun f => f.1.is6_7) = [] ∧
    (USPJWL_HJET.analyze USPJWL_HJET.event6_7_8_9).filter (fun f => f.1.is6_7)
      = [(USPJWL_HJET.Hist._hs_Ntrig_6_7, 6), (USPJWL_HJET.Hist._hs_pTJet_all_6_7, 30),
         (USPJWL_HJET.Hist._hs_pTJet_6_7, 30), (USPJWL_HJET.Hist._hs_pTJet_all_6_7, 6.5)] :=
  ⟨USPJWL_HJET.windows_example.2.2.1.1, rfl, rfl, USPJWL_HJET.event6_7_fills,
    USPJWL_HJET.event6_7_8_9_fills⟩

/-! ## Subjet fragmentation (USPJWL_SUBFRAG) -/

theorem sorted_by_pt_eq_nil_iff (jets : List PseudoJet) : sorted_by_pt jets = [] ↔ jets = [] := by
  rw [← List.length_eq_zero, ← List.length_eq_zero (l := jets)]
  unfold sorted_by_pt
  rw [List.length_insertionSort]

/-- A sequence of runs is undefined exactly when one of the runs is. -/
theorem USPJWL_SUBFRAG.runAll_eq_none_iff {α : Type}
    (body : α → Option (List USPJWL_SUBFRAG.Fill)) (l : List α) :
    USPJWL_SUBFRAG.runAll body l = none ↔ ∃ x ∈ l, body x = none := by
  induction l with
  | nil => simp [USPJWL_SUBFRAG.runAll]
  | cons x xs ih =>
    cases hx : body x with
    | none => simp [USPJWL_SUBFRAG.runAll, hx]
    | some a =>
      cases hxs : USPJWL_SUBFRAG.runAll body xs with
      | none =>
        have := ih.mp hxs
        simp [USPJWL_SUBFRAG.runAll, hx, hxs, this]
      | some b =>
        have hno : ¬ ∃ y ∈ xs, body y = none := fun h => by
          rw [ih.mpr h] at hxs; exact Option.noConfusion hxs
        simp only [USPJWL_SUBFRAG.runAll, hx, hxs, List.mem_cons, exists_eq_or_imp]
        simp [hno]

/-- The body of the radius loop is undefined exactly when the reclustering
gives no subjet. -/
theorem USPJWL_SUBFRAG.radiusBody_eq_none_iff
    (inclusive_jets : List Particle → ℚ → List PseudoJet) (jetconsti : List Particle)
    (jpt r : ℚ) :
    USPJWL_SUBFRAG.radiusBody inclusive_jets jetconsti jpt r = none
      ↔ inclusive_jets jetconsti r = [] := by
  rw [← sorted_by_pt_eq_nil_iff]
  unfold USPJWL_SUBFRAG.radiusBody
  cases h : sorted_by_pt (inclusive_jets jetconsti r) with
  | nil => simp
  | cons a as => simp

theorem USPJWL_SUBFRAG.jetsByPt_examples :
    jetsByPt (USPJWL_SUBFRAG.jetcuts 0.4)
        [USPJWL_SUBFRAG.emptyJet, USPJWL_SUBFRAG.oneParticleJet]
      = [USPJWL_SUBFRAG.emptyJet, USPJWL_SUBFRAG.oneParticleJet] ∧
    jetsByPt (USPJWL_SUBFRAG.jetcuts 0.4) [USPJWL_SUBFRAG.oneParticleJet]
      = [USPJWL_SUBFRAG.oneParticleJet] := by
  constructor <;>
  norm_num [jetsByPt, USPJWL_SUBFRAG.jetcuts, USPJWL_SUBFRAG.emptyJet,
    USPJWL_SUBFRAG.oneParticleJet, List.insertionSort, List.orderedInsert, List.filter]

/-- Claim C10, as stated, fails on the code. The jet without constituents passes
the jet cuts and its list of subjets is empty; the event made of it and of a
one-particle jet has no defined analysis, because `subjets[0]` is read for the
first jet, whereas skipping that jet would give the event the fills of the
one-particle jet alone, which are defined. -/
theorem USPJWL_SUBFRAG.empty_jet_not_skipped :
    (USPJWL_SUBFRAG.jetcuts 0.4 USPJWL_SUBFRAG.emptyJet = true ∧
      USPJWL_SUBFRAG.emptyJet.constituents = [] ∧
      ∀ r, sorted_by_pt (USPJWL_SUBFRAG.singletons USPJWL_SUBFRAG.emptyJet.constituents r) = []) ∧
    USPJWL_SUBFRAG.analyze USPJWL_SUBFRAG.singletons 0.4
        { allParticles := [],
          jets := [USPJWL_SUBFRAG.emptyJet, USPJWL_SUBFRAG.oneParticleJet] } = none ∧
    USPJWL_SUBFRAG.analyze USPJWL_SUBFRAG.singletons 0.4
        { allParticles := [], jets := [USPJWL_SUBFRAG.oneParticleJet] }
      = some [(USPJWL_SUBFRAG.Hist.zhigh_1, 1), (USPJWL_SUBFRAG.Hist.jetcount, 0),
              (USPJWL_SUBFRAG.Hist.zcustom_1, 1), (USPJWL_SUBFRAG.Hist.zfull_1, 1),
              (USPJWL_SUBFRAG.Hist.zhigh_2, 1), (USPJWL_SUBFRAG.Hist.jetcount, 0),
              (USPJWL_SUBFRAG.Hist.zcustom_2, 1), (USPJWL_SUBFRAG.Hist.zfull_2, 1)] := by
  refine ⟨⟨?_, rfl, fun r => rfl⟩, ?_, ?_⟩
  · norm_num [USPJWL_SUBFRAG.jetcuts, USPJWL_SUBFRAG.emptyJet]
  · unfold USPJWL_SUBFRAG.analyze
    simp only [USPJWL_SUBFRAG.jetsByPt_examples.1]
    rw [USPJWL_SUBFRAG.runAll_eq_none_iff]
    refine ⟨USPJWL_SUBFRAG.emptyJet, List.mem_cons_self _ _, ?_⟩
    unfold USPJWL_SUBFRAG.jetBody
    rw [USPJWL_SUBFRAG.runAll_eq_none_iff]
    exact ⟨0.1, by simp [USPJWL_SUBFRAG.rs], rfl⟩
  · unfold USPJWL_SUBFRAG.analyze
    simp only [USPJWL_SUBFRAG.jetsByPt_examples.2]
    norm_num [USPJWL_SUBFRAG.runAll, USPJWL_SUBFRAG.jetBody, USPJWL_SUBFRAG.rs,
      USPJWL_SUBFRAG.radiusBody, USPJWL_SUBFRAG.singletons, USPJWL_SUBFRAG.oneParticleJet,
      USPJWL_SUBFRAG.histos, sorted_by_pt, List.insertionSort, List.orderedInsert]

/-- Claim C10, amended: `analyze` reads `subjets[0]` for every selected jet and
both radii, without a test of emptiness. Its run on an event is undefined
exactly when some selected jet has, at one of the radii 0.1 and 0.2, an empty
list of reclustered subjets; otherwise it is defined and every selected jet is
filled. -/
theorem USPJWL_SUBFRAG.analyze_undefined_iff
    (inclusive_jets : List Particle → ℚ → List PseudoJet) (RJETS_f : ℚ) (evt : Event) :
    USPJWL_SUBFRAG.analyze inclusive_jets RJETS_f evt = none ↔
      ∃ j ∈ jetsByPt (USPJWL_SUBFRAG.jetcuts RJETS_f) evt.jets,
        ∃ r ∈ USPJWL_SUBFRAG.rs, inclusive_jets j.constituents r = [] := by
  unfold USPJWL_SUBFRAG.analyze
  simp only [USPJWL_SUBFRAG.runAll_eq_none_iff, USPJWL_SUBFRAG.jetBody,
    USPJWL_SUBFRAG.radiusBody_eq_none_iff]

/-! ## Values filled into a histogram -/

theorem valuesOf_nil {H : Type} [DecidableEq H] (h : H) : valuesOf h ([] : List (H × ℚ)) = [] := rfl

theorem valuesOf_append {H : Type} [DecidableEq H] (h : H) (a b : List (H × ℚ)) :
    valuesOf h (a ++ b) = valuesOf h a ++ valuesOf h b := by
  simp [valuesOf]

theorem valuesOf_cons {H : Type} [DecidableEq H] (h h1 : H) (x : ℚ) (l : List (H × ℚ)) :
    valuesOf h ((h1, x) :: l) = if h1 = h then x :: valuesOf h l else valuesOf h l := by
  by_cases hh : h1 = h <;> simp [valuesOf, List.filter_cons, hh]

theorem valuesOf_map_const {H α : Type} [DecidableEq H] (h h0 : H) (g : α → ℚ) (l : List α) :
    valuesOf h (l.map (fun a => (h0, g a))) = if h0 = h then l.map g else [] := by
  induction l with
  | nil => simp [valuesOf]
  | cons a l ih =>
    rw [List.map_cons, valuesOf_cons, ih]
    by_cases hh : h0 = h <;> simp [hh]

theorem mem_valuesOf {H : Type} [DecidableEq H] (h : H) (x : ℚ) (l : List (H × ℚ)) :
    x ∈ valuesOf h l ↔ (h, x) ∈ l := by
  simp only [valuesOf, List.mem_map, List.mem_filter, decide_eq_true_eq]
  constructor
  · rintro ⟨⟨h1, x1⟩, ⟨hm, rfl⟩, rfl⟩
    exact hm
  · intro hm
    exact ⟨(h, x), ⟨hm, rfl⟩, rfl⟩

/-! ## Subjet fragmentation: routing -/

theorem USPJWL_SUBFRAG.histos_r01 :
    USPJWL_SUBFRAG.histos 0.1 = ![USPJWL_SUBFRAG.Hist.zfull_1, USPJWL_SUBFRAG.Hist.zhigh_1,
      USPJWL_SUBFRAG.Hist.zhighd_1, USPJWL_SUBFRAG.Hist.zcustom_1] := by
  simp [USPJWL_SUBFRAG.histos]

theorem USPJWL_SUBFRAG.histos_r02 :
    USPJWL_SUBFRAG.histos 0.2 = ![USPJWL_SUBFRAG.Hist.zfull_2, USPJWL_SUBFRAG.Hist.zhigh_2,
      USPJWL_SUBFRAG.Hist.zhighd_2, USPJWL_SUBFRAG.Hist.zcustom_2] := by
  have h : ¬ ((0.2 : ℚ) = 0.1) := by norm_num
  simp [USPJWL_SUBFRAG.histos, h]

/-- The body of the radius loop when the reclustering gives a subjet. -/
theorem USPJWL_SUBFRAG.radiusBody_of_cons
    {inclusive_jets : List Particle → ℚ → List PseudoJet} {jetconsti : List Particle}
    {r : ℚ} {lead : PseudoJet} {rest : List PseudoJet} (jpt : ℚ)
    (h : sorted_by_pt (inclusive_jets jetconsti r) = lead :: rest) :
    USPJWL_SUBFRAG.radiusBody inclusive_jets jetconsti jpt r =
      some ((if jpt < 120 then [(USPJWL_SUBFRAG.histos r 1, lead.perp / jpt),
              (USPJWL_SUBFRAG.Hist.jetcount, 0)] else [])
        ++ (if jpt > 100 then [(USPJWL_SUBFRAG.histos r 2, lead.perp / jpt),
              (USPJWL_SUBFRAG.Hist.jetcount, 1)] else [])
        ++ [(USPJWL_SUBFRAG.histos r 3, lead.perp / jpt)]
        ++ (lead :: rest).map (fun subj => (USPJWL_SUBFRAG.histos r 0, subj.perp / jpt))) := by
  simp [USPJWL_SUBFRAG.radiusBody, h]
theorem USPJWL_SUBFRAG.runAll_singleton {α : Type}
    (body : α → Option (List USPJWL_SUBFRAG.Fill)) (x : α) :
    USPJWL_SUBFRAG.runAll body [x] = body x := by
  cases h : body x <;> simp [USPJWL_SUBFRAG.runAll, h]

theorem USPJWL_SUBFRAG.runAll_pair {α : Type}
    (body : α → Option (List USPJWL_SUBFRAG.Fill)) (x y : α) (a b : List USPJWL_SUBFRAG.Fill)
    (hx : body x = some a) (hy : body y = some b) :
    USPJWL_SUBFRAG.runAll body [x, y] = some (a ++ b) := by
  simp [USPJWL_SUBFRAG.runAll, hx, hy]

/-- The analysis of an event with one jet: the body of the jet loop when the
jet passes the cuts, and no fill otherwise. -/
theorem USPJWL_SUBFRAG.analyze_one_jet (inclusive_jets : List Particle → ℚ → List PseudoJet)
    (RJETS_f : ℚ) (ps : List Particle) (j : Jet) :
    USPJWL_SUBFRAG.analyze inclusive_jets RJETS_f { allParticles := ps, jets := [j] } =
      if USPJWL_SUBFRAG.jetcuts RJETS_f j = true then USPJWL_SUBFRAG.jetBody inclusive_jets j
      else some [] := by
  unfold USPJWL_SUBFRAG.analyze jetsByPt
  by_cases h : USPJWL_SUBFRAG.jetcuts RJETS_f j = true
  · simp [List.filter, h, USPJWL_SUBFRAG.runAll_singleton]
  · simp [List.filter, h, USPJWL_SUBFRAG.runAll]

/-- The values that the body of the radius loop, run at the radius `r1` of `rs`,
fills into the leading histograms of the radius `r` of `rs`. -/
theorem USPJWL_SUBFRAG.valuesOf_radius_fills {r r1 : ℚ} (hr : r ∈ USPJWL_SUBFRAG.rs)
    (hr1 : r1 ∈ USPJWL_SUBFRAG.rs) (jpt z : ℚ) (zs : List PseudoJet) :
    (valuesOf (USPJWL_SUBFRAG.histos r 1)
        ((if jpt < 120 then [(USPJWL_SUBFRAG.histos r1 1, z),
              (USPJWL_SUBFRAG.Hist.jetcount, 0)] else [])
          ++ (if jpt > 100 then [(USPJWL_SUBFRAG.histos r1 2, z),
              (USPJWL_SUBFRAG.Hist.jetcount, 1)] else [])
          ++ [(USPJWL_SUBFRAG.histos r1 3, z)]
          ++ zs.map (fun subj => (USPJWL_SUBFRAG.histos r1 0, subj.perp / jpt)))
      = if r1 = r ∧ jpt < 120 then [z] else []) ∧
    (valuesOf (USPJWL_SUBFRAG.histos r 2)
        ((if jpt < 120 then [(USPJWL_SUBFRAG.histos r1 1, z),
              (USPJWL_SUBFRAG.Hist.jetcount, 0)] else [])
          ++ (if jpt > 100 then [(USPJWL_SUBFRAG.histos r1 2, z),
              (USPJWL_SUBFRAG.Hist.jetcount, 1)] else [])
          ++ [(USPJWL_SUBFRAG.histos r1 3, z)]
          ++ zs.map (fun subj => (USPJWL_SUBFRAG.histos r1 0, subj.perp / jpt)))
      = if r1 = r ∧ jpt > 100 then [z] else []) ∧
    (valuesOf (USPJWL_SUBFRAG.histos r 3)
        ((if jpt < 120 then [(USPJWL_SUBFRAG.histos r1 1, z),
              (USPJWL_SUBFRAG.Hist.jetcount, 0)] else [])
          ++ (if jpt > 100 then [(USPJWL_SUBFRAG.histos r1 2, z),
              (USPJWL_SUBFRAG.Hist.jetcount, 1)] else [])
          ++ [(USPJWL_SUBFRAG.histos r1 3, z)]
          ++ zs.map (fun subj => (USPJWL_SUBFRAG.histos r1 0, subj.perp / jpt)))
      = if r1 = r then [z] else []) := by
  have h12 : ¬ ((0.1 : ℚ) = 0.2) := by norm_num
  have h21 : ¬ ((0.2 : ℚ) = 0.1) := by norm_num
  simp only [USPJWL_SUBFRAG.rs, List.mem_cons, List.mem_singleton, List.not_mem_nil,
    or_false] at hr hr1
  rcases hr with rfl | rfl <;> rcases hr1 with rfl | rfl <;>
    by_cases h1 : jpt < 120 <;> by_cases h2 : jpt > 100 <;>
    simp [USPJWL_SUBFRAG.histos_r01, USPJWL_SUBFRAG.histos_r02, valuesOf_append,
      valuesOf_cons, valuesOf_nil, valuesOf_map_const, h1, h2, h12, h21]
theorem USPJWL_SUBFRAG.singletons_defined (j : Jet) (h : j.constituents ≠ []) :
    ∀ r1 ∈ USPJWL_SUBFRAG.rs, USPJWL_SUBFRAG.singletons j.constituents r1 ≠ [] := by
  intro r1 _
  simpa [USPJWL_SUBFRAG.singletons] using h

/-- Claim C11, as stated, fails on the code: a jet of pT exactly 80 is in the
range 80 <= p < 120 of the claim and a jet of pT exactly 150 in its range
100 < p <= 150, and `analyze` fills nothing for either, because the jet cut is
pT > 80 and pT < 150. -/
theorem USPJWL_SUBFRAG.routing_bounds_strict :
    ((80 : ℚ) ≤ USPJWL_SUBFRAG.jet80.pT ∧ USPJWL_SUBFRAG.jet80.pT < 120 ∧
      |USPJWL_SUBFRAG.jet80.eta| < 0.9 - 0.4 ∧
      USPJWL_SUBFRAG.analyze USPJWL_SUBFRAG.singletons 0.4
        { allParticles := USPJWL_SUBFRAG.jet80.constituents, jets := [USPJWL_SUBFRAG.jet80] }
        = some []) ∧
    ((100 : ℚ) < USPJWL_SUBFRAG.jet150.pT ∧ USPJWL_SUBFRAG.jet150.pT ≤ 150 ∧
      |USPJWL_SUBFRAG.jet150.eta| < 0.9 - 0.4 ∧
      USPJWL_SUBFRAG.analyze USPJWL_SUBFRAG.singletons 0.4
        { allParticles := USPJWL_SUBFRAG.jet150.constituents,
          jets := [USPJWL_SUBFRAG.jet150] }
        = some []) := by
  refine ⟨⟨?_, ?_, ?_, ?_⟩, ⟨?_, ?_, ?_, ?_⟩⟩
  · norm_num [USPJWL_SUBFRAG.jet80]
  · norm_num [USPJWL_SUBFRAG.jet80]
  · norm_num [USPJWL_SUBFRAG.jet80]
  · rw [USPJWL_SUBFRAG.analyze_one_jet, if_neg]
    norm_num [USPJWL_SUBFRAG.jetcuts, USPJWL_SUBFRAG.jet80]
  · norm_num [USPJWL_SUBFRAG.jet150]
  · norm_num [USPJWL_SUBFRAG.jet150]
  · norm_num [USPJWL_SUBFRAG.jet150]
  · rw [USPJWL_SUBFRAG.analyze_one_jet, if_neg]
    norm_num [USPJWL_SUBFRAG.jetcuts, USPJWL_SUBFRAG.jet150]

/-! ## Subjet fragmentation: the leading z -/

/-- The result of `sorted_by_pt` is in decreasing order of pT. -/
theorem sorted_by_pt_sorted (jets : List PseudoJet) :
    List.Sorted (fun a b : PseudoJet => b.perp ≤ a.perp) (sorted_by_pt jets) := by
  haveI : IsTotal PseudoJet (fun a b : PseudoJet => b.perp ≤ a.perp) :=
    ⟨fun a b => le_total b.perp a.perp⟩
  haveI : IsTrans PseudoJet (fun a b : PseudoJet => b.perp ≤ a.perp) :=
    ⟨fun _ _ _ hab hbc => le_trans hbc hab⟩
  exact List.sorted_insertionSort _ jets

/-- The vector `histos` is one of the two families, whatever the radius. -/
theorem USPJWL_SUBFRAG.histos_cases (r : ℚ) :
    USPJWL_SUBFRAG.histos r = ![USPJWL_SUBFRAG.Hist.zfull_1, USPJWL_SUBFRAG.Hist.zhigh_1,
      USPJWL_SUBFRAG.Hist.zhighd_1, USPJWL_SUBFRAG.Hist.zcustom_1] ∨
    USPJWL_SUBFRAG.histos r = ![USPJWL_SUBFRAG.Hist.zfull_2, USPJWL_SUBFRAG.Hist.zhigh_2,
      USPJWL_SUBFRAG.Hist.zhighd_2, USPJWL_SUBFRAG.Hist.zcustom_2] := by
  by_cases h : r = 0.1
  · left; simp [USPJWL_SUBFRAG.histos, h]
  · right; simp [USPJWL_SUBFRAG.histos, h]

/-- The values that the body of the radius loop fills into its four
histograms: the leading z into the "high", "highD" and custom histograms, under
their conditions, and the z of every subjet into the inclusive histogram. -/
theorem USPJWL_SUBFRAG.valuesOf_radiusBody_fills (r jpt z : ℚ) (zs : List PseudoJet) :
    (∀ x ∈ valuesOf (USPJWL_SUBFRAG.histos r 1)
        ((if jpt < 120 then [(USPJWL_SUBFRAG.histos r 1, z),
              (USPJWL_SUBFRAG.Hist.jetcount, 0)] else [])
          ++ (if jpt > 100 then [(USPJWL_SUBFRAG.histos r 2, z),
              (USPJWL_SUBFRAG.Hist.jetcount, 1)] else [])
          ++ [(USPJWL_SUBFRAG.histos r 3, z)]
          ++ zs.map (fun subj => (USPJWL_SUBFRAG.histos r 0, subj.perp / jpt))), x = z) ∧
    (∀ x ∈ valuesOf (USPJWL_SUBFRAG.histos r 2)
        ((if jpt < 120 then [(USPJWL_SUBFRAG.histos r 1, z),
              (USPJWL_SUBFRAG.Hist.jetcount, 0)] else [])
          ++ (if jpt > 100 then [(USPJWL_SUBFRAG.histos r 2, z),
              (USPJWL_SUBFRAG.Hist.jetcount, 1)] else [])
          ++ [(USPJWL_SUBFRAG.histos r 3, z)]
          ++ zs.map (fun subj => (USPJWL_SUBFRAG.histos r 0, subj.perp / jpt))), x = z) ∧
    valuesOf (USPJWL_SUBFRAG.histos r 3)
        ((if jpt < 120 then [(USPJWL_SUBFRAG.histos r 1, z),
              (USPJWL_SUBFRAG.Hist.jetcount, 0)] else [])
          ++ (if jpt > 100 then [(USPJWL_SUBFRAG.histos r 2, z),
              (USPJWL_SUBFRAG.Hist.jetcount, 1)] else [])
          ++ [(USPJWL_SUBFRAG.histos r 3, z)]
          ++ zs.map (fun subj => (USPJWL_SUBFRAG.histos r 0, subj.perp / jpt))) = [z] ∧
    valuesOf (USPJWL_SUBFRAG.histos r 0)
        ((if jpt < 120 then [(USPJWL_SUBFRAG.histos r 1, z),
              (USPJWL_SUBFRAG.Hist.jetcount, 0)] else [])
          ++ (if jpt > 100 then [(USPJWL_SUBFRAG.histos r 2, z),
              (USPJWL_SUBFRAG.Hist.jetcount, 1)] else [])
          ++ [(USPJWL_SUBFRAG.histos r 3, z)]
          ++ zs.map (fun subj => (USPJWL_SUBFRAG.histos r 0, subj.perp / jpt)))
      = zs.map (fun subj => subj.perp / jpt) := by
  rcases USPJWL_SUBFRAG.histos_cases r with h | h <;> rw [h] <;>
    by_cases h1 : jpt < 120 <;> by_cases h2 : jpt > 100 <;>
    simp [valuesOf_append, valuesOf_cons, valuesOf_nil, valuesOf_map_const, h1, h2]

/-- The leading z of a jet at a radius is the largest of its inclusive z. -/
theorem USPJWL_SUBFRAG.radiusBody_leading_max
    (inclusive_jets : List Particle → ℚ → List PseudoJet) (jetconsti : List Particle)
    (jpt r : ℚ) (hpos : 0 < jpt) (hne : inclusive_jets jetconsti r ≠ []) :
    ∃ fills z_lead,
      USPJWL_SUBFRAG.radiusBody inclusive_jets jetconsti jpt r = some fills ∧
      valuesOf (USPJWL_SUBFRAG.histos r 3) fills = [z_lead] ∧
      (∀ z ∈ valuesOf (USPJWL_SUBFRAG.histos r 1) fills, z = z_lead) ∧
      (∀ z ∈ valuesOf (USPJWL_SUBFRAG.histos r 2) fills, z = z_lead) ∧
      z_lead ∈ valuesOf (USPJWL_SUBFRAG.histos r 0) fills ∧
      ∀ z ∈ valuesOf (USPJWL_SUBFRAG.histos r 0) fills, z ≤ z_lead := by
  cases hs : sorted_by_pt (inclusive_jets jetconsti r) with
  | nil => exact absurd ((sorted_by_pt_eq_nil_iff _).mp hs) hne
  | cons lead rest =>
    have hsorted := sorted_by_pt_sorted (inclusive_jets jetconsti r)
    rw [hs] at hsorted
    obtain ⟨v1, v2, v3, v0⟩ :=
      USPJWL_SUBFRAG.valuesOf_radiusBody_fills r jpt (lead.perp / jpt) (lead :: rest)
    refine ⟨_, lead.perp / jpt, USPJWL_SUBFRAG.radiusBody_of_cons jpt hs, v3, v1, v2, ?_, ?_⟩
    · rw [v0]; simp
    · rw [v0]
      intro z hz
      obtain ⟨s, hsm, rfl⟩ := List.mem_map.mp hz
      rcases List.mem_cons.mp hsm with rfl | hsr
      · exact le_rfl
      · exact div_le_div_of_nonneg_right (List.rel_of_sorted_cons hsorted s hsr) hpos.le

/-- Claim C12: for a jet of positive pT and a radius at which the reclustering
gives subjets, the body of the radius loop fills one value into the custom
histogram, the leading z; every value it fills into the "high" and "highD"
histograms is that leading z; the leading z is one of the values filled into the
inclusive histogram, and it is greater than or equal to each of them. The
subjets are in decreasing pT order by `sorted_by_pt`. -/
theorem USPJWL_SUBFRAG.leading_z_maximal
    (inclusive_jets : List Particle → ℚ → List PseudoJet) (jetconsti : List Particle)
    (jpt r : ℚ) (hpos : 0 < jpt) (hne : inclusive_jets jetconsti r ≠ []) :
    ∃ fills z_lead,
      USPJWL_SUBFRAG.radiusBody inclusive_jets jetconsti jpt r = some fills ∧
      valuesOf (USPJWL_SUBFRAG.histos r 3) fills = [z_lead] ∧
      (∀ z ∈ valuesOf (USPJWL_SUBFRAG.histos r 1) fills, z = z_lead) ∧
      (∀ z ∈ valuesOf (USPJWL_SUBFRAG.histos r 2) fills, z = z_lead) ∧
      z_lead ∈ valuesOf (USPJWL_SUBFRAG.histos r 0) fills ∧
      ∀ z ∈ valuesOf (USPJWL_SUBFRAG.histos r 0) fills, z ≤ z_lead :=
  USPJWL_SUBFRAG.radiusBody_leading_max inclusive_jets jetconsti jpt r hpos hne

/-- Claim C12 on the jet of pT 110 made of particles of pT 40 and 70, at the
radius 0.1: the leading z is 70/110 and the inclusive values are 70/110 and
40/110. -/
theorem USPJWL_SUBFRAG.leading_z_maximal_witness :
    ∃ fills z_lead,
      USPJWL_SUBFRAG.radiusBody USPJWL_SUBFRAG.singletons USPJWL_SUBFRAG.jet110.constituents
        110 0.1 = some fills ∧
      valuesOf (USPJWL_SUBFRAG.histos 0.1 3) fills = [z_lead] ∧
      (∀ z ∈ valuesOf (USPJWL_SUBFRAG.histos 0.1 1) fills, z = z_lead) ∧
      (∀ z ∈ valuesOf (USPJWL_SUBFRAG.histos 0.1 2) fills, z = z_lead) ∧
      z_lead ∈ valuesOf (USPJWL_SUBFRAG.histos 0.1 0) fills ∧
      ∀ z ∈ valuesOf (USPJWL_SUBFRAG.histos 0.1 0) fills, z ≤ z_lead :=
  USPJWL_SUBFRAG.leading_z_maximal USPJWL_SUBFRAG.singletons
    USPJWL_SUBFRAG.jet110.constituents 110 0.1 (by norm_num)
    (by simp [USPJWL_SUBFRAG.singletons, USPJWL_SUBFRAG.jet110])

/-! ## Dijet asymmetry: the value of xJ and the counter -/

/-- The result of `jetsByPt` is in decreasing order of pT. -/
theorem jetsByPt_sorted (cut : Jet → Bool) (jets : List Jet) :
    List.Sorted (fun a b : Jet => b.pT ≤ a.pT) (jetsByPt cut jets) := by
  haveI : IsTotal Jet (fun a b : Jet => b.pT ≤ a.pT) := ⟨fun a b => le_total b.pT a.pT⟩
  haveI : IsTrans Jet (fun a b : Jet => b.pT ≤ a.pT) :=
    ⟨fun _ _ _ hab hbc => le_trans hbc hab⟩
  exact List.sorted_insertionSort _ _

/-- A fill of the switch on `pTRange` goes to an xJ histogram and has the value
xJ. -/
theorem RAA_ATLAS.mem_xjSwitch {k : Nat} {xj : ℚ} {f : RAA_ATLAS.Fill}
    (hf : f ∈ RAA_ATLAS.xjSwitch k xj) : f.1.isXJ = true ∧ f.2 = xj := by
  unfold RAA_ATLAS.xjSwitch at hf
  split at hf <;> simp at hf <;> subst hf <;> exact ⟨rfl, rfl⟩

/-- The two leading jets that pass the xJ cuts have pT above 20, the second not
above the first. -/
theorem RAA_ATLAS.selected_two_pT {RJETS_f : ℚ} {jets : List Jet} {j0 j1 : Jet}
    {rest : List Jet}
    (h : (jetsByPt (RAA_ATLAS.jetcuts RJETS_f) jets).filter RAA_ATLAS.xjcuts = j0 :: j1 :: rest) :
    20 < j1.pT ∧ j1.pT ≤ j0.pT := by
  have hsorted : List.Sorted (fun a b : Jet => b.pT ≤ a.pT) (j0 :: j1 :: rest) := by
    rw [← h]
    exact List.Sorted.filter _ (jetsByPt_sorted _ _)
  have hmem : j1 ∈ (jetsByPt (RAA_ATLAS.jetcuts RJETS_f) jets).filter RAA_ATLAS.xjcuts := by
    rw [h]; simp
  have hcut := (List.mem_filter.mp hmem).2
  simp only [RAA_ATLAS.xjcuts, decide_eq_true_eq] at hcut
  exact ⟨hcut.2, List.rel_of_sorted_cons hsorted j1 (List.mem_cons_self _ _)⟩

/-- Every value that `analyze` fills into an xJ histogram is in (0, 1]. -/
theorem RAA_ATLAS.xj_mem_unit (RJETS_f : ℚ) (evt : Event) (h : RAA_ATLAS.Hist) (x : ℚ)
    (hx : (h, x) ∈ RAA_ATLAS.analyze RJETS_f evt) (hxj : h.isXJ = true) : 0 < x ∧ x ≤ 1 := by
  have hd : (h, x) ∈ RAA_ATLAS.dijetFills RJETS_f evt := by
    refine List.mem_filter.mpr ⟨hx, ?_⟩
    cases h <;> first | rfl | exact absurd hxj (by decide)
  rw [RAA_ATLAS.dijetFills_eq] at hd
  match hm : (jetsByPt (RAA_ATLAS.jetcuts RJETS_f) evt.jets).filter RAA_ATLAS.xjcuts with
  | [] => rw [RAA_ATLAS.xjSection_of_short (by simp [hm])] at hd; simp at hd
  | [_] => rw [RAA_ATLAS.xjSection_of_short (by simp [hm])] at hd; simp at hd
  | j0 :: j1 :: rest =>
    obtain ⟨h20, hle⟩ := RAA_ATLAS.selected_two_pT hm
    rw [RAA_ATLAS.xjSection_of_two hm] at hd
    split at hd
    · simp only [List.mem_append, List.mem_cons, List.mem_singleton, List.not_mem_nil,
        or_false, Prod.mk.injEq] at hd
      rcases hd with (hd | hd | hd) | hd
      · rw [hd.1] at hxj; exact absurd hxj (by decide)
      · rw [hd.1] at hxj; exact absurd hxj (by decide)
      · rw [hd.1] at hxj; exact absurd hxj (by decide)
      · have hv : x = j1.pT / j0.pT := (RAA_ATLAS.mem_xjSwitch hd).2
        have h0 : 0 < j0.pT := by linarith
        rw [hv]
        exact ⟨div_pos (by linarith) h0, (div_le_one h0).mpr hle⟩
    · simp only [List.mem_singleton, Prod.mk.injEq] at hd
      rw [hd.1] at hxj; exact absurd hxj (by decide)

/-- Claim C13: every value that `analyze` fills into one of the eighteen xJ
histograms lies in (0, 1]. The jets are in decreasing pT order by `jetsByPt`
and above 20 by the xJ cuts. -/
theorem RAA_ATLAS.xj_in_unit_interval (RJETS_f : ℚ) (evt : Event) (h : RAA_ATLAS.Hist) (x : ℚ)
    (hx : (h, x) ∈ RAA_ATLAS.analyze RJETS_f evt) (hxj : h.isXJ = true) : 0 < x ∧ x ≤ 1 :=
  RAA_ATLAS.xj_mem_unit RJETS_f evt h x hx hxj

/-- Claim C13 on the dijet scenario: the value 0.4 filled into `_xj_4` is in
(0, 1]. -/
theorem RAA_ATLAS.xj_in_unit_interval_witness :
    (RAA_ATLAS.Hist._xj_4, (0.4 : ℚ)) ∈ RAA_ATLAS.analyze 0.4 RAA_ATLAS.dijetEvent ∧
    (0 : ℚ) < 0.4 ∧ (0.4 : ℚ) ≤ 1 := by
  have hmem : (RAA_ATLAS.Hist._xj_4, (0.4 : ℚ)) ∈ RAA_ATLAS.analyze 0.4 RAA_ATLAS.dijetEvent := by
    have hd : (RAA_ATLAS.Hist._xj_4, (0.4 : ℚ)) ∈ RAA_ATLAS.dijetFills 0.4 RAA_ATLAS.dijetEvent := by
      rw [RAA_ATLAS.dijetFills_eq, RAA_ATLAS.xjSection_of_two RAA_ATLAS.dijetEvent_selected,
        if_pos (by
          show deltaPhi 0 M_PI > 7 * M_PI / 8
          rw [deltaPhi_zero_M_PI]; linarith [M_PI_pos])]
      have hr : RAA_ATLAS.pTRange 100 = 4 := by
        norm_num [RAA_ATLAS.pTRange, RAA_ATLAS.pTRange.PTEDGES, rangeScan]
      simp only [RAA_ATLAS.jet100, RAA_ATLAS.jet40back, hr, RAA_ATLAS.xjSwitch]
      norm_num
    exact (List.mem_filter.mp hd).1
  exact ⟨hmem, RAA_ATLAS.xj_in_unit_interval 0.4 RAA_ATLAS.dijetEvent _ _ hmem rfl⟩

/-- A histogram that no fill of the list goes to has no value in it. -/
theorem valuesOf_eq_nil {H : Type} [DecidableEq H] (h : H) (l : List (H × ℚ))
    (hl : ∀ f ∈ l, f.1 ≠ h) : valuesOf h l = [] := by
  unfold valuesOf
  rw [List.map_eq_nil_iff, List.filter_eq_nil_iff]
  intro f hf
  simpa using hl f hf

/-- The number of entries one event makes in the pass/fail counter: one when
two jets pass the xJ cuts, none otherwise. -/
theorem RAA_ATLAS.counter_entries_event (RJETS_f : ℚ) (evt : Event) :
    (valuesOf RAA_ATLAS.Hist._counter (RAA_ATLAS.analyze RJETS_f evt)).length =
      if 2 ≤ ((jetsByPt (RAA_ATLAS.jetcuts RJETS_f) evt.jets).filter RAA_ATLAS.xjcuts).length
      then 1 else 0 := by
  have hbody : valuesOf RAA_ATLAS.Hist._counter
      (List.flatMap (jetsByPt (RAA_ATLAS.jetcuts RJETS_f) evt.jets) RAA_ATLAS.jetBody) = [] := by
    apply valuesOf_eq_nil
    intro f hf hc
    obtain ⟨j, -, hj⟩ := List.mem_flatMap.mp hf
    have := RAA_ATLAS.jetBody_isDijet j f hj
    rw [hc] at this
    exact absurd this (by decide)
  unfold RAA_ATLAS.analyze
  simp only [valuesOf_append, hbody, List.nil_append]
  match hm : (jetsByPt (RAA_ATLAS.jetcuts RJETS_f) evt.jets).filter RAA_ATLAS.xjcuts with
  | [] => rw [RAA_ATLAS.xjSection_of_short (by simp [hm])]; simp [valuesOf_nil]
  | [_] => rw [RAA_ATLAS.xjSection_of_short (by simp [hm])]; simp [valuesOf_nil]
  | j0 :: j1 :: rest =>
    rw [RAA_ATLAS.xjSection_of_two hm]
    have hsw : valuesOf RAA_ATLAS.Hist._counter
        (RAA_ATLAS.xjSwitch (RAA_ATLAS.pTRange j0.pT) (j1.pT / j0.pT)) = [] := by
      apply valuesOf_eq_nil
      intro f hf hc
      have := (RAA_ATLAS.mem_xjSwitch hf).1
      rw [hc] at this
      exact absurd this (by decide)
    split
    · simp [valuesOf_append, valuesOf_cons, valuesOf_nil, hsw]
    · simp [valuesOf_cons, valuesOf_nil]

/-- Claim C14: over every sequence of events, the number of entries in the
pass/fail counter, passes and fails together, is the number of events in
which at least two jets pass the xJ selection. -/
theorem RAA_ATLAS.counter_entries_total (RJETS_f : ℚ) (events : List Event) :
    (valuesOf RAA_ATLAS.Hist._counter (events.flatMap (RAA_ATLAS.analyze RJETS_f))).length =
      events.countP (fun evt =>
        decide (2 ≤ ((jetsByPt (RAA_ATLAS.jetcuts RJETS_f) evt.jets).filter
          RAA_ATLAS.xjcuts).length)) := by
  induction events with
  | nil => rfl
  | cons evt rest ih =>
    rw [List.flatMap_cons, valuesOf_append, List.length_append, ih,
      RAA_ATLAS.counter_entries_event, List.countP_cons]
    by_cases h : 2 ≤ ((jetsByPt (RAA_ATLAS.jetcuts RJETS_f) evt.jets).filter
        RAA_ATLAS.xjcuts).length
    · simp [h]; omega
    · simp [h]

/-! ## Plane classifier -/

theorem foldl_min_lt_iff (a t : ℚ) (l : List ℚ) :
    List.foldl min a l < t ↔ a < t ∨ ∃ x ∈ l, x < t := by
  induction l generalizing a with
  | nil => simp
  | cons b l ih =>
    rw [List.foldl_cons, ih, min_lt_iff]
    simp only [List.mem_cons, exists_eq_or_imp]
    tauto

/-- The minimum of a list that has an element is below a bound exactly when an
element of the list is. -/
theorem min?_lt_iff {l : List ℚ} (hl : l ≠ []) (t : ℚ) :
    ∃ m, l.min? = some m ∧ (m < t ↔ ∃ x ∈ l, x < t) := by
  cases l with
  | nil => exact absurd rfl hl
  | cons a l =>
    refine ⟨List.foldl min a l, List.min?_cons', ?_⟩
    rw [foldl_min_lt_iff]
    simp only [List.mem_cons, exists_eq_or_imp]

/-- For a harmonic order of at least 2 the vector `dists` has an element, and
`isInPlane` is true exactly when one of the distances it holds is below the
threshold. -/
theorem isInPlane_eq_some (phi psi : ℚ) {n : ℤ} (hn : 2 ≤ n) :
    isInPlane phi psi n = some (decide (∃ i, i < (n - 1).toNat ∧
      angDistance phi (psi + 2 * M_PI * (i : ℚ) / (n : ℚ)) < (2 / 3) * M_PI / (2 * (n : ℚ)))) := by
  have hpos : 0 < (n - 1).toNat := by omega
  have hne : isInPlane.dists phi psi n ≠ [] := by
    unfold isInPlane.dists
    rw [Ne, List.map_eq_nil_iff, List.range_eq_nil]
    omega
  obtain ⟨m, hm, hlt⟩ := min?_lt_iff hne ((2 / 3) * M_PI / (2 * (n : ℚ)))
  unfold isInPlane
  simp only [hm, Option.map_some']
  congr 1
  rw [decide_eq_decide, hlt]
  unfold isInPlane.dists
  constructor
  · rintro ⟨x, hx, hxt⟩
    obtain ⟨i, hi, rfl⟩ := List.mem_map.mp hx
    exact ⟨i, List.mem_range.mp hi, hxt⟩
  · rintro ⟨i, hi, hxt⟩
    exact ⟨_, List.mem_map.mpr ⟨i, List.mem_range.mpr hi, rfl⟩, hxt⟩

theorem angDistance_self (phi : ℚ) : angDistance phi phi = 0 := by
  simp only [angDistance, sub_self, abs_zero]
  rw [if_neg (by linarith [M_PI_pos])]

/-- An angle is in-plane for itself, for every harmonic order of at least 2. -/
theorem isInPlane_self_eq (psi : ℚ) {n : ℤ} (hn : 2 ≤ n) : isInPlane psi psi n = some true := by
  rw [isInPlane_eq_some psi psi hn]
  congr 1
  rw [decide_eq_true_eq]
  refine ⟨0, by omega, ?_⟩
  have hn0 : (0 : ℚ) < (n : ℚ) := by exact_mod_cast (by omega : (0 : ℤ) < n)
  have h0 : psi + 2 * M_PI * ((0 : ℕ) : ℚ) / (n : ℚ) = psi := by simp
  rw [h0, angDistance_self]
  have := M_PI_pos
  positivity

/-- For 0 <= psi < pi the angles psi and psi + pi are at distance pi. -/
theorem angDistance_add_M_PI {psi : ℚ} (h0 : 0 ≤ psi) (h1 : psi < M_PI) :
    angDistance (psi + M_PI) psi = M_PI := by
  have hpi := M_PI_pos
  simp only [angDistance, planeConversion_eq_self (le_of_lt (by linarith : 0 < psi + M_PI))
    (by linarith : psi + M_PI < 2 * M_PI), planeConversion_eq_self h0 (by linarith)]
  rw [show psi + M_PI - psi = M_PI by ring, abs_of_pos hpi, if_neg (lt_irrefl _)]

/-- Claim C15, evaluated on the code at psi = pi / 2: the angle psi + pi is at
distance 0 from the image psi + 2 pi / 2 of psi, and `isInPlane(psi + pi, psi, 2)`
is false, because the loop stops before that image. -/
theorem isInPlane_opposite_false :
    angDistance (M_PI / 2 + M_PI) (M_PI / 2 + 2 * M_PI * 1 / 2) = 0 ∧
    isInPlane (M_PI / 2 + M_PI) (M_PI / 2) 2 = some false := by
  have hpi := M_PI_pos
  constructor
  · rw [show M_PI / 2 + 2 * M_PI * 1 / 2 = M_PI / 2 + M_PI by ring, angDistance_self]
  · rw [isInPlane_two, angDistance_add_M_PI (by linarith) (by linarith)]
    simp only [Option.some.injEq, decide_eq_false_iff_not, not_lt]
    linarith

/-- Claim C16: for every plane angle psi and every harmonic order n >= 2,
`isInPlane(psi, psi, n)` is true. -/
theorem isInPlane_self (psi : ℚ) (n : ℤ) (hn : 2 ≤ n) : isInPlane psi psi n = some true :=
  isInPlane_self_eq psi hn

/-- Claim C16 at psi = 1, n = 3. -/
theorem isInPlane_self_witness : isInPlane 1 1 3 = some true :=
  isInPlane_self 1 3 (by norm_num)

/-! ## Bin indexer: monotonicity -/

/-- When some edge is not below the value, the scan returns at least its start
position. -/
theorem rangeScan_ge_pos {w : ℚ} {E : List ℚ} (h : ∃ e ∈ E, w ≤ e) (pos : Nat) :
    pos ≤ rangeScan w E pos := by
  rcases rangeScan_cases w E pos with ⟨-, hall⟩ | ⟨k, hi, hk, -, -, -⟩
  · obtain ⟨e, he, hwe⟩ := h
    exact absurd (hall e he) (not_lt.mpr hwe)
  · omega

/-- The scan is monotone in the value as long as the larger value has an edge
that is not below it. -/
theorem rangeScan_mono {v w : ℚ} (hvw : v ≤ w) {E : List ℚ} (h : ∃ e ∈ E, w ≤ e) (pos : Nat) :
    rangeScan v E pos ≤ rangeScan w E pos := by
  induction E generalizing pos with
  | nil => simp [rangeScan]
  | cons e rest ih =>
    by_cases hw : w > e
    · have hrest : ∃ x ∈ rest, w ≤ x := by
        obtain ⟨x, hx, hwx⟩ := h
        rcases List.mem_cons.mp hx with rfl | hx
        · exact absurd hw (not_lt.mpr hwx)
        · exact ⟨x, hx, hwx⟩
      by_cases hv : v > e
      · simp only [rangeScan, hv, hw, if_true]
        exact ih hrest (pos + 1)
      · simp only [rangeScan, hv, hw, if_true, if_false]
        have := rangeScan_ge_pos hrest (pos + 1)
        omega
    · have hv : ¬ v > e := fun hv => hw (lt_of_lt_of_le hv hvw)
      simp [rangeScan, hv, hw]

/-- Claim C17, as stated, fails on the code: with the edges 10, 30, 60, 90 the
value 50 gets the index 2 and the larger value 1000 gets 0. -/
theorem rangeScan_not_monotone :
    List.Sorted (· < ·) ([10, 30, 60, 90] : List ℚ) ∧ (50 : ℚ) ≤ 1000 ∧
    rangeScan 50 [10, 30, 60, 90] 0 = 2 ∧ rangeScan 1000 [10, 30, 60, 90] 0 = 0 ∧
    ¬ rangeScan 50 [10, 30, 60, 90] 0 ≤ rangeScan 1000 [10, 30, 60, 90] 0 := by
  refine ⟨by norm_num, by norm_num, by norm_num [rangeScan], by norm_num [rangeScan],
    by norm_num [rangeScan]⟩

/-- Claim C17, amended: for every edge table (strictly increasing or not) and
all values v <= w such that w does not exceed every edge, the index of v is at
most the index of w. -/
theorem rangeScan_monotone_in_bounds (E : List ℚ) (v w : ℚ)
    (hvw : v ≤ w) (hw : ∃ e ∈ E, w ≤ e) : rangeScan v E 0 ≤ rangeScan w E 0 :=
  rangeScan_mono hvw hw 0

/-- Claim C17, amended, on the edges 10, 30, 60, 90 and the values 20 and 50. -/
theorem rangeScan_monotone_in_bounds_witness :
    rangeScan 20 [10, 30, 60, 90] 0 ≤ rangeScan 50 [10, 30, 60, 90] 0 :=
  rangeScan_monotone_in_bounds [10, 30, 60, 90] 20 50 (by norm_num)
    ⟨60, by simp, by norm_num⟩

/-! ## Plane conversion -/

/-- The function `planeConversion` adds 2 pi to an angle of [-2 pi, 0). -/
theorem planeConversion_of_neg {x : ℚ} (h0 : -(2 * M_PI) ≤ x) (h1 : x < 0) :
    planeConversion x = x + 2 * M_PI := by
  have hpi := M_PI_pos
  unfold planeConversion
  rw [fmod_eq_sub (by linarith) 0 (by push_cast; linarith) (by push_cast; linarith)]
  push_cast; ring

theorem planeConversion_range {psi : ℚ} (h1 : -M_PI ≤ psi) (h2 : psi ≤ M_PI) :
    0 ≤ planeConversion psi ∧ planeConversion psi < 2 * M_PI ∧
    planeConversion psi = (if 0 ≤ psi then psi else psi + 2 * M_PI) ∧
    ∃ k : ℤ, planeConversion psi = psi + (k : ℚ) * (2 * M_PI) := by
  have hpi := M_PI_pos
  by_cases h0 : 0 ≤ psi
  · rw [if_pos h0, planeConversion_eq_self h0 (by linarith)]
    exact ⟨h0, by linarith, rfl, 0, by simp⟩
  · rw [if_neg h0, planeConversion_of_neg (by linarith) (not_le.mp h0)]
    exact ⟨by linarith, by linarith [not_le.mp h0], rfl, 1, by simp⟩

/-- Claim C18: for every psi in [-pi, pi], `planeConversion(psi)` lies in
[0, 2 pi); it is psi for psi >= 0 and psi + 2 pi for psi < 0, so it differs from
psi by an integer multiple of 2 pi. -/
theorem planeConversion_normalizes (psi : ℚ) (h1 : -M_PI ≤ psi) (h2 : psi ≤ M_PI) :
    0 ≤ planeConversion psi ∧ planeConversion psi < 2 * M_PI ∧
    planeConversion psi = (if 0 ≤ psi then psi else psi + 2 * M_PI) ∧
    ∃ k : ℤ, planeConversion psi = psi + (k : ℚ) * (2 * M_PI) :=
  planeConversion_range h1 h2

/-- Claim C18 at psi = -1: the converted angle is -1 + 2 pi. -/
theorem planeConversion_normalizes_witness :
    0 ≤ planeConversion (-1) ∧ planeConversion (-1) < 2 * M_PI ∧
    planeConversion (-1) = -1 + 2 * M_PI := by
  have h := planeConversion_normalizes (-1) (by norm_num [M_PI]) (by norm_num [M_PI])
  refine ⟨h.1, h.2.1, ?_⟩
  rw [h.2.2.1, if_neg (by norm_num)]

/-! ## Hadron-jet correlation: normalization -/

theorem USPJWL_HJET.scaleCalls_append (a b : List USPJWL_HJET.Call) :
    USPJWL_HJET.scaleCalls (a ++ b) = USPJWL_HJET.scaleCalls a ++ USPJWL_HJET.scaleCalls b := by
  induction a with
  | nil => rfl
  | cons c a ih => cases c <;> simp [USPJWL_HJET.scaleCalls, ih]

theorem USPJWL_HJET.scaleCalls_fills (fills : List USPJWL_HJET.Fill) :
    USPJWL_HJET.scaleCalls (fills.map (fun f => USPJWL_HJET.Call.fill f.1 f.2)) = [] := by
  induction fills with
  | nil => rfl
  | cons f fills ih => simp [USPJWL_HJET.scaleCalls, ih]

theorem USPJWL_HJET.scaleCalls_events (events : List Event) :
    USPJWL_HJET.scaleCalls (events.flatMap (fun evt =>
      (USPJWL_HJET.analyze evt).map (fun f => USPJWL_HJET.Call.fill f.1 f.2))) = [] := by
  induction events with
  | nil => rfl
  | cons evt events ih =>
    rw [List.flatMap_cons, USPJWL_HJET.scaleCalls_append, USPJWL_HJET.scaleCalls_fills, ih]
    rfl

/-- Claim C19: the event loop makes no `scale` call, and the `scale` calls of a
whole run are those of `finalize`: one for each of the six away-side
histograms, with the factor 1 / (2 * etamax_jet), where etamax_jet is
etamax - R = 0.9 - 0.4; the factor is 1. -/
theorem USPJWL_HJET.run_scales_once (events : List Event) :
    USPJWL_HJET.scaleCalls (events.flatMap (fun evt =>
      (USPJWL_HJET.analyze evt).map (fun f => USPJWL_HJET.Call.fill f.1 f.2))) = [] ∧
    USPJWL_HJET.scaleCalls (USPJWL_HJET.run events) =
      [(USPJWL_HJET.Hist._hs_pTJet, 1 / (2 * (0.9 - 0.4))),
       (USPJWL_HJET.Hist._hs_pTJet_8_9, 1 / (2 * (0.9 - 0.4))),
       (USPJWL_HJET.Hist._hs_pTJet_6_7, 1 / (2 * (0.9 - 0.4))),
       (USPJWL_HJET.Hist._hs_pTJet_12_50, 1 / (2 * (0.9 - 0.4))),
       (USPJWL_HJET.Hist._hs_pTJet_1, 1 / (2 * (0.9 - 0.4))),
       (USPJWL_HJET.Hist._hs_pTJet_eta, 1 / (2 * (0.9 - 0.4)))] ∧
    (1 : ℚ) / (2 * (0.9 - 0.4)) = 1 := by
  refine ⟨USPJWL_HJET.scaleCalls_events events, ?_, by norm_num⟩
  unfold USPJWL_HJET.run
  rw [USPJWL_HJET.scaleCalls_append, USPJWL_HJET.scaleCalls_events, List.nil_append]
  rfl
/-! ## Out-of-range values -/

theorem RAA_ATLAS.overflowEvent_selected :
    (jetsByPt (RAA_ATLAS.jetcuts 0.4) RAA_ATLAS.overflowEvent.jets).filter RAA_ATLAS.xjcuts
      = [RAA_ATLAS.jet2000, RAA_ATLAS.jet40back] := by
  norm_num [jetsByPt, RAA_ATLAS.jetcuts, RAA_ATLAS.xjcuts, RAA_ATLAS.overflowEvent,
    RAA_ATLAS.jet2000, RAA_ATLAS.jet40back, List.insertionSort, List.orderedInsert,
    List.filter]

/-- A jet above the last rapidity edge fills the inclusive spectrum `_hist_10`
alone. -/
theorem RAA_ATLAS.jetBody_of_forward (j : Jet) (hy : 2.8 < |j.rap|) :
    RAA_ATLAS.absrapRange |j.rap| = 0 ∧ RAA_ATLAS.jetBody j = [(RAA_ATLAS.Hist._hist_10, j.pT)] := by
  have h0 : RAA_ATLAS.absrapRange |j.rap| = 0 :=
    (RAA_ATLAS.absrapRange_eq_zero_iff _).mpr (Or.inr hy)
  refine ⟨h0, ?_⟩
  have h1 : ¬ |j.rap| ≤ 2.1 := by
    intro h; norm_num at h hy; linarith
  have h2 : ¬ |j.rap| ≤ 2.8 := not_le.mpr hy
  have h3 : ¬ |j.rap| ≤ 1.2 := by
    intro h; norm_num at h hy; linarith
  simp only [RAA_ATLAS.jetBody, h0, RAA_ATLAS.rapSwitch, if_neg h1, if_neg h2, if_neg h3,
    List.nil_append]

/-- Claim C20: values above every configured edge are not errors. A jet with
|y| above 2.8 gets the index 0 from `absrapRange` and fills no rapidity-slice
histogram, and its fill into the inclusive spectrum `_hist_10` is made. An
accepted dijet whose leading pT is above 1000 gets the index 0 from `pTRange`
and fills no xJ histogram, and its fills into the counter and the leading and
subleading spectra are made. In USPJWL_PHIDIST a jet of pT above 1000 gets the
index 0 and fills no histogram. The analyses are total functions: nothing is
raised. -/
theorem out_of_range_is_silent (j : Jet) (hy : 2.8 < |j.rap|)
    (RJETS_f : ℚ) (evt : Event) (j0 j1 : Jet) (rest : List Jet)
    (hsel : (jetsByPt (RAA_ATLAS.jetcuts RJETS_f) evt.jets).filter RAA_ATLAS.xjcuts
      = j0 :: j1 :: rest)
    (hphi : deltaPhi j0.phi j1.phi > 7 * M_PI / 8) (hpt : 1000 < j0.pT)
    (jp : Jet) (hp : 1000 < jp.pT) :
    (RAA_ATLAS.absrapRange |j.rap| = 0 ∧
      RAA_ATLAS.jetBody j = [(RAA_ATLAS.Hist._hist_10, j.pT)]) ∧
    (RAA_ATLAS.pTRange j0.pT = 0 ∧
      RAA_ATLAS.dijetFills RJETS_f evt =
        [(RAA_ATLAS.Hist._counter, 1), (RAA_ATLAS.Hist._lead, j0.pT),
          (RAA_ATLAS.Hist._sublead, j1.pT)]) ∧
    (USPJWL_PHIDIST.pTRange jp.pT = 0 ∧
      USPJWL_PHIDIST.phiSwitch (USPJWL_PHIDIST.pTRange jp.pT) jp.phi = []) := by
  have h0 : RAA_ATLAS.pTRange j0.pT = 0 := (RAA_ATLAS.pTRange_eq_zero_iff _).mpr (Or.inr hpt)
  have hp0 : USPJWL_PHIDIST.pTRange jp.pT = 0 :=
    (USPJWL_PHIDIST.phidist_pTRange_eq_zero_iff _).mpr (Or.inr hp)
  refine ⟨RAA_ATLAS.jetBody_of_forward j hy, ⟨h0, ?_⟩, ⟨hp0, ?_⟩⟩
  · rw [RAA_ATLAS.dijetFills_eq, RAA_ATLAS.xjSection_of_two hsel, if_pos hphi, h0]
    rfl
  · rw [hp0]; rfl

/-- Claim C20 on a forward jet at |y| = 2.9, on the dijet event with a leading
jet of pT 2000, and on that jet in USPJWL_PHIDIST. -/
theorem out_of_range_is_silent_witness :
    RAA_ATLAS.jetBody RAA_ATLAS.forwardJet = [(RAA_ATLAS.Hist._hist_10, 50)] ∧
    RAA_ATLAS.dijetFills 0.4 RAA_ATLAS.overflowEvent =
      [(RAA_ATLAS.Hist._counter, 1), (RAA_ATLAS.Hist._lead, 2000),
        (RAA_ATLAS.Hist._sublead, 40)] ∧
    USPJWL_PHIDIST.phiSwitch (USPJWL_PHIDIST.pTRange 2000) 0 = [] := by
  have h := out_of_range_is_silent RAA_ATLAS.forwardJet
    (by
      show (2.8 : ℚ) < |2.9|
      rw [abs_of_pos (by norm_num)]; norm_num) 0.4 RAA_ATLAS.overflowEvent RAA_ATLAS.jet2000
    RAA_ATLAS.jet40back [] RAA_ATLAS.overflowEvent_selected
    (by
      show deltaPhi 0 M_PI > 7 * M_PI / 8
      rw [deltaPhi_zero_M_PI]; linarith [M_PI_pos])
    (by norm_num [RAA_ATLAS.jet2000]) RAA_ATLAS.jet2000 (by norm_num [RAA_ATLAS.jet2000])
  exact ⟨h.1.2, h.2.1.2, h.2.2.2⟩

/-! ## Subjet fragmentation: routing in an event -/

/-- The jets that `jetsByPt` returns are the jets of the event that pass the
cut. -/
theorem mem_jetsByPt (cut : Jet → Bool) (jets : List Jet) (j : Jet) :
    j ∈ jetsByPt cut jets ↔ j ∈ jets ∧ cut j = true := by
  unfold jetsByPt
  rw [(List.perm_insertionSort _ _).mem_iff, List.mem_filter]

/-- The values that the body of the jet loop fills into the leading histograms
of a radius. -/
theorem USPJWL_SUBFRAG.jetBody_values (inclusive_jets : List Particle → ℚ → List PseudoJet)
    (j : Jet) (r : ℚ) (hr : r ∈ USPJWL_SUBFRAG.rs)
    (hdef : ∀ r1 ∈ USPJWL_SUBFRAG.rs, inclusive_jets j.constituents r1 ≠ []) :
    ∃ fills,
      USPJWL_SUBFRAG.jetBody inclusive_jets j = some fills ∧
      valuesOf (USPJWL_SUBFRAG.histos r 1) fills
        = (if j.pT < 120 then [USPJWL_SUBFRAG.leadZ inclusive_jets r j] else []) ∧
      valuesOf (USPJWL_SUBFRAG.histos r 2) fills
        = (if 100 < j.pT then [USPJWL_SUBFRAG.leadZ inclusive_jets r j] else []) ∧
      valuesOf (USPJWL_SUBFRAG.histos r 3) fills
        = [USPJWL_SUBFRAG.leadZ inclusive_jets r j] := by
  have hne : ∀ r1 ∈ USPJWL_SUBFRAG.rs, ∃ l1 t1,
      sorted_by_pt (inclusive_jets j.constituents r1) = l1 :: t1 := by
    intro r1 hr1
    cases hs : sorted_by_pt (inclusive_jets j.constituents r1) with
    | nil => exact absurd ((sorted_by_pt_eq_nil_iff _).mp hs) (hdef r1 hr1)
    | cons l1 t1 => exact ⟨l1, t1, rfl⟩
  obtain ⟨l1, t1, hs1⟩ := hne 0.1 (by simp [USPJWL_SUBFRAG.rs])
  obtain ⟨l2, t2, hs2⟩ := hne 0.2 (by simp [USPJWL_SUBFRAG.rs])
  have hb := USPJWL_SUBFRAG.runAll_pair
    (USPJWL_SUBFRAG.radiusBody inclusive_jets j.constituents j.pT) 0.1 0.2 _ _
    (USPJWL_SUBFRAG.radiusBody_of_cons j.pT hs1) (USPJWL_SUBFRAG.radiusBody_of_cons j.pT hs2)
  refine ⟨_, hb, ?_⟩
  have v1 := USPJWL_SUBFRAG.valuesOf_radius_fills hr
    (show (0.1 : ℚ) ∈ USPJWL_SUBFRAG.rs by simp [USPJWL_SUBFRAG.rs]) j.pT (l1.perp / j.pT)
    (l1 :: t1)
  have v2 := USPJWL_SUBFRAG.valuesOf_radius_fills hr
    (show (0.2 : ℚ) ∈ USPJWL_SUBFRAG.rs by simp [USPJWL_SUBFRAG.rs]) j.pT (l2.perp / j.pT)
    (l2 :: t2)
  have h12 : ¬ ((0.1 : ℚ) = 0.2) := by norm_num
  have h21 : ¬ ((0.2 : ℚ) = 0.1) := by norm_num
  have hz1 : USPJWL_SUBFRAG.leadZ inclusive_jets 0.1 j = l1.perp / j.pT := by
    simp [USPJWL_SUBFRAG.leadZ, hs1]
  have hz2 : USPJWL_SUBFRAG.leadZ inclusive_jets 0.2 j = l2.perp / j.pT := by
    simp [USPJWL_SUBFRAG.leadZ, hs2]
  simp only [USPJWL_SUBFRAG.rs, List.mem_cons, List.mem_singleton, List.not_mem_nil,
    or_false] at hr
  refine ⟨?_, ?_, ?_⟩
  · rw [valuesOf_append, v1.1, v2.1]
    rcases hr with rfl | rfl
    · simp [h21, hz1]
    · simp [h12, hz2]
  · rw [valuesOf_append, v1.2.1, v2.2.1]
    rcases hr with rfl | rfl
    · simp [h21, hz1]
    · simp [h12, hz2]
  · rw [valuesOf_append, v1.2.2, v2.2.2]
    rcases hr with rfl | rfl
    · simp [h21, hz1]
    · simp [h12, hz2]

/-- The values that the jet loop fills into the leading histograms of a
radius, over a list of jets. -/
theorem USPJWL_SUBFRAG.runAll_jetBody_values
    (inclusive_jets : List Particle → ℚ → List PseudoJet) (r : ℚ)
    (hr : r ∈ USPJWL_SUBFRAG.rs) (l : List Jet)
    (hdef : ∀ j ∈ l, ∀ r1 ∈ USPJWL_SUBFRAG.rs, inclusive_jets j.constituents r1 ≠ []) :
    ∃ fills,
      USPJWL_SUBFRAG.runAll (USPJWL_SUBFRAG.jetBody inclusive_jets) l = some fills ∧
      valuesOf (USPJWL_SUBFRAG.histos r 1) fills
        = (l.filter (fun j => decide (j.pT < 120))).map
            (USPJWL_SUBFRAG.leadZ inclusive_jets r) ∧
      valuesOf (USPJWL_SUBFRAG.histos r 2) fills
        = (l.filter (fun j => decide (100 < j.pT))).map
            (USPJWL_SUBFRAG.leadZ inclusive_jets r) ∧
      valuesOf (USPJWL_SUBFRAG.histos r 3) fills
        = l.map (USPJWL_SUBFRAG.leadZ inclusive_jets r) := by
  induction l with
  | nil => exact ⟨[], rfl, rfl, rfl, rfl⟩
  | cons j l ih =>
    obtain ⟨fj, hj, hj1, hj2, hj3⟩ := USPJWL_SUBFRAG.jetBody_values inclusive_jets j r hr
      (hdef j (List.mem_cons_self _ _))
    obtain ⟨fl, hl, hl1, hl2, hl3⟩ := ih (fun j1 hj1 => hdef j1 (List.mem_cons_of_mem _ hj1))
    refine ⟨fj ++ fl, by simp [USPJWL_SUBFRAG.runAll, hj, hl], ?_, ?_, ?_⟩
    · rw [valuesOf_append, hj1, hl1]
      by_cases h : j.pT < 120 <;> simp [List.filter_cons, h]
    · rw [valuesOf_append, hj2, hl2]
      by_cases h : 100 < j.pT <;> simp [List.filter_cons, h]
    · rw [valuesOf_append, hj3, hl3]
      rfl

/-- Claim C11, amended: the jets selected in an event are its jets with
80 < pT < 150 inside the pseudorapidity cut. When each of them has subjets at
both radii, `analyze` is defined and, for each radius, the values it fills into
the "high" histogram are the leading z of the selected jets with pT < 120, those
it fills into the "highD" histogram are the leading z of the selected jets with
pT > 100, and those it fills into the custom histogram are the leading z of all
the selected jets, one value a jet, in decreasing order of jet pT. So the
leading z of a jet is in the "high" family exactly when 80 < pT < 120 and in the
"highD" family exactly when 100 < pT < 150, and for 100 < pT < 120 in both. -/
theorem USPJWL_SUBFRAG.leading_z_routing (inclusive_jets : List Particle → ℚ → List PseudoJet)
    (RJETS_f : ℚ) (evt : Event) (r : ℚ) (hr : r ∈ USPJWL_SUBFRAG.rs)
    (hdef : ∀ j ∈ jetsByPt (USPJWL_SUBFRAG.jetcuts RJETS_f) evt.jets,
      ∀ r1 ∈ USPJWL_SUBFRAG.rs, inclusive_jets j.constituents r1 ≠ []) :
    (∀ j, j ∈ jetsByPt (USPJWL_SUBFRAG.jetcuts RJETS_f) evt.jets ↔
      j ∈ evt.jets ∧ 80 < j.pT ∧ j.pT < 150 ∧ |j.eta| < 0.9 - RJETS_f) ∧
    ∃ fills,
      USPJWL_SUBFRAG.analyze inclusive_jets RJETS_f evt = some fills ∧
      valuesOf (USPJWL_SUBFRAG.histos r 1) fills
        = ((jetsByPt (USPJWL_SUBFRAG.jetcuts RJETS_f) evt.jets).filter
            (fun j => decide (j.pT < 120))).map (USPJWL_SUBFRAG.leadZ inclusive_jets r) ∧
      valuesOf (USPJWL_SUBFRAG.histos r 2) fills
        = ((jetsByPt (USPJWL_SUBFRAG.jetcuts RJETS_f) evt.jets).filter
            (fun j => decide (100 < j.pT))).map (USPJWL_SUBFRAG.leadZ inclusive_jets r) ∧
      valuesOf (USPJWL_SUBFRAG.histos r 3) fills
        = (jetsByPt (USPJWL_SUBFRAG.jetcuts RJETS_f) evt.jets).map
            (USPJWL_SUBFRAG.leadZ inclusive_jets r) := by
  refine ⟨?_, USPJWL_SUBFRAG.runAll_jetBody_values inclusive_jets r hr _ hdef⟩
  intro j
  rw [mem_jetsByPt]
  simp [USPJWL_SUBFRAG.jetcuts]

/-- Claim C11, amended, on an event with jets of pT 80, 110 and 130, each
particle a subjet of its own, at the radius 0.1: the jet of pT 80 is not
selected; the "high" histogram gets the leading z 70/110 of the jet of pT 110,
the "highD" histogram the leading z of the jets of pT 130 and 110, and the
custom histogram both. -/
theorem USPJWL_SUBFRAG.leading_z_routing_witness :
    ∃ fills,
      USPJWL_SUBFRAG.analyze USPJWL_SUBFRAG.singletons 0.4 USPJWL_SUBFRAG.threeJetEvent
        = some fills ∧
      valuesOf USPJWL_SUBFRAG.Hist.zhigh_1 fills = [70 / 110] ∧
      valuesOf USPJWL_SUBFRAG.Hist.zhighd_1 fills = [1, 70 / 110] ∧
      valuesOf USPJWL_SUBFRAG.Hist.zcustom_1 fills = [1, 70 / 110] := by
  have hsel : jetsByPt (USPJWL_SUBFRAG.jetcuts 0.4) USPJWL_SUBFRAG.threeJetEvent.jets
      = [USPJWL_SUBFRAG.jet130, USPJWL_SUBFRAG.jet110] := by
    norm_num [jetsByPt, USPJWL_SUBFRAG.jetcuts, USPJWL_SUBFRAG.threeJetEvent,
      USPJWL_SUBFRAG.jet80, USPJWL_SUBFRAG.jet110, USPJWL_SUBFRAG.jet130,
      List.insertionSort, List.orderedInsert, List.filter]
  have hz110 : USPJWL_SUBFRAG.leadZ USPJWL_SUBFRAG.singletons 0.1 USPJWL_SUBFRAG.jet110
      = 70 / 110 := by
    norm_num [USPJWL_SUBFRAG.leadZ, sorted_by_pt, USPJWL_SUBFRAG.singletons,
      USPJWL_SUBFRAG.jet110, List.insertionSort, List.orderedInsert]
  have hz130 : USPJWL_SUBFRAG.leadZ USPJWL_SUBFRAG.singletons 0.1 USPJWL_SUBFRAG.jet130
      = 1 := by
    norm_num [USPJWL_SUBFRAG.leadZ, sorted_by_pt, USPJWL_SUBFRAG.singletons,
      USPJWL_SUBFRAG.jet130, List.insertionSort, List.orderedInsert]
  obtain ⟨-, fills, hf, h1, h2, h3⟩ := USPJWL_SUBFRAG.leading_z_routing
    USPJWL_SUBFRAG.singletons 0.4 USPJWL_SUBFRAG.threeJetEvent 0.1
    (by simp [USPJWL_SUBFRAG.rs])
    (by
      intro j hj r1 _
      rw [hsel] at hj
      simp only [List.mem_cons, List.mem_singleton, List.not_mem_nil, or_false] at hj
      rcases hj with rfl | rfl <;>
        simp [USPJWL_SUBFRAG.singletons, USPJWL_SUBFRAG.jet130, USPJWL_SUBFRAG.jet110])
  rw [hsel, USPJWL_SUBFRAG.histos_r01] at h1 h2 h3
  refine ⟨fills, hf, ?_, ?_, ?_⟩
  · rw [show USPJWL_SUBFRAG.Hist.zhigh_1 = ![USPJWL_SUBFRAG.Hist.zfull_1,
      USPJWL_SUBFRAG.Hist.zhigh_1, USPJWL_SUBFRAG.Hist.zhighd_1,
      USPJWL_SUBFRAG.Hist.zcustom_1] 1 from rfl, h1]
    have ha : ¬ USPJWL_SUBFRAG.jet130.pT < 120 := by norm_num [USPJWL_SUBFRAG.jet130]
    have hb : USPJWL_SUBFRAG.jet110.pT < 120 := by norm_num [USPJWL_SUBFRAG.jet110]
    simp [List.filter, ha, hb, hz110]
  · rw [show USPJWL_SUBFRAG.Hist.zhighd_1 = ![USPJWL_SUBFRAG.Hist.zfull_1,
      USPJWL_SUBFRAG.Hist.zhigh_1, USPJWL_SUBFRAG.Hist.zhighd_1,
      USPJWL_SUBFRAG.Hist.zcustom_1] 2 from rfl, h2]
    have ha : 100 < USPJWL_SUBFRAG.jet130.pT := by norm_num [USPJWL_SUBFRAG.jet130]
    have hb : 100 < USPJWL_SUBFRAG.jet110.pT := by norm_num [USPJWL_SUBFRAG.jet110]
    simp [List.filter, ha, hb, hz110, hz130]
  · rw [show USPJWL_SUBFRAG.Hist.zcustom_1 = ![USPJWL_SUBFRAG.Hist.zfull_1,
      USPJWL_SUBFRAG.Hist.zhigh_1, USPJWL_SUBFRAG.Hist.zhighd_1,
      USPJWL_SUBFRAG.Hist.zcustom_1] 3 from rfl, h3]
    simp [hz110, hz130]

/-! ## Plane classifier: totality and the angular distance -/

/-- For a harmonic order of at least 2 the loop of `isInPlane` runs at least
once. -/
theorem isInPlane_dists_ne_nil (phi psi : ℚ) {n : ℤ} (hn : 2 ≤ n) :
    isInPlane.dists phi psi n ≠ [] := by
  unfold isInPlane.dists
  rw [Ne, List.map_eq_nil_iff, List.range_eq_nil]
  omega

/-- Claim C21: for every phi, every psi and every harmonic order n >= 2 the
vector `dists` of `isInPlane` is non-empty and `isInPlane` returns a boolean. -/
theorem isInPlane_definite (phi psi : ℚ) (n : ℤ) (hn : 2 ≤ n) :
    isInPlane.dists phi psi n ≠ [] ∧ ∃ b : Bool, isInPlane phi psi n = some b :=
  ⟨isInPlane_dists_ne_nil phi psi hn, _, isInPlane_eq_some phi psi hn⟩

/-- Claim C21 at phi = 1, psi = 2, n = 4. -/
theorem isInPlane_definite_witness :
    isInPlane.dists 1 2 4 ≠ [] ∧ ∃ b : Bool, isInPlane 1 2 4 = some b :=
  isInPlane_definite 1 2 4 (by norm_num)

/-- For a non-negative value and a positive modulus, `fmod` is the remainder in
[0, y). -/
theorem fmod_of_nonneg {x y : ℚ} (hx : 0 ≤ x) (hy : 0 < y) :
    0 ≤ fmod x y ∧ fmod x y < y ∧ fmod x y = x - (⌊x / y⌋ : ℚ) * y := by
  have hq : 0 ≤ x / y := div_nonneg hx hy.le
  have hf : fmod x y = x - (⌊x / y⌋ : ℚ) * y := by simp [fmod, trunc, hq]
  have h1 : (⌊x / y⌋ : ℚ) ≤ x / y := Int.floor_le _
  have h2 : x / y < (⌊x / y⌋ : ℚ) + 1 := Int.lt_floor_add_one _
  rw [le_div_iff₀ hy] at h1
  rw [div_lt_iff₀ hy] at h2
  rw [hf]
  exact ⟨by linarith, by linarith, rfl⟩

/-- The function `planeConversion` brings an angle of at least -2 pi to
[0, 2 pi), by a multiple of 2 pi. -/
theorem planeConversion_mem {x : ℚ} (hx : -(2 * M_PI) ≤ x) :
    0 ≤ planeConversion x ∧ planeConversion x < 2 * M_PI ∧
    ∃ k : ℤ, planeConversion x = x + (k : ℚ) * (2 * M_PI) := by
  have hpi := M_PI_pos
  obtain ⟨h0, h1, h2⟩ := fmod_of_nonneg (by linarith : 0 ≤ x + 2 * M_PI)
    (by linarith : 0 < 2 * M_PI)
  refine ⟨h0, h1, 1 - ⌊(x + 2 * M_PI) / (2 * M_PI)⌋, ?_⟩
  unfold planeConversion
  rw [h2]
  push_cast
  ring

/-- Two values of [0, y) that differ by an integer multiple of y are equal. -/
theorem eq_of_sub_eq_int_mul {a b y : ℚ} (ha0 : 0 ≤ a) (ha1 : a < y) (hb0 : 0 ≤ b) (hb1 : b < y)
    (k : ℤ) (h : a - b = (k : ℚ) * y) : a = b := by
  have hy : 0 < y := lt_of_le_of_lt ha0 ha1
  have hk1 : (k : ℚ) * y < 1 * y := by linarith
  have hk2 : (-1 : ℚ) * y < (k : ℚ) * y := by linarith
  have h1 : (k : ℚ) < 1 := lt_of_mul_lt_mul_right hk1 hy.le
  have h2 : (-1 : ℚ) < (k : ℚ) := lt_of_mul_lt_mul_right hk2 hy.le
  have hk : k = 0 := by
    have h1' : k < 1 := by exact_mod_cast h1
    have h2' : -1 < k := by exact_mod_cast h2
    omega
  rw [hk] at h
  simp at h
  linarith

/-- Two angles of at least -2 pi have the same conversion exactly when they
differ by an integer multiple of 2 pi. -/
theorem planeConversion_eq_iff {x1 x2 : ℚ} (h1 : -(2 * M_PI) ≤ x1) (h2 : -(2 * M_PI) ≤ x2) :
    planeConversion x1 = planeConversion x2 ↔ ∃ k : ℤ, x1 - x2 = (k : ℚ) * (2 * M_PI) := by
  obtain ⟨a0, a1, ka, ha⟩ := planeConversion_mem h1
  obtain ⟨b0, b1, kb, hb⟩ := planeConversion_mem h2
  constructor
  · intro h
    refine ⟨kb - ka, ?_⟩
    push_cast
    rw [ha, hb] at h
    linarith
  · rintro ⟨k, hk⟩
    refine eq_of_sub_eq_int_mul a0 a1 b0 b1 (k + ka - kb) ?_
    push_cast
    rw [ha, hb]
    linarith

theorem planeConversion_add_two_pi {x : ℚ} (hx : -(2 * M_PI) ≤ x) :
    planeConversion (x + 2 * M_PI) = planeConversion x := by
  have hpi := M_PI_pos
  rw [planeConversion_eq_iff (by linarith) hx]
  exact ⟨1, by push_cast; ring⟩
/-- The distance of `angDistance` in terms of the two converted angles. -/
theorem angDistance_eq (phi1 phi2 : ℚ) :
    angDistance phi1 phi2 =
      if |planeConversion phi1 - planeConversion phi2| > M_PI
      then 2 * M_PI - |planeConversion phi1 - planeConversion phi2|
      else |planeConversion phi1 - planeConversion phi2| := rfl

/-- The folded distance of two values of [0, 2 pi). -/
theorem folded_distance_props {a b : ℚ} (ha0 : 0 ≤ a) (ha1 : a < 2 * M_PI) (hb0 : 0 ≤ b)
    (hb1 : b < 2 * M_PI) :
    0 ≤ (if |a - b| > M_PI then 2 * M_PI - |a - b| else |a - b|) ∧
    (if |a - b| > M_PI then 2 * M_PI - |a - b| else |a - b|) ≤ M_PI ∧
    ((if |a - b| > M_PI then 2 * M_PI - |a - b| else |a - b|) = 0 ↔ a = b) := by
  have hpi := M_PI_pos
  rcases abs_cases (a - b) with ⟨h1, h2⟩ | ⟨h1, h2⟩ <;> rw [h1] <;> split_ifs with h3 <;>
    refine ⟨by linarith, by linarith, ?_⟩ <;> constructor <;> intro h <;> linarith

theorem angDistance_comm (phi1 phi2 : ℚ) : angDistance phi1 phi2 = angDistance phi2 phi1 := by
  rw [angDistance_eq, angDistance_eq, abs_sub_comm]

/-- The distance of `angDistance` is the absolute value of the difference of
the angles moved by a multiple of 2 pi, and no multiple of 2 pi gives a smaller
one: it is the shortest circular distance. -/
theorem angDistance_shortest {phi1 phi2 : ℚ} (h1 : -(2 * M_PI) ≤ phi1)
    (h2 : -(2 * M_PI) ≤ phi2) :
    (∃ k : ℤ, angDistance phi1 phi2 = |phi1 - phi2 + (k : ℚ) * (2 * M_PI)|) ∧
    ∀ m : ℤ, angDistance phi1 phi2 ≤ |phi1 - phi2 + (m : ℚ) * (2 * M_PI)| := by
  have hpi := M_PI_pos
  obtain ⟨a0, a1, ka, ha⟩ := planeConversion_mem h1
  obtain ⟨b0, b1, kb, hb⟩ := planeConversion_mem h2
  obtain ⟨d0, d1, -⟩ := folded_distance_props a0 a1 b0 b1
  have key : ∃ k : ℤ, angDistance phi1 phi2 = |phi1 - phi2 + (k : ℚ) * (2 * M_PI)| := by
    rw [angDistance_eq]
    rcases abs_cases (planeConversion phi1 - planeConversion phi2) with ⟨e1, e2⟩ | ⟨e1, e2⟩
    · rw [e1]
      split_ifs with h3
      · refine ⟨ka - kb - 1, ?_⟩
        push_cast
        rw [show phi1 - phi2 + ((ka : ℚ) - kb - 1) * (2 * M_PI)
          = planeConversion phi1 - planeConversion phi2 - 2 * M_PI by rw [ha, hb]; ring]
        rw [abs_of_nonpos (by linarith)]
        ring
      · refine ⟨ka - kb, ?_⟩
        push_cast
        rw [show phi1 - phi2 + ((ka : ℚ) - kb) * (2 * M_PI)
          = planeConversion phi1 - planeConversion phi2 by rw [ha, hb]; ring]
        rw [abs_of_nonneg e2]
    · rw [e1]
      split_ifs with h3
      · refine ⟨ka - kb + 1, ?_⟩
        push_cast
        rw [show phi1 - phi2 + ((ka : ℚ) - kb + 1) * (2 * M_PI)
          = planeConversion phi1 - planeConversion phi2 + 2 * M_PI by rw [ha, hb]; ring]
        rw [abs_of_nonneg (by linarith)]
        ring
      · refine ⟨ka - kb, ?_⟩
        push_cast
        rw [show phi1 - phi2 + ((ka : ℚ) - kb) * (2 * M_PI)
          = planeConversion phi1 - planeConversion phi2 by rw [ha, hb]; ring]
        rw [abs_of_neg e2]
  refine ⟨key, ?_⟩
  obtain ⟨k, hk⟩ := key
  intro m
  have hd1 : angDistance phi1 phi2 ≤ M_PI := by rw [angDistance_eq]; exact d1
  rcases lt_trichotomy m k with hlt | heq | hgt
  · have hj : ((m : ℚ) - k) ≤ -1 := by
      have : m - k ≤ -1 := by omega
      exact_mod_cast this
    have he := abs_le.mp (le_of_eq hk.symm |>.trans hd1)
    have : phi1 - phi2 + (m : ℚ) * (2 * M_PI) ≤ -M_PI := by nlinarith
    calc angDistance phi1 phi2 ≤ M_PI := hd1
      _ ≤ -(phi1 - phi2 + (m : ℚ) * (2 * M_PI)) := by linarith
      _ ≤ |phi1 - phi2 + (m : ℚ) * (2 * M_PI)| := neg_le_abs _
  · rw [heq, hk]
  · have hj : (1 : ℚ) ≤ (m : ℚ) - k := by
      have : 1 ≤ m - k := by omega
      exact_mod_cast this
    have he := abs_le.mp (le_of_eq hk.symm |>.trans hd1)
    have : M_PI ≤ phi1 - phi2 + (m : ℚ) * (2 * M_PI) := by nlinarith
    calc angDistance phi1 phi2 ≤ M_PI := hd1
      _ ≤ phi1 - phi2 + (m : ℚ) * (2 * M_PI) := this
      _ ≤ |phi1 - phi2 + (m : ℚ) * (2 * M_PI)| := le_abs_self _

/-- The properties of `angDistance` on angles of at least -2 pi. -/
theorem angDistance_props {phi1 phi2 : ℚ} (h1 : -(2 * M_PI) ≤ phi1) (h2 : -(2 * M_PI) ≤ phi2) :
    0 ≤ angDistance phi1 phi2 ∧ angDistance phi1 phi2 ≤ M_PI ∧
    angDistance phi1 phi2 = angDistance phi2 phi1 ∧
    (angDistance phi1 phi2 = 0 ↔ ∃ k : ℤ, phi1 - phi2 = (k : ℚ) * (2 * M_PI)) ∧
    angDistance (phi1 + 2 * M_PI) phi2 = angDistance phi1 phi2 ∧
    angDistance phi1 (phi2 + 2 * M_PI) = angDistance phi1 phi2 := by
  obtain ⟨a0, a1, -⟩ := planeConversion_mem h1
  obtain ⟨b0, b1, -⟩ := planeConversion_mem h2
  obtain ⟨d0, d1, dz⟩ := folded_distance_props a0 a1 b0 b1
  refine ⟨d0, d1, angDistance_comm _ _, ?_, ?_, ?_⟩
  · rw [angDistance_eq, dz, planeConversion_eq_iff h1 h2]
  · rw [angDistance_eq, angDistance_eq, planeConversion_add_two_pi h1]
  · rw [angDistance_eq, angDistance_eq, planeConversion_add_two_pi h2]

/-- Claim C24: for all phi1, phi2 >= -2 pi, `angDistance` is the shortest
circular distance of the two angles: it is |phi1 - phi2 + 2 pi k| for an integer
k and no integer gives a smaller value; it lies in [0, pi], is symmetric in its
arguments, is 0 exactly when phi1 and phi2 differ by a multiple of 2 pi, and is
unchanged when 2 pi is added to either argument. -/
theorem angDistance_is_circular_distance (phi1 phi2 : ℚ) (h1 : -(2 * M_PI) ≤ phi1)
    (h2 : -(2 * M_PI) ≤ phi2) :
    ((∃ k : ℤ, angDistance phi1 phi2 = |phi1 - phi2 + (k : ℚ) * (2 * M_PI)|) ∧
      ∀ m : ℤ, angDistance phi1 phi2 ≤ |phi1 - phi2 + (m : ℚ) * (2 * M_PI)|) ∧
    0 ≤ angDistance phi1 phi2 ∧ angDistance phi1 phi2 ≤ M_PI ∧
    angDistance phi1 phi2 = angDistance phi2 phi1 ∧
    (angDistance phi1 phi2 = 0 ↔ ∃ k : ℤ, phi1 - phi2 = (k : ℚ) * (2 * M_PI)) ∧
    angDistance (phi1 + 2 * M_PI) phi2 = angDistance phi1 phi2 ∧
    angDistance phi1 (phi2 + 2 * M_PI) = angDistance phi1 phi2 :=
  ⟨angDistance_shortest h1 h2, angDistance_props h1 h2⟩

/-- Claim C24 at phi1 = -1 and phi2 = 5: the distance is at most pi and is the
same in both orders. -/
theorem angDistance_is_circular_distance_witness :
    0 ≤ angDistance (-1) 5 ∧ angDistance (-1) 5 ≤ M_PI ∧
    angDistance (-1) 5 = angDistance 5 (-1) := by
  have h := angDistance_is_circular_distance (-1) 5 (by norm_num [M_PI]) (by norm_num [M_PI])
  exact ⟨h.2.1, h.2.2.1, h.2.2.2.1⟩

/-! ## In-plane and out-of-plane -/

/-- The function `planeConversion` removes 2 pi from an angle of [2 pi, 4 pi). -/
theorem planeConversion_of_ge {x : ℚ} (h0 : 2 * M_PI ≤ x) (h1 : x < 4 * M_PI) :
    planeConversion x = x - 2 * M_PI := by
  have hpi := M_PI_pos
  unfold planeConversion
  rw [fmod_eq_sub (by linarith) 2 (by push_cast; linarith) (by push_cast; linarith)]
  push_cast; ring

/-- The distance of two angles of [0, 2 pi). -/
theorem angDistance_of_mem {a b : ℚ} (ha0 : 0 ≤ a) (ha1 : a < 2 * M_PI) (hb0 : 0 ≤ b)
    (hb1 : b < 2 * M_PI) :
    angDistance a b = if |a - b| > M_PI then 2 * M_PI - |a - b| else |a - b| := by
  rw [angDistance_eq, planeConversion_eq_self ha0 ha1, planeConversion_eq_self hb0 hb1]

/-- Two angles of [0, 2 pi) whose difference is between `t` and `2 pi - t` are
not closer than `t`. -/
theorem angDistance_not_lt {a b t : ℚ} (ha0 : 0 ≤ a) (ha1 : a < 2 * M_PI) (hb0 : 0 ≤ b)
    (hb1 : b < 2 * M_PI)
    (h : (t ≤ a - b ∧ a - b ≤ 2 * M_PI - t) ∨ (t ≤ b - a ∧ b - a ≤ 2 * M_PI - t)) :
    ¬ angDistance a b < t := by
  rw [angDistance_of_mem ha0 ha1 hb0 hb1]
  rcases abs_cases (a - b) with ⟨h1, h2⟩ | ⟨h1, h2⟩ <;> rw [h1] <;> split_ifs <;>
    rcases h with ⟨h3, h4⟩ | ⟨h3, h4⟩ <;> intro hlt <;> linarith

/-- Two angles of [0, 2 pi) whose difference is below `t` in absolute value,
`t` at most pi, are closer than `t`. -/
theorem angDistance_lt {a b t : ℚ} (ha0 : 0 ≤ a) (ha1 : a < 2 * M_PI) (hb0 : 0 ≤ b)
    (hb1 : b < 2 * M_PI) (ht : t ≤ M_PI) (h1 : -t < a - b) (h2 : a - b < t) :
    angDistance a b < t := by
  rw [angDistance_of_mem ha0 ha1 hb0 hb1]
  rcases abs_cases (a - b) with ⟨e1, e2⟩ | ⟨e1, e2⟩ <;> rw [e1] <;> split_ifs <;> linarith

/-- No azimuth of [0, 2 pi) is within pi / 6 both of psi and of psi + pi / 2. -/
theorem angDistance_quarter_exclusive {phi psi : ℚ} (hphi0 : 0 ≤ phi) (hphi1 : phi < 2 * M_PI)
    (hpsi0 : 0 ≤ psi) (hpsi1 : psi < 2 * M_PI) :
    ¬ (angDistance phi psi < M_PI / 6 ∧ angDistance phi (psi + M_PI / 2) < M_PI / 6) := by
  have hpi := M_PI_pos
  rintro ⟨h1, h2⟩
  rw [angDistance_of_mem hphi0 hphi1 hpsi0 hpsi1] at h1
  rw [angDistance_eq, planeConversion_eq_self hphi0 hphi1] at h2
  by_cases hq : psi + M_PI / 2 < 2 * M_PI
  · rw [planeConversion_eq_self (by linarith) hq] at h2
    rcases abs_cases (phi - psi) with ⟨e1, e2⟩ | ⟨e1, e2⟩ <;> rw [e1] at h1 <;>
      rcases abs_cases (phi - (psi + M_PI / 2)) with ⟨f1, f2⟩ | ⟨f1, f2⟩ <;> rw [f1] at h2 <;>
      split_ifs at h1 h2 <;> linarith
  · rw [planeConversion_of_ge (by linarith) (by linarith)] at h2
    rcases abs_cases (phi - psi) with ⟨e1, e2⟩ | ⟨e1, e2⟩ <;> rw [e1] at h1 <;>
      rcases abs_cases (phi - (psi + M_PI / 2 - 2 * M_PI)) with ⟨f1, f2⟩ | ⟨f1, f2⟩ <;>
      rw [f1] at h2 <;> split_ifs at h1 h2 <;> linarith

/-- Claim C27: for all phi and psi in [0, 2 pi), `isInPlane(phi, psi, 2)` and
`isInPlane(phi, psi + pi / 2, 2)` are not both true. -/
theorem inPlane_outPlane_exclusive (phi psi : ℚ) (hphi0 : 0 ≤ phi) (hphi1 : phi < 2 * M_PI)
    (hpsi0 : 0 ≤ psi) (hpsi1 : psi < 2 * M_PI) :
    ¬ (isInPlane phi psi 2 = some true ∧ isInPlane phi (psi + M_PI / 2) 2 = some true) := by
  rw [isInPlane_two, isInPlane_two]
  simp only [Option.some.injEq, decide_eq_true_eq]
  exact angDistance_quarter_exclusive hphi0 hphi1 hpsi0 hpsi1

/-- Claim C27 at phi = 0.1, psi = 0: in-plane, and not out-of-plane. -/
theorem inPlane_outPlane_exclusive_witness :
    ¬ (isInPlane 0.1 0 2 = some true ∧ isInPlane 0.1 (0 + M_PI / 2) 2 = some true) :=
  inPlane_outPlane_exclusive 0.1 0 (by norm_num) (by norm_num [M_PI]) le_rfl
    (by norm_num [M_PI])

/-- For `n = 3` the loop of `isInPlane` runs twice: `dists` holds the distances
to psi and to psi + 2 pi / 3. -/
theorem isInPlane_three (phi psi : ℚ) :
    isInPlane phi psi 3 = some (decide (angDistance phi psi < M_PI / 9 ∨
      angDistance phi (psi + 2 * M_PI / 3) < M_PI / 9)) := by
  rw [isInPlane_eq_some phi psi (by norm_num : (2 : ℤ) ≤ 3)]
  congr 1
  rw [decide_eq_decide]
  have ht : (2 / 3 : ℚ) * M_PI / (2 * ((3 : ℤ) : ℚ)) = M_PI / 9 := by push_cast; ring
  have hr : ((3 : ℤ) - 1).toNat = 2 := by decide
  rw [ht, hr]
  constructor
  · rintro ⟨i, hi, h⟩
    interval_cases i
    · left; simpa using h
    · right
      have e : psi + 2 * M_PI * ((1 : ℕ) : ℚ) / ((3 : ℤ) : ℚ) = psi + 2 * M_PI / 3 := by
        push_cast; ring
      rwa [e] at h
  · rintro (h | h)
    · exact ⟨0, by norm_num, by simpa using h⟩
    · refine ⟨1, by norm_num, ?_⟩
      have e : psi + 2 * M_PI * ((1 : ℕ) : ℚ) / ((3 : ℤ) : ℚ) = psi + 2 * M_PI / 3 := by
        push_cast; ring
      rwa [e]

/-- For `n = 4` the loop of `isInPlane` runs three times: `dists` holds the
distances to psi, psi + pi / 2 and psi + pi. -/
theorem isInPlane_four (phi psi : ℚ) :
    isInPlane phi psi 4 = some (decide (angDistance phi psi < M_PI / 12 ∨
      angDistance phi (psi + M_PI / 2) < M_PI / 12 ∨
      angDistance phi (psi + M_PI) < M_PI / 12)) := by
  rw [isInPlane_eq_some phi psi (by norm_num : (2 : ℤ) ≤ 4)]
  congr 1
  rw [decide_eq_decide]
  have ht : (2 / 3 : ℚ) * M_PI / (2 * ((4 : ℤ) : ℚ)) = M_PI / 12 := by push_cast; ring
  have hr : ((4 : ℤ) - 1).toNat = 3 := by decide
  have e1 : psi + 2 * M_PI * ((1 : ℕ) : ℚ) / ((4 : ℤ) : ℚ) = psi + M_PI / 2 := by
    push_cast; ring
  have e2 : psi + 2 * M_PI * ((2 : ℕ) : ℚ) / ((4 : ℤ) : ℚ) = psi + M_PI := by
    push_cast; ring
  rw [ht, hr]
  constructor
  · rintro ⟨i, hi, h⟩
    interval_cases i
    · left; simpa using h
    · right; left; rwa [e1] at h
    · right; right; rwa [e2] at h
  · rintro (h | h | h)
    · exact ⟨0, by norm_num, by simpa using h⟩
    · exact ⟨1, by norm_num, by rwa [e1]⟩
    · exact ⟨2, by norm_num, by rwa [e2]⟩

theorem USPJWL_INOUTPLANESPEC.init_zero :
    USPJWL_INOUTPLANESPEC.init 0.4 0 0 0 = { RJETS_f := 0.4, PSI2 := 0, PSI3 := 0, PSI4 := 0 } := by
  simp [USPJWL_INOUTPLANESPEC.init, planeConversion_zero]

theorem USPJWL_INOUTPLANESPEC.init_quarter :
    USPJWL_INOUTPLANESPEC.init 0.4 0 (M_PI / 4) 0
      = { RJETS_f := 0.4, PSI2 := 0, PSI3 := M_PI / 4, PSI4 := 0 } := by
  have hpi := M_PI_pos
  simp [USPJWL_INOUTPLANESPEC.init, planeConversion_zero,
    planeConversion_eq_self (by linarith : (0 : ℚ) ≤ M_PI / 4) (by linarith)]

theorem runEach_singleton {H α : Type} (body : α → Option (List (H × ℚ))) (x : α) :
    runEach body [x] = body x := by
  cases h : body x <;> simp [runEach, h]

/-- The analysis of the event with the one jet `jetAt phi`, at the radius 0.4:
the body of the jet loop on that jet, which has a leading constituent. -/
theorem USPJWL_INOUTPLANESPEC.analyze_eventAt (cfg : USPJWL_INOUTPLANESPEC.Config)
    (hR : cfg.RJETS_f = 0.4) (phi : ℚ) (f2 f3 f4 : List USPJWL_INOUTPLANESPEC.Fill)
    (h2 : USPJWL_INOUTPLANESPEC.planeTest USPJWL_INOUTPLANESPEC.Hist._hist_inplane2
      USPJWL_INOUTPLANESPEC.Hist._hist_outplane2 30 phi cfg.PSI2 2 (cfg.PSI2 + M_PI / 2) 2
      = some f2)
    (h3 : USPJWL_INOUTPLANESPEC.planeTest USPJWL_INOUTPLANESPEC.Hist._hist_inplane3
      USPJWL_INOUTPLANESPEC.Hist._hist_outplane3 30 phi cfg.PSI3 3 (cfg.PSI2 + M_PI / 3) 2
      = some f3)
    (h4 : USPJWL_INOUTPLANESPEC.planeTest USPJWL_INOUTPLANESPEC.Hist._hist_inplane4
      USPJWL_INOUTPLANESPEC.Hist._hist_outplane4 30 phi cfg.PSI4 4 (cfg.PSI2 + M_PI / 4) 2
      = some f4) :
    USPJWL_INOUTPLANESPEC.analyze cfg (USPJWL_INOUTPLANESPEC.eventAt phi)
      = some (f2 ++ f3 ++ f4 ++ [(USPJWL_INOUTPLANESPEC.Hist._hist_allplane, 30)]) := by
  have hj : jetsByPt (USPJWL_INOUTPLANESPEC.jetcuts cfg.RJETS_f)
      (USPJWL_INOUTPLANESPEC.eventAt phi).jets = [USPJWL_INOUTPLANESPEC.jetAt phi] := by
    rw [hR]
    norm_num [jetsByPt, USPJWL_INOUTPLANESPEC.jetcuts, USPJWL_INOUTPLANESPEC.eventAt,
      USPJWL_INOUTPLANESPEC.jetAt, List.insertionSort, List.orderedInsert, List.filter]
  have hc : ((USPJWL_INOUTPLANESPEC.jetAt phi).constituents.filter
      USPJWL_INOUTPLANESPEC.cutlead).length ≠ 0 := by
    norm_num [USPJWL_INOUTPLANESPEC.jetAt, USPJWL_INOUTPLANESPEC.cutlead, List.filter]
  unfold USPJWL_INOUTPLANESPEC.analyze
  simp only [hj, runEach_singleton]
  unfold USPJWL_INOUTPLANESPEC.jetBody
  simp only [if_neg hc]
  have e1 : (USPJWL_INOUTPLANESPEC.jetAt phi).pT = 30 := rfl
  have e2 : (USPJWL_INOUTPLANESPEC.jetAt phi).phi = phi := rfl
  rw [e1, e2, h2, h3, h4]
theorem USPJWL_INOUTPLANESPEC.planeTest_in {inHist outHist : USPJWL_INOUTPLANESPEC.Hist}
    {pt phi psiIn psiOut : ℚ} {nIn nOut : ℤ} (h : isInPlane phi psiIn nIn = some true) :
    USPJWL_INOUTPLANESPEC.planeTest inHist outHist pt phi psiIn nIn psiOut nOut
      = some [(inHist, pt)] := by
  simp [USPJWL_INOUTPLANESPEC.planeTest, h]

theorem USPJWL_INOUTPLANESPEC.planeTest_out {inHist outHist : USPJWL_INOUTPLANESPEC.Hist}
    {pt phi psiIn psiOut : ℚ} {nIn nOut : ℤ} (h : isInPlane phi psiIn nIn = some false)
    (h1 : isInPlane phi psiOut nOut = some true) :
    USPJWL_INOUTPLANESPEC.planeTest inHist outHist pt phi psiIn nIn psiOut nOut
      = some [(outHist, pt)] := by
  simp [USPJWL_INOUTPLANESPEC.planeTest, h, h1]

theorem USPJWL_INOUTPLANESPEC.planeTest_neither {inHist outHist : USPJWL_INOUTPLANESPEC.Hist}
    {pt phi psiIn psiOut : ℚ} {nIn nOut : ℤ} (h : isInPlane phi psiIn nIn = some false)
    (h1 : isInPlane phi psiOut nOut = some false) :
    USPJWL_INOUTPLANESPEC.planeTest inHist outHist pt phi psiIn nIn psiOut nOut = some [] := by
  simp [USPJWL_INOUTPLANESPEC.planeTest, h, h1]

/-- The tests that `analyze` makes for a jet at phi = pi / 4 with the three
plane angles 0. -/
theorem isInPlane_at_quarter :
    isInPlane (M_PI / 4) 0 2 = some false ∧ isInPlane (M_PI / 4) (0 + M_PI / 2) 2 = some false ∧
    isInPlane (M_PI / 4) 0 3 = some false ∧ isInPlane (M_PI / 4) (0 + M_PI / 3) 2 = some true ∧
    isInPlane (M_PI / 4) 0 4 = some false ∧ isInPlane (M_PI / 4) (0 + M_PI / 4) 2 = some true := by
  have hpi := M_PI_pos
  have a0 : (0 : ℚ) ≤ M_PI / 4 := by linarith
  have a1 : M_PI / 4 < 2 * M_PI := by linarith
  refine ⟨?_, ?_, ?_, ?_, ?_, ?_⟩
  · rw [isInPlane_two]; congr 1; rw [decide_eq_false_iff_not]
    exact angDistance_not_lt a0 a1 (by linarith) (by linarith)
      (Or.inl ⟨by linarith, by linarith⟩)
  · rw [isInPlane_two]; congr 1; rw [decide_eq_false_iff_not]
    exact angDistance_not_lt a0 a1 (by linarith) (by linarith)
      (Or.inr ⟨by linarith, by linarith⟩)
  · rw [isInPlane_three]; congr 1; rw [decide_eq_false_iff_not]
    rintro (h | h)
    · exact angDistance_not_lt a0 a1 (by linarith) (by linarith)
        (Or.inl ⟨by linarith, by linarith⟩) h
    · exact angDistance_not_lt a0 a1 (by linarith) (by linarith)
        (Or.inr ⟨by linarith, by linarith⟩) h
  · rw [isInPlane_two]; congr 1; rw [decide_eq_true_eq]
    exact angDistance_lt a0 a1 (by linarith) (by linarith) (by linarith) (by linarith)
      (by linarith)
  · rw [isInPlane_four]; congr 1; rw [decide_eq_false_iff_not]
    rintro (h | h | h)
    · exact angDistance_not_lt a0 a1 (by linarith) (by linarith)
        (Or.inl ⟨by linarith, by linarith⟩) h
    · exact angDistance_not_lt a0 a1 (by linarith) (by linarith)
        (Or.inr ⟨by linarith, by linarith⟩) h
    · exact angDistance_not_lt a0 a1 (by linarith) (by linarith)
        (Or.inr ⟨by linarith, by linarith⟩) h
  · rw [isInPlane_two]; congr 1; rw [decide_eq_true_eq]
    exact angDistance_lt a0 a1 (by linarith) (by linarith) (by linarith) (by linarith)
      (by linarith)

/-- The tests that `analyze` makes for a jet at phi = 5 pi / 4 with the plane
angles 0, pi / 4 and 0. -/
theorem isInPlane_at_back :
    isInPlane (5 * M_PI / 4) 0 2 = some false ∧
    isInPlane (5 * M_PI / 4) (0 + M_PI / 2) 2 = some false ∧
    isInPlane (5 * M_PI / 4) (M_PI / 4) 3 = some false ∧
    isInPlane (5 * M_PI / 4) (0 + M_PI / 3) 2 = some false ∧
    isInPlane (5 * M_PI / 4) 0 4 = some false ∧
    isInPlane (5 * M_PI / 4) (0 + M_PI / 4) 2 = some false := by
  have hpi := M_PI_pos
  have a0 : (0 : ℚ) ≤ 5 * M_PI / 4 := by linarith
  have a1 : 5 * M_PI / 4 < 2 * M_PI := by linarith
  refine ⟨?_, ?_, ?_, ?_, ?_, ?_⟩
  · rw [isInPlane_two]; congr 1; rw [decide_eq_false_iff_not]
    exact angDistance_not_lt a0 a1 (by linarith) (by linarith)
      (Or.inl ⟨by linarith, by linarith⟩)
  · rw [isInPlane_two]; congr 1; rw [decide_eq_false_iff_not]
    exact angDistance_not_lt a0 a1 (by linarith) (by linarith)
      (Or.inl ⟨by linarith, by linarith⟩)
  · rw [isInPlane_three]; congr 1; rw [decide_eq_false_iff_not]
    rintro (h | h)
    · exact angDistance_not_lt a0 a1 (by linarith) (by linarith)
        (Or.inl ⟨by linarith, by linarith⟩) h
    · exact angDistance_not_lt a0 a1 (by linarith) (by linarith)
        (Or.inl ⟨by linarith, by linarith⟩) h
  · rw [isInPlane_two]; congr 1; rw [decide_eq_false_iff_not]
    exact angDistance_not_lt a0 a1 (by linarith) (by linarith)
      (Or.inl ⟨by linarith, by linarith⟩)
  · rw [isInPlane_four]; congr 1; rw [decide_eq_false_iff_not]
    rintro (h | h | h)
    · exact angDistance_not_lt a0 a1 (by linarith) (by linarith)
        (Or.inl ⟨by linarith, by linarith⟩) h
    · exact angDistance_not_lt a0 a1 (by linarith) (by linarith)
        (Or.inl ⟨by linarith, by linarith⟩) h
    · exact angDistance_not_lt a0 a1 (by linarith) (by linarith)
        (Or.inl ⟨by linarith, by linarith⟩) h
  · rw [isInPlane_two]; congr 1; rw [decide_eq_false_iff_not]
    exact angDistance_not_lt a0 a1 (by linarith) (by linarith)
      (Or.inl ⟨by linarith, by linarith⟩)

/-- Claim C25: a jet may be neither in-plane nor out-of-plane for n = 2. For
psi = 0 and phi = pi / 4, `isInPlane(phi, psi, 2)` and
`isInPlane(phi, psi + pi / 2, 2)` are both false, and with the three plane angles
at 0 a jet at that azimuth fills neither order-2 histogram, while the all-plane
spectrum is filled (the out-of-plane histograms of the orders 3 and 4 are filled
too). With the plane angles 0, pi / 4 and 0, a jet at phi = 5 pi / 4 is neither
in-plane nor out-of-plane for n = 2 and fills the all-plane spectrum and nothing
else. -/
theorem jet_neither_in_nor_out_of_plane :
    isInPlane (M_PI / 4) 0 2 = some false ∧ isInPlane (M_PI / 4) (0 + M_PI / 2) 2 = some false ∧
    USPJWL_INOUTPLANESPEC.analyze (USPJWL_INOUTPLANESPEC.init 0.4 0 0 0)
        (USPJWL_INOUTPLANESPEC.eventAt (M_PI / 4))
      = some [(USPJWL_INOUTPLANESPEC.Hist._hist_outplane3, 30),
              (USPJWL_INOUTPLANESPEC.Hist._hist_outplane4, 30),
              (USPJWL_INOUTPLANESPEC.Hist._hist_allplane, 30)] ∧
    isInPlane (5 * M_PI / 4) 0 2 = some false ∧
    isInPlane (5 * M_PI / 4) (0 + M_PI / 2) 2 = some false ∧
    USPJWL_INOUTPLANESPEC.analyze (USPJWL_INOUTPLANESPEC.init 0.4 0 (M_PI / 4) 0)
        (USPJWL_INOUTPLANESPEC.eventAt (5 * M_PI / 4))
      = some [(USPJWL_INOUTPLANESPEC.Hist._hist_allplane, 30)] := by
  obtain ⟨q1, q2, q3, q4, q5, q6⟩ := isInPlane_at_quarter
  obtain ⟨b1, b2, b3, b4, b5, b6⟩ := isInPlane_at_back
  refine ⟨q1, q2, ?_, b1, b2, ?_⟩
  · rw [USPJWL_INOUTPLANESPEC.init_zero]
    have h := USPJWL_INOUTPLANESPEC.analyze_eventAt
      {RJETS_f := 0.4, PSI2 := 0, PSI3 := 0, PSI4 := 0} rfl (M_PI / 4) []
      [(USPJWL_INOUTPLANESPEC.Hist._hist_outplane3, 30)]
      [(USPJWL_INOUTPLANESPEC.Hist._hist_outplane4, 30)]
      (USPJWL_INOUTPLANESPEC.planeTest_neither q1 q2)
      (USPJWL_INOUTPLANESPEC.planeTest_out q3 q4)
      (USPJWL_INOUTPLANESPEC.planeTest_out q5 q6)
    rw [h]; rfl
  · rw [USPJWL_INOUTPLANESPEC.init_quarter]
    have h := USPJWL_INOUTPLANESPEC.analyze_eventAt
      {RJETS_f := 0.4, PSI2 := 0, PSI3 := M_PI / 4, PSI4 := 0} rfl (5 * M_PI / 4) [] [] []
      (USPJWL_INOUTPLANESPEC.planeTest_neither b1 b2)
      (USPJWL_INOUTPLANESPEC.planeTest_neither b3 b4)
      (USPJWL_INOUTPLANESPEC.planeTest_neither b5 b6)
    rw [h]; rfl

/-- The tests for a jet at phi = 11 pi / 24 with the three plane angles 0. -/
theorem isInPlane_at_eleven :
    isInPlane (11 * M_PI / 24) 0 2 = some false ∧
    isInPlane (11 * M_PI / 24) (0 + M_PI / 2) 2 = some true ∧
    isInPlane (11 * M_PI / 24) 0 3 = some false ∧
    isInPlane (11 * M_PI / 24) (0 + M_PI / 3) 3 = some false ∧
    isInPlane (11 * M_PI / 24) (0 + M_PI / 3) 2 = some true ∧
    isInPlane (11 * M_PI / 24) 0 4 = some true := by
  have hpi := M_PI_pos
  have a0 : (0 : ℚ) ≤ 11 * M_PI / 24 := by linarith
  have a1 : 11 * M_PI / 24 < 2 * M_PI := by linarith
  refine ⟨?_, ?_, ?_, ?_, ?_, ?_⟩
  · rw [isInPlane_two]; congr 1; rw [decide_eq_false_iff_not]
    exact angDistance_not_lt a0 a1 (by linarith) (by linarith)
      (Or.inl ⟨by linarith, by linarith⟩)
  · rw [isInPlane_two]; congr 1; rw [decide_eq_true_eq]
    exact angDistance_lt a0 a1 (by linarith) (by linarith) (by linarith) (by linarith)
      (by linarith)
  · rw [isInPlane_three]; congr 1; rw [decide_eq_false_iff_not]
    rintro (h | h)
    · exact angDistance_not_lt a0 a1 (by linarith) (by linarith)
        (Or.inl ⟨by linarith, by linarith⟩) h
    · exact angDistance_not_lt a0 a1 (by linarith) (by linarith)
        (Or.inr ⟨by linarith, by linarith⟩) h
  · rw [isInPlane_three]; congr 1; rw [decide_eq_false_iff_not]
    rintro (h | h)
    · exact angDistance_not_lt a0 a1 (by linarith) (by linarith)
        (Or.inl ⟨by linarith, by linarith⟩) h
    · exact angDistance_not_lt a0 a1 (by linarith) (by linarith)
        (Or.inr ⟨by linarith, by linarith⟩) h
  · rw [isInPlane_two]; congr 1; rw [decide_eq_true_eq]
    exact angDistance_lt a0 a1 (by linarith) (by linarith) (by linarith) (by linarith)
      (by linarith)
  · rw [isInPlane_four]; congr 1; rw [decide_eq_true_eq]
    right; left
    exact angDistance_lt a0 a1 (by linarith) (by linarith) (by linarith) (by linarith)
      (by linarith)

/-- The fills of a loop whose body makes fills that do not depend on the data
members. -/
theorem USPJWL_HJET.loopS_snd {α : Type}
    (body : α → USPJWL_HJET.State → USPJWL_HJET.State × List USPJWL_HJET.Fill)
    (g : α → List USPJWL_HJET.Fill) (h : ∀ x s, (body x s).2 = g x) (l : List α)
    (s : USPJWL_HJET.State) : (USPJWL_HJET.loopS body l s).2 = l.flatMap g := by
  induction l generalizing s with
  | nil => rfl
  | cons x xs ih => simp [USPJWL_HJET.loopS, h, ih]

theorem USPJWL_HJET.loop20_50S_snd (P : List Particle) (J : List Jet) (s : USPJWL_HJET.State) :
    (USPJWL_HJET.loop20_50S P J s).2 = USPJWL_HJET.loop20_50 P J := by
  unfold USPJWL_HJET.loop20_50S USPJWL_HJET.loop20_50
  apply USPJWL_HJET.loopS_snd
  intro x s
  by_cases hx : (x.isHadron && x.isCharged) = true <;> simp [hx]

theorem USPJWL_HJET.loop6_7S_snd (P : List Particle) (J : List Jet) (s : USPJWL_HJET.State) :
    (USPJWL_HJET.loop6_7S P J s).2 = USPJWL_HJET.loop6_7 P J := by
  unfold USPJWL_HJET.loop6_7S USPJWL_HJET.loop6_7
  apply USPJWL_HJET.loopS_snd
  intro x s
  by_cases hx : (x.isHadron && x.isCharged) = true <;> simp [hx]

theorem USPJWL_HJET.loop8_9S_snd (P P6 : List Particle) (J : List Jet) (s : USPJWL_HJET.State) :
    (USPJWL_HJET.loop8_9S P P6 J s).2 = USPJWL_HJET.loop8_9 P P6 J := by
  unfold USPJWL_HJET.loop8_9S USPJWL_HJET.loop8_9
  apply USPJWL_HJET.loopS_snd
  intro x s
  by_cases hx : (x.isHadron && x.isCharged) = true <;>
    simp [hx, USPJWL_HJET.loop6_7S_snd]

theorem USPJWL_HJET.loop1S_snd (P : List Particle) (J : List Jet) (s : USPJWL_HJET.State) :
    (USPJWL_HJET.loop1S P J s).2 = USPJWL_HJET.loop1 P J := by
  unfold USPJWL_HJET.loop1S USPJWL_HJET.loop1
  apply USPJWL_HJET.loopS_snd
  intro x s
  by_cases hx : (x.isHadron && x.isCharged) = true <;> simp [hx]

theorem USPJWL_HJET.loop_etaS_snd (P : List Particle) (J : List Jet) (s : USPJWL_HJET.State) :
    (USPJWL_HJET.loop_etaS P J s).2 = USPJWL_HJET.loop_eta P J := by
  unfold USPJWL_HJET.loop_etaS USPJWL_HJET.loop_eta
  apply USPJWL_HJET.loopS_snd
  intro x s
  by_cases hx : (x.isHadron && x.isCharged) = true <;> simp [hx]

theorem USPJWL_HJET.loop12_50S_snd (P : List Particle) (J : List Jet) (s : USPJWL_HJET.State) :
    (USPJWL_HJET.loop12_50S P J s).2 = USPJWL_HJET.loop12_50 P J := by
  unfold USPJWL_HJET.loop12_50S USPJWL_HJET.loop12_50
  apply USPJWL_HJET.loopS_snd
  intro x s
  by_cases hx : (x.isHadron && x.isCharged) = true <;> simp [hx]

/-- The fills `analyze` makes are the same from every value of the counters. -/
theorem USPJWL_HJET.analyzeS_snd (s : USPJWL_HJET.State) (evt : Event) :
    (USPJWL_HJET.analyzeS s evt).2 = USPJWL_HJET.analyze evt := by
  simp only [USPJWL_HJET.analyzeS, USPJWL_HJET.analyze, USPJWL_HJET.loop20_50S_snd,
    USPJWL_HJET.loop8_9S_snd, USPJWL_HJET.loop1S_snd, USPJWL_HJET.loop_etaS_snd,
    USPJWL_HJET.loop12_50S_snd]

theorem USPJWL_HJET.runS_snd (s : USPJWL_HJET.State) (events : List Event) :
    (USPJWL_HJET.runS s events).2 = events.flatMap USPJWL_HJET.analyze := by
  induction events generalizing s with
  | nil => rfl
  | cons e es ih => simp [USPJWL_HJET.runS, USPJWL_HJET.analyzeS_snd, ih]

/-- Claim C22, refuted as stated: `USPJWL_HJET::analyze` changes fields of the
analysis object. From the counters at 0, the event with the charged hadrons of
pT 6.5 and 30 leaves `counter_hadrons` and `counter_hadrons12_50` at 1 and
`counter_hadrons1` and `counter_hadrons_eta` at 2, so the trigger counts are
held internally. -/
theorem analyze_changes_counters :
    (USPJWL_HJET.analyzeS USPJWL_HJET.State.init USPJWL_HJET.event6_7).1
      = { counter_hadrons := 1, counter_hadrons8_9 := 0, counter_hadrons6_7 := 0,
          counter_hadrons12_50 := 1, counter_hadrons1 := 2, counter_hadrons_eta := 2 } ∧
    (USPJWL_HJET.analyzeS USPJWL_HJET.State.init USPJWL_HJET.event6_7).1
      ≠ USPJWL_HJET.State.init := by
  have h : (USPJWL_HJET.analyzeS USPJWL_HJET.State.init USPJWL_HJET.event6_7).1
      = { counter_hadrons := 1, counter_hadrons8_9 := 0, counter_hadrons6_7 := 0,
          counter_hadrons12_50 := 1, counter_hadrons1 := 2, counter_hadrons_eta := 2 } := by
    norm_num [USPJWL_HJET.analyzeS, USPJWL_HJET.loop20_50S, USPJWL_HJET.loop8_9S,
      USPJWL_HJET.loop6_7S, USPJWL_HJET.loop1S, USPJWL_HJET.loop_etaS,
      USPJWL_HJET.loop12_50S, USPJWL_HJET.loopS, USPJWL_HJET.partcuts,
      USPJWL_HJET.partcuts8_9, USPJWL_HJET.partcuts6_7, USPJWL_HJET.partcuts12_50,
      USPJWL_HJET.partcuts1, USPJWL_HJET.partcuts_eta, USPJWL_HJET.etamax,
      USPJWL_HJET.event6_7, USPJWL_HJET.hadron6_7, USPJWL_HJET.hadron30,
      USPJWL_HJET.State.init, List.filter]
  refine ⟨h, ?_⟩
  rw [h]
  intro hc
  have := congrArg USPJWL_HJET.State.counter_hadrons hc
  norm_num [USPJWL_HJET.State.init] at this

/-- Claim C22, amended: the six trigger counters of `USPJWL_HJET` are held
internally and incremented by `analyze`, but no fill reads them. From every
value of the counters an event makes the fills of `analyze` on that event
alone, and a sequence of events makes the fills of its events one after the
other, so the fills of an event do not depend on the events processed before
it. -/
theorem fills_independent_of_counters (s : USPJWL_HJET.State) (evt : Event)
    (events : List Event) :
    (USPJWL_HJET.analyzeS s evt).2 = USPJWL_HJET.analyze evt ∧
    (USPJWL_HJET.runS s events).2 = events.flatMap USPJWL_HJET.analyze :=
  ⟨USPJWL_HJET.analyzeS_snd s evt, USPJWL_HJET.runS_snd s events⟩

/-- The values that the body of the radius loop fills into `jetcount`: the
value 0 for a jet below 120, the value 1 for a jet above 100. -/
theorem USPJWL_SUBFRAG.valuesOf_jetcount_radius (r jpt z : ℚ) (zs : List PseudoJet) :
    valuesOf USPJWL_SUBFRAG.Hist.jetcount
        ((if jpt < 120 then [(USPJWL_SUBFRAG.histos r 1, z),
              (USPJWL_SUBFRAG.Hist.jetcount, 0)] else [])
          ++ (if jpt > 100 then [(USPJWL_SUBFRAG.histos r 2, z),
              (USPJWL_SUBFRAG.Hist.jetcount, 1)] else [])
          ++ [(USPJWL_SUBFRAG.histos r 3, z)]
          ++ zs.map (fun subj => (USPJWL_SUBFRAG.histos r 0, subj.perp / jpt)))
      = (if jpt < 120 then [0] else []) ++ (if jpt > 100 then [1] else []) := by
  simp only [valuesOf_append, valuesOf_map_const]
  rcases USPJWL_SUBFRAG.histos_cases r with h | h <;> rw [h] <;>
    by_cases h1 : jpt < 120 <;> by_cases h2 : jpt > 100 <;>
    simp [h1, h2, valuesOf_cons, valuesOf_nil]

/-- The values that the body of the jet loop fills into `jetcount`: those of the
radius loop once for each of the two radii. -/
theorem USPJWL_SUBFRAG.jetBody_jetcount (inclusive_jets : List Particle → ℚ → List PseudoJet)
    (j : Jet) (hdef : ∀ r1 ∈ USPJWL_SUBFRAG.rs, inclusive_jets j.constituents r1 ≠ []) :
    ∃ fills,
      USPJWL_SUBFRAG.jetBody inclusive_jets j = some fills ∧
      valuesOf USPJWL_SUBFRAG.Hist.jetcount fills
        = ((if j.pT < 120 then [0] else []) ++ (if j.pT > 100 then [1] else []))
          ++ ((if j.pT < 120 then [0] else []) ++ (if j.pT > 100 then [1] else [])) := by
  have hne : ∀ r1 ∈ USPJWL_SUBFRAG.rs, ∃ l1 t1,
      sorted_by_pt (inclusive_jets j.constituents r1) = l1 :: t1 := by
    intro r1 hr1
    cases hs : sorted_by_pt (inclusive_jets j.constituents r1) with
    | nil => exact absurd ((sorted_by_pt_eq_nil_iff _).mp hs) (hdef r1 hr1)
    | cons l1 t1 => exact ⟨l1, t1, rfl⟩
  obtain ⟨l1, t1, hs1⟩ := hne 0.1 (by simp [USPJWL_SUBFRAG.rs])
  obtain ⟨l2, t2, hs2⟩ := hne 0.2 (by simp [USPJWL_SUBFRAG.rs])
  have hb := USPJWL_SUBFRAG.runAll_pair
    (USPJWL_SUBFRAG.radiusBody inclusive_jets j.constituents j.pT) 0.1 0.2 _ _
    (USPJWL_SUBFRAG.radiusBody_of_cons j.pT hs1) (USPJWL_SUBFRAG.radiusBody_of_cons j.pT hs2)
  refine ⟨_, hb, ?_⟩
  rw [valuesOf_append, USPJWL_SUBFRAG.valuesOf_jetcount_radius,
    USPJWL_SUBFRAG.valuesOf_jetcount_radius]

/-- The values that the jet loop fills into `jetcount`, over a list of jets. -/
theorem USPJWL_SUBFRAG.runAll_jetcount
    (inclusive_jets : List Particle → ℚ → List PseudoJet) (l : List Jet)
    (hdef : ∀ j ∈ l, ∀ r1 ∈ USPJWL_SUBFRAG.rs, inclusive_jets j.constituents r1 ≠ []) :
    ∃ fills,
      USPJWL_SUBFRAG.runAll (USPJWL_SUBFRAG.jetBody inclusive_jets) l = some fills ∧
      valuesOf USPJWL_SUBFRAG.Hist.jetcount fills
        = l.flatMap (fun j =>
          ((if j.pT < 120 then [0] else []) ++ (if j.pT > 100 then [1] else []))
          ++ ((if j.pT < 120 then [0] else []) ++ (if j.pT > 100 then [1] else []))) := by
  induction l with
  | nil => exact ⟨[], rfl, rfl⟩
  | cons j l ih =>
    obtain ⟨fj, hj, hj1⟩ := USPJWL_SUBFRAG.jetBody_jetcount inclusive_jets j
      (hdef j (List.mem_cons_self _ _))
    obtain ⟨fl, hl, hl1⟩ := ih (fun j1 hj1 => hdef j1 (List.mem_cons_of_mem _ hj1))
    refine ⟨fj ++ fl, by simp [USPJWL_SUBFRAG.runAll, hj, hl], ?_⟩
    rw [valuesOf_append, hj1, hl1, List.flatMap_cons]

/-- Claim C26, evaluated on the code: on an event with jets of pT 80, 110 and
130, each particle a subjet of its own, the selected jets are those of pT 130
and 110; one of them has 80 < pT < 120 and two have 100 < pT < 150, and the
entries of `jetcount` are 1, 1, 0, 1, 0, 1: two entries at 0 and four at 1,
because the fills of `jetcount` are inside the loop over the two radii. -/
theorem USPJWL_SUBFRAG.jetcount_counts_each_radius :
    ∃ fills,
      USPJWL_SUBFRAG.analyze USPJWL_SUBFRAG.singletons 0.4 USPJWL_SUBFRAG.threeJetEvent
        = some fills ∧
      jetsByPt (USPJWL_SUBFRAG.jetcuts 0.4) USPJWL_SUBFRAG.threeJetEvent.jets
        = [USPJWL_SUBFRAG.jet130, USPJWL_SUBFRAG.jet110] ∧
      (([USPJWL_SUBFRAG.jet130, USPJWL_SUBFRAG.jet110].filter
        (fun j => decide (80 < j.pT ∧ j.pT < 120))).length = 1 ∧
       ([USPJWL_SUBFRAG.jet130, USPJWL_SUBFRAG.jet110].filter
        (fun j => decide (100 < j.pT ∧ j.pT < 150))).length = 2) ∧
      valuesOf USPJWL_SUBFRAG.Hist.jetcount fills = [1, 1, 0, 1, 0, 1] ∧
      (valuesOf USPJWL_SUBFRAG.Hist.jetcount fills).count 0 = 2 ∧
      (valuesOf USPJWL_SUBFRAG.Hist.jetcount fills).count 1 = 4 := by
  have hsel : jetsByPt (USPJWL_SUBFRAG.jetcuts 0.4) USPJWL_SUBFRAG.threeJetEvent.jets
      = [USPJWL_SUBFRAG.jet130, USPJWL_SUBFRAG.jet110] := by
    norm_num [jetsByPt, USPJWL_SUBFRAG.jetcuts, USPJWL_SUBFRAG.threeJetEvent,
      USPJWL_SUBFRAG.jet80, USPJWL_SUBFRAG.jet110, USPJWL_SUBFRAG.jet130,
      List.insertionSort, List.orderedInsert, List.filter]
  obtain ⟨fills, hf, hv⟩ := USPJWL_SUBFRAG.runAll_jetcount USPJWL_SUBFRAG.singletons
    [USPJWL_SUBFRAG.jet130, USPJWL_SUBFRAG.jet110]
    (by
      intro j hj r1 _
      simp only [List.mem_cons, List.mem_singleton, List.not_mem_nil, or_false] at hj
      rcases hj with rfl | rfl <;>
        simp [USPJWL_SUBFRAG.singletons, USPJWL_SUBFRAG.jet130, USPJWL_SUBFRAG.jet110])
  have hv1 : valuesOf USPJWL_SUBFRAG.Hist.jetcount fills = [1, 1, 0, 1, 0, 1] := by
    rw [hv]
    norm_num [USPJWL_SUBFRAG.jet130, USPJWL_SUBFRAG.jet110]
  refine ⟨fills, ?_, hsel, ⟨?_, ?_⟩, hv1, ?_, ?_⟩
  · unfold USPJWL_SUBFRAG.analyze
    rw [hsel]
    exact hf
  · norm_num [List.filter, USPJWL_SUBFRAG.jet130, USPJWL_SUBFRAG.jet110]
  · norm_num [List.filter, USPJWL_SUBFRAG.jet130, USPJWL_SUBFRAG.jet110]
  · rw [hv1]; decide
  · rw [hv1]; decide

/-- The index `absrapRange` returns for a value in the k-th range (lo, hi] of
the table. -/
theorem RAA_ATLAS.absrapRange_of_mem {v : ℚ} (lo hi : ℚ) {k : Nat} (hk : 1 ≤ k)
    (hlo : RAA_ATLAS.absrapRange.ABSRAPEDGES[k - 1]? = some lo)
    (hhi : RAA_ATLAS.absrapRange.ABSRAPEDGES[k]? = some hi) (h1 : lo < v) (h2 : v ≤ hi) :
    RAA_ATLAS.absrapRange v = k :=
  (rangeScan_eq_pos_iff ABSRAPEDGES_sorted v hk).mpr ⟨lo, hi, hlo, hhi, h1, h2⟩

/-- The fills of the jet loop of `RAA_ATLAS::analyze`, by the range of |y|. -/
theorem RAA_ATLAS.jetBody_by_slice (j : Jet) :
    (0 < |j.rap| ∧ |j.rap| ≤ 0.3 → RAA_ATLAS.jetBody j =
      [(RAA_ATLAS.Hist._hist_1, j.pT), (RAA_ATLAS.Hist._hist_7, j.pT),
       (RAA_ATLAS.Hist._hist_8, j.pT), (RAA_ATLAS.Hist._hist_9, j.pT),
       (RAA_ATLAS.Hist._hist_10, j.pT)]) ∧
    (0.3 < |j.rap| ∧ |j.rap| ≤ 0.8 → RAA_ATLAS.jetBody j =
      [(RAA_ATLAS.Hist._hist_2, j.pT), (RAA_ATLAS.Hist._hist_7, j.pT),
       (RAA_ATLAS.Hist._hist_8, j.pT), (RAA_ATLAS.Hist._hist_9, j.pT),
       (RAA_ATLAS.Hist._hist_10, j.pT)]) ∧
    (0.8 < |j.rap| ∧ |j.rap| ≤ 1.2 → RAA_ATLAS.jetBody j =
      [(RAA_ATLAS.Hist._hist_3, j.pT), (RAA_ATLAS.Hist._hist_7, j.pT),
       (RAA_ATLAS.Hist._hist_8, j.pT), (RAA_ATLAS.Hist._hist_9, j.pT),
       (RAA_ATLAS.Hist._hist_10, j.pT)]) ∧
    (1.2 < |j.rap| ∧ |j.rap| ≤ 1.6 → RAA_ATLAS.jetBody j =
      [(RAA_ATLAS.Hist._hist_4, j.pT), (RAA_ATLAS.Hist._hist_7, j.pT),
       (RAA_ATLAS.Hist._hist_8, j.pT), (RAA_ATLAS.Hist._hist_10, j.pT)]) ∧
    (1.6 < |j.rap| ∧ |j.rap| ≤ 2.1 → RAA_ATLAS.jetBody j =
      [(RAA_ATLAS.Hist._hist_5, j.pT), (RAA_ATLAS.Hist._hist_7, j.pT),
       (RAA_ATLAS.Hist._hist_8, j.pT), (RAA_ATLAS.Hist._hist_10, j.pT)]) ∧
    (2.1 < |j.rap| ∧ |j.rap| ≤ 2.8 → RAA_ATLAS.jetBody j =
      [(RAA_ATLAS.Hist._hist_6, j.pT), (RAA_ATLAS.Hist._hist_8, j.pT),
       (RAA_ATLAS.Hist._hist_10, j.pT)]) ∧
    (|j.rap| = 0 → RAA_ATLAS.jetBody j =
      [(RAA_ATLAS.Hist._hist_7, j.pT), (RAA_ATLAS.Hist._hist_8, j.pT),
       (RAA_ATLAS.Hist._hist_9, j.pT), (RAA_ATLAS.Hist._hist_10, j.pT)]) ∧
    (2.8 < |j.rap| → RAA_ATLAS.jetBody j = [(RAA_ATLAS.Hist._hist_10, j.pT)]) := by
  refine ⟨?_, ?_, ?_, ?_, ?_, ?_, ?_, ?_⟩
  · rintro ⟨h1, h2⟩
    have hk : RAA_ATLAS.absrapRange |j.rap| = 1 :=
      RAA_ATLAS.absrapRange_of_mem 0 0.3 (le_refl 1)
        (by norm_num [RAA_ATLAS.absrapRange.ABSRAPEDGES])
        (by norm_num [RAA_ATLAS.absrapRange.ABSRAPEDGES]) h1 h2
    have a1 : |j.rap| ≤ 2.1 := by norm_num at h2 ⊢; linarith
    have a2 : |j.rap| ≤ 2.8 := by norm_num at h2 ⊢; linarith
    have a3 : |j.rap| ≤ 1.2 := by norm_num at h2 ⊢; linarith
    simp only [RAA_ATLAS.jetBody, hk, RAA_ATLAS.rapSwitch, if_pos a1, if_pos a2, if_pos a3,
      List.cons_append, List.nil_append]
  · rintro ⟨h1, h2⟩
    have hk : RAA_ATLAS.absrapRange |j.rap| = 2 :=
      RAA_ATLAS.absrapRange_of_mem 0.3 0.8 (by norm_num)
        (by norm_num [RAA_ATLAS.absrapRange.ABSRAPEDGES])
        (by norm_num [RAA_ATLAS.absrapRange.ABSRAPEDGES]) h1 h2
    have a1 : |j.rap| ≤ 2.1 := by norm_num at h2 ⊢; linarith
    have a2 : |j.rap| ≤ 2.8 := by norm_num at h2 ⊢; linarith
    have a3 : |j.rap| ≤ 1.2 := by norm_num at h2 ⊢; linarith
    simp only [RAA_ATLAS.jetBody, hk, RAA_ATLAS.rapSwitch, if_pos a1, if_pos a2, if_pos a3,
      List.cons_append, List.nil_append]
  · rintro ⟨h1, h2⟩
    have hk : RAA_ATLAS.absrapRange |j.rap| = 3 :=
      RAA_ATLAS.absrapRange_of_mem 0.8 1.2 (by norm_num)
        (by norm_num [RAA_ATLAS.absrapRange.ABSRAPEDGES])
        (by norm_num [RAA_ATLAS.absrapRange.ABSRAPEDGES]) h1 h2
    have a1 : |j.rap| ≤ 2.1 := by norm_num at h2 ⊢; linarith
    have a2 : |j.rap| ≤ 2.8 := by norm_num at h2 ⊢; linarith
    simp only [RAA_ATLAS.jetBody, hk, RAA_ATLAS.rapSwitch, if_pos a1, if_pos a2, if_pos h2,
      List.cons_append, List.nil_append]
  · rintro ⟨h1, h2⟩
    have hk : RAA_ATLAS.absrapRange |j.rap| = 4 :=
      RAA_ATLAS.absrapRange_of_mem 1.2 1.6 (by norm_num)
        (by norm_num [RAA_ATLAS.absrapRange.ABSRAPEDGES])
        (by norm_num [RAA_ATLAS.absrapRange.ABSRAPEDGES]) h1 h2
    have a1 : |j.rap| ≤ 2.1 := by norm_num at h2 ⊢; linarith
    have a2 : |j.rap| ≤ 2.8 := by norm_num at h2 ⊢; linarith
    have a3 : ¬ |j.rap| ≤ 1.2 := not_le.mpr h1
    simp only [RAA_ATLAS.jetBody, hk, RAA_ATLAS.rapSwitch, if_pos a1, if_pos a2, if_neg a3,
      List.cons_append, List.nil_append, List.append_nil]
  · rintro ⟨h1, h2⟩
    have hk : RAA_ATLAS.absrapRange |j.rap| = 5 :=
      RAA_ATLAS.absrapRange_of_mem 1.6 2.1 (by norm_num)
        (by norm_num [RAA_ATLAS.absrapRange.ABSRAPEDGES])
        (by norm_num [RAA_ATLAS.absrapRange.ABSRAPEDGES]) h1 h2
    have a2 : |j.rap| ≤ 2.8 := by norm_num at h2 ⊢; linarith
    have a3 : ¬ |j.rap| ≤ 1.2 := by
      intro h; norm_num at h h1; linarith
    simp only [RAA_ATLAS.jetBody, hk, RAA_ATLAS.rapSwitch, if_pos h2, if_pos a2, if_neg a3,
      List.cons_append, List.nil_append, List.append_nil]
  · rintro ⟨h1, h2⟩
    have hk : RAA_ATLAS.absrapRange |j.rap| = 6 :=
      RAA_ATLAS.absrapRange_of_mem 2.1 2.8 (by norm_num)
        (by norm_num [RAA_ATLAS.absrapRange.ABSRAPEDGES])
        (by norm_num [RAA_ATLAS.absrapRange.ABSRAPEDGES]) h1 h2
    have a1 : ¬ |j.rap| ≤ 2.1 := not_le.mpr h1
    have a3 : ¬ |j.rap| ≤ 1.2 := by
      intro h; norm_num at h h1; linarith
    simp only [RAA_ATLAS.jetBody, hk, RAA_ATLAS.rapSwitch, if_neg a1, if_pos h2, if_neg a3,
      List.cons_append, List.nil_append, List.append_nil]
  · intro h0
    have hk : RAA_ATLAS.absrapRange |j.rap| = 0 :=
      (RAA_ATLAS.absrapRange_eq_zero_iff _).mpr (Or.inl (le_of_eq h0))
    have a1 : |j.rap| ≤ 2.1 := by rw [h0]; norm_num
    have a2 : |j.rap| ≤ 2.8 := by rw [h0]; norm_num
    have a3 : |j.rap| ≤ 1.2 := by rw [h0]; norm_num
    simp only [RAA_ATLAS.jetBody, hk, RAA_ATLAS.rapSwitch, if_pos a1, if_pos a2, if_pos a3,
      List.cons_append, List.nil_append]
  · intro h
    exact (RAA_ATLAS.jetBody_of_forward j h).2

/-- Claim C28: rapidity slicing in `RAA_ATLAS::analyze`. For a jet with |y| in
the range (lo, hi] of one of the six slices 0-0.3, 0.3-0.8, 0.8-1.2, 1.2-1.6,
1.6-2.1, 2.1-2.8, the jet loop fills the histogram of that slice and no other
slice histogram (then the inclusive histograms whose range holds |y|). For
|y| = 0 it fills no slice histogram and fills the inclusive histograms 0-2.1,
0-2.8, 0-1.2 and the all-rapidity one; for |y| > 2.8 it fills the all-rapidity
histogram alone. -/
theorem rapidity_slice_fills (j : Jet) :
    (0 < |j.rap| ∧ |j.rap| ≤ 0.3 → RAA_ATLAS.jetBody j =
      [(RAA_ATLAS.Hist._hist_1, j.pT), (RAA_ATLAS.Hist._hist_7, j.pT),
       (RAA_ATLAS.Hist._hist_8, j.pT), (RAA_ATLAS.Hist._hist_9, j.pT),
       (RAA_ATLAS.Hist._hist_10, j.pT)]) ∧
    (0.3 < |j.rap| ∧ |j.rap| ≤ 0.8 → RAA_ATLAS.jetBody j =
      [(RAA_ATLAS.Hist._hist_2, j.pT), (RAA_ATLAS.Hist._hist_7, j.pT),
       (RAA_ATLAS.Hist._hist_8, j.pT), (RAA_ATLAS.Hist._hist_9, j.pT),
       (RAA_ATLAS.Hist._hist_10, j.pT)]) ∧
    (0.8 < |j.rap| ∧ |j.rap| ≤ 1.2 → RAA_ATLAS.jetBody j =
      [(RAA_ATLAS.Hist._hist_3, j.pT), (RAA_ATLAS.Hist._hist_7, j.pT),
       (RAA_ATLAS.Hist._hist_8, j.pT), (RAA_ATLAS.Hist._hist_9, j.pT),
       (RAA_ATLAS.Hist._hist_10, j.pT)]) ∧
    (1.2 < |j.rap| ∧ |j.rap| ≤ 1.6 → RAA_ATLAS.jetBody j =
      [(RAA_ATLAS.Hist._hist_4, j.pT), (RAA_ATLAS.Hist._hist_7, j.pT),
       (RAA_ATLAS.Hist._hist_8, j.pT), (RAA_ATLAS.Hist._hist_10, j.pT)]) ∧
    (1.6 < |j.rap| ∧ |j.rap| ≤ 2.1 → RAA_ATLAS.jetBody j =
      [(RAA_ATLAS.Hist._hist_5, j.pT), (RAA_ATLAS.Hist._hist_7, j.pT),
       (RAA_ATLAS.Hist._hist_8, j.pT), (RAA_ATLAS.Hist._hist_10, j.pT)]) ∧
    (2.1 < |j.rap| ∧ |j.rap| ≤ 2.8 → RAA_ATLAS.jetBody j =
      [(RAA_ATLAS.Hist._hist_6, j.pT), (RAA_ATLAS.Hist._hist_8, j.pT),
       (RAA_ATLAS.Hist._hist_10, j.pT)]) ∧
    (|j.rap| = 0 → RAA_ATLAS.jetBody j =
      [(RAA_ATLAS.Hist._hist_7, j.pT), (RAA_ATLAS.Hist._hist_8, j.pT),
       (RAA_ATLAS.Hist._hist_9, j.pT), (RAA_ATLAS.Hist._hist_10, j.pT)]) ∧
    (2.8 < |j.rap| → RAA_ATLAS.jetBody j = [(RAA_ATLAS.Hist._hist_10, j.pT)]) :=
  RAA_ATLAS.jetBody_by_slice j

/-- Claim C28 on three jets: the jet at y = 0.5 fills the slice 0.3-0.8 and the
four inclusive histograms, the jet at y = 0 the four inclusive histograms alone,
and the jet at y = 2.9 the all-rapidity histogram alone. -/
theorem rapidity_slice_fills_witness :
    (0.3 < |RAA_ATLAS.jetMid.rap| ∧ |RAA_ATLAS.jetMid.rap| ≤ 0.8) ∧
    RAA_ATLAS.jetBody RAA_ATLAS.jetMid =
      [(RAA_ATLAS.Hist._hist_2, RAA_ATLAS.jetMid.pT), (RAA_ATLAS.Hist._hist_7, RAA_ATLAS.jetMid.pT),
       (RAA_ATLAS.Hist._hist_8, RAA_ATLAS.jetMid.pT), (RAA_ATLAS.Hist._hist_9, RAA_ATLAS.jetMid.pT),
       (RAA_ATLAS.Hist._hist_10, RAA_ATLAS.jetMid.pT)] ∧
    |RAA_ATLAS.jet100.rap| = 0 ∧
    RAA_ATLAS.jetBody RAA_ATLAS.jet100 =
      [(RAA_ATLAS.Hist._hist_7, RAA_ATLAS.jet100.pT), (RAA_ATLAS.Hist._hist_8, RAA_ATLAS.jet100.pT),
       (RAA_ATLAS.Hist._hist_9, RAA_ATLAS.jet100.pT),
       (RAA_ATLAS.Hist._hist_10, RAA_ATLAS.jet100.pT)] ∧
    2.8 < |RAA_ATLAS.forwardJet.rap| ∧
    RAA_ATLAS.jetBody RAA_ATLAS.forwardJet
      = [(RAA_ATLAS.Hist._hist_10, RAA_ATLAS.forwardJet.pT)] :=
  have hm : 0.3 < |RAA_ATLAS.jetMid.rap| ∧ |RAA_ATLAS.jetMid.rap| ≤ 0.8 := by
    show (0.3 : ℚ) < |0.5| ∧ |(0.5 : ℚ)| ≤ 0.8
    rw [abs_of_pos (by norm_num)]; norm_num
  have h0 : |RAA_ATLAS.jet100.rap| = 0 := by
    show |(0 : ℚ)| = 0
    exact abs_zero
  have hf : 2.8 < |RAA_ATLAS.forwardJet.rap| := by
    show (2.8 : ℚ) < |2.9|
    rw [abs_of_pos (by norm_num)]; norm_num
  ⟨hm, (rapidity_slice_fills RAA_ATLAS.jetMid).2.1 hm, h0,
    (rapidity_slice_fills RAA_ATLAS.jet100).2.2.2.2.2.2.1 h0, hf,
    (rapidity_slice_fills RAA_ATLAS.forwardJet).2.2.2.2.2.2.2 hf⟩

/-- The range test of index `i` of the chain, as a test on the floor. -/
theorem USPJWL_JET_MASS.range_test_iff (pt : ℚ) (i : ℤ) :
    (60 + 20 * (i : ℚ) ≤ pt ∧ pt < 80 + 20 * (i : ℚ)) ↔ ⌊(pt - 60) / 20⌋ = i := by
  rw [Int.floor_eq_iff]
  constructor
  · rintro ⟨a, b⟩
    constructor
    · rw [le_div_iff₀ (by norm_num)]; linarith
    · rw [div_lt_iff₀ (by norm_num)]; linarith
  · rintro ⟨a, b⟩
    rw [le_div_iff₀ (by norm_num)] at a
    rw [div_lt_iff₀ (by norm_num)] at b
    constructor <;> linarith

theorem USPJWL_JET_MASS.last_test_iff (pt : ℚ) : 300 ≤ pt ↔ 12 ≤ ⌊(pt - 60) / 20⌋ := by
  rw [Int.le_floor, le_div_iff₀ (by norm_num)]
  constructor <;> intro h <;> push_cast at * <;> linarith

theorem USPJWL_JET_MASS.first_test_iff (pt : ℚ) : 60 ≤ pt ↔ 0 ≤ ⌊(pt - 60) / 20⌋ := by
  rw [Int.le_floor, le_div_iff₀ (by norm_num)]
  constructor <;> intro h <;> push_cast at * <;> linarith

/-- The chain of thirteen tests, as tests on an integer `n`, fills the histogram
of index min(n, 12) when `n` is not negative and fills nothing otherwise. -/
theorem USPJWL_JET_MASS.chain_on_floor (n : ℤ) (m : ℚ) :
    (if n = 0 then [(USPJWL_JET_MASS.Hist._hs_mass 0, m)] else [])
      ++ (if n = 1 then [(USPJWL_JET_MASS.Hist._hs_mass 1, m)] else [])
      ++ (if n = 2 then [(USPJWL_JET_MASS.Hist._hs_mass 2, m)] else [])
      ++ (if n = 3 then [(USPJWL_JET_MASS.Hist._hs_mass 3, m)] else [])
      ++ (if n = 4 then [(USPJWL_JET_MASS.Hist._hs_mass 4, m)] else [])
      ++ (if n = 5 then [(USPJWL_JET_MASS.Hist._hs_mass 5, m)] else [])
      ++ (if n = 6 then [(USPJWL_JET_MASS.Hist._hs_mass 6, m)] else [])
      ++ (if n = 7 then [(USPJWL_JET_MASS.Hist._hs_mass 7, m)] else [])
      ++ (if n = 8 then [(USPJWL_JET_MASS.Hist._hs_mass 8, m)] else [])
      ++ (if n = 9 then [(USPJWL_JET_MASS.Hist._hs_mass 9, m)] else [])
      ++ (if n = 10 then [(USPJWL_JET_MASS.Hist._hs_mass 10, m)] else [])
      ++ (if n = 11 then [(USPJWL_JET_MASS.Hist._hs_mass 11, m)] else [])
      ++ (if 12 ≤ n then [(USPJWL_JET_MASS.Hist._hs_mass 12, m)] else [])
      = if 0 ≤ n then [(USPJWL_JET_MASS.Hist._hs_mass (min n.toNat 12), m)] else [] := by
  rcases lt_or_le n 0 with h | h
  · simp [show n ≠ 0 by omega, show n ≠ 1 by omega, show n ≠ 2 by omega,
      show n ≠ 3 by omega, show n ≠ 4 by omega, show n ≠ 5 by omega, show n ≠ 6 by omega,
      show n ≠ 7 by omega, show n ≠ 8 by omega, show n ≠ 9 by omega, show n ≠ 10 by omega,
      show n ≠ 11 by omega, show ¬ 12 ≤ n by omega, show ¬ 0 ≤ n by omega]
  · rcases lt_or_le n 12 with h12 | h12
    · interval_cases n <;> simp
    · have hmin : min n.toNat 12 = 12 := by omega
      simp [show n ≠ 0 by omega, show n ≠ 1 by omega, show n ≠ 2 by omega,
        show n ≠ 3 by omega, show n ≠ 4 by omega, show n ≠ 5 by omega, show n ≠ 6 by omega,
        show n ≠ 7 by omega, show n ≠ 8 by omega, show n ≠ 9 by omega, show n ≠ 10 by omega,
        show n ≠ 11 by omega, h12, h, hmin]

/-- The chain of range tests of `massBody` against the index of the
specification. -/
theorem USPJWL_JET_MASS.massBody_eq (jet : Jet) (hm : 0 ≤ jet.mass) (heta : |jet.eta| < 0.5) :
    USPJWL_JET_MASS.massBody jet =
      if 60 ≤ jet.pT then
        [(USPJWL_JET_MASS.Hist._hs_mass (USPJWL_JET_MASS.specMassBin jet.pT), jet.mass)]
      else [] := by
  have hg : jet.mass ≥ 0 ∧ |jet.eta| < USPJWL_JET_MASS._etaMax - USPJWL_JET_MASS._jetR := by
    refine ⟨hm, ?_⟩
    norm_num [USPJWL_JET_MASS._etaMax, USPJWL_JET_MASS._jetR] at heta ⊢
    exact heta
  have c0 : (60.0 ≤ jet.pT ∧ jet.pT < 80.0) ↔ ⌊(jet.pT - 60) / 20⌋ = 0 := by
    have h := USPJWL_JET_MASS.range_test_iff jet.pT 0
    norm_num at h ⊢
    exact h
  have c1 : (80.0 ≤ jet.pT ∧ jet.pT < 100.0) ↔ ⌊(jet.pT - 60) / 20⌋ = 1 := by
    have h := USPJWL_JET_MASS.range_test_iff jet.pT 1
    norm_num at h ⊢
    exact h
  have c2 : (100.0 ≤ jet.pT ∧ jet.pT < 120.0) ↔ ⌊(jet.pT - 60) / 20⌋ = 2 := by
    have h := USPJWL_JET_MASS.range_test_iff jet.pT 2
    norm_num at h ⊢
    exact h
  have c3 : (120.0 ≤ jet.pT ∧ jet.pT < 140.0) ↔ ⌊(jet.pT - 60) / 20⌋ = 3 := by
    have h := USPJWL_JET_MASS.range_test_iff jet.pT 3
    norm_num at h ⊢
    exact h
  have c4 : (140.0 ≤ jet.pT ∧ jet.pT < 160.0) ↔ ⌊(jet.pT - 60) / 20⌋ = 4 := by
    have h := USPJWL_JET_MASS.range_test_iff jet.pT 4
    norm_num at h ⊢
    exact h
  have c5 : (160.0 ≤ jet.pT ∧ jet.pT < 180.0) ↔ ⌊(jet.pT - 60) / 20⌋ = 5 := by
    have h := USPJWL_JET_MASS.range_test_iff jet.pT 5
    norm_num at h ⊢
    exact h
  have c6 : (180.0 ≤ jet.pT ∧ jet.pT < 200.0) ↔ ⌊(jet.pT - 60) / 20⌋ = 6 := by
    have h := USPJWL_JET_MASS.range_test_iff jet.pT 6
    norm_num at h ⊢
    exact h
  have c7 : (200.0 ≤ jet.pT ∧ jet.pT < 220.0) ↔ ⌊(jet.pT - 60) / 20⌋ = 7 := by
    have h := USPJWL_JET_MASS.range_test_iff jet.pT 7
    norm_num at h ⊢
    exact h
  have c8 : (220.0 ≤ jet.pT ∧ jet.pT < 240.0) ↔ ⌊(jet.pT - 60) / 20⌋ = 8 := by
    have h := USPJWL_JET_MASS.range_test_iff jet.pT 8
    norm_num at h ⊢
    exact h
  have c9 : (240.0 ≤ jet.pT ∧ jet.pT < 260.0) ↔ ⌊(jet.pT - 60) / 20⌋ = 9 := by
    have h := USPJWL_JET_MASS.range_test_iff jet.pT 9
    norm_num at h ⊢
    exact h
  have c10 : (260.0 ≤ jet.pT ∧ jet.pT < 280.0) ↔ ⌊(jet.pT - 60) / 20⌋ = 10 := by
    have h := USPJWL_JET_MASS.range_test_iff jet.pT 10
    norm_num at h ⊢
    exact h
  have c11 : (280.0 ≤ jet.pT ∧ jet.pT < 300.0) ↔ ⌊(jet.pT - 60) / 20⌋ = 11 := by
    have h := USPJWL_JET_MASS.range_test_iff jet.pT 11
    norm_num at h ⊢
    exact h
  have hl : (300.0 ≤ jet.pT) ↔ 12 ≤ ⌊(jet.pT - 60) / 20⌋ := by
    have h := USPJWL_JET_MASS.last_test_iff jet.pT
    norm_num at h ⊢
    exact h
  have hf := USPJWL_JET_MASS.first_test_iff jet.pT
  unfold USPJWL_JET_MASS.massBody USPJWL_JET_MASS.specMassBin
  simp only [if_pos hg, c0, c1, c2, c3, c4, c5, c6, c7, c8, c9, c10, c11, hl, hf]
  exact USPJWL_JET_MASS.chain_on_floor _ _

/-- Claim C29: the jet-mass pT binning is a partition. For every jet with
mass >= 0 and |eta| < 0.5, the chain of thirteen range tests of `analyze` fills
exactly one mass histogram when pT >= 60, the histogram
`_hs_mass[min(floor((pT - 60) / 20), 12)]`, and fills none when pT < 60. -/
theorem mass_binning_is_partition (jet : Jet) (hm : 0 ≤ jet.mass) (heta : |jet.eta| < 0.5) :
    USPJWL_JET_MASS.massBody jet =
      if 60 ≤ jet.pT then
        [(USPJWL_JET_MASS.Hist._hs_mass (USPJWL_JET_MASS.specMassBin jet.pT), jet.mass)]
      else [] :=
  USPJWL_JET_MASS.massBody_eq jet hm heta

/-- Claim C29 on the jet of pT 125 and mass 10 at eta = 0: the mass is filled
into `_hs_mass[3]`, the histogram of the range 120 to 140, and nowhere else. -/
theorem mass_binning_is_partition_witness :
    0 ≤ USPJWL_JET_MASS.jet125.mass ∧ |USPJWL_JET_MASS.jet125.eta| < 0.5 ∧
    USPJWL_JET_MASS.specMassBin USPJWL_JET_MASS.jet125.pT = 3 ∧
    USPJWL_JET_MASS.massBody USPJWL_JET_MASS.jet125 =
      if 60 ≤ USPJWL_JET_MASS.jet125.pT then
        [(USPJWL_JET_MASS.Hist._hs_mass
          (USPJWL_JET_MASS.specMassBin USPJWL_JET_MASS.jet125.pT), USPJWL_JET_MASS.jet125.mass)]
      else [] :=
  have hm : 0 ≤ USPJWL_JET_MASS.jet125.mass := by norm_num [USPJWL_JET_MASS.jet125]
  have heta : |USPJWL_JET_MASS.jet125.eta| < 0.5 := by
    show |(0 : ℚ)| < 0.5
    rw [abs_zero]; norm_num
  have hb : USPJWL_JET_MASS.specMassBin USPJWL_JET_MASS.jet125.pT = 3 := by
    have h3 : ⌊((125 : ℚ) - 60) / 20⌋ = 3 := by
      rw [Int.floor_eq_iff]; norm_num
    show min (⌊((125 : ℚ) - 60) / 20⌋.toNat) 12 = 3
    rw [h3]; rfl
  ⟨hm, heta, hb, mass_binning_is_partition USPJWL_JET_MASS.jet125 hm heta⟩

/-- The second loop of `EXTRA::analyze` run from the jet at position
`pre.length`, with the entries of `sizelead` of the jets before it in `pre`:
every lookup `sizelead[counter_jets]` is in bounds and reads the entry of the
jet being filled. -/
theorem EXTRA.fillLoop_eq (RJETS_f : ℚ) (pre : List ℤ) (js : List Jet) :
    EXTRA.fillLoop RJETS_f (pre ++ EXTRA.sizelead RJETS_f js) js pre.length =
      some (js.flatMap (fun j =>
        (if |j.rap| ≤ 1.2 then [(EXTRA.Hist._hist_jet, j.pT)] else [])
          ++ (if |j.eta| ≤ 2 then [(EXTRA.Hist._hist_cms, j.pT)] else [])
          ++ (if |j.eta| ≤ EXTRA.etaspace RJETS_f then
                (EXTRA.Hist._hist_alice2, j.pT) ::
                  (if 0 < (j.constituents.filter (EXTRA.cutlead RJETS_f)).length then
                    [(EXTRA.Hist._hist_alice, j.pT)] else [])
              else []))) := by
  induction js generalizing pre with
  | nil => simp [EXTRA.fillLoop]
  | cons j rest ih =>
    have hget : (pre ++ EXTRA.sizelead RJETS_f (j :: rest))[pre.length]?
        = some ((j.constituents.filter (EXTRA.cutlead RJETS_f)).length : ℤ) := by
      rw [List.getElem?_append_right (le_refl _)]
      simp [EXTRA.sizelead]
    have hrest := ih (pre ++ [((j.constituents.filter (EXTRA.cutlead RJETS_f)).length : ℤ)])
    have hlist : pre ++ EXTRA.sizelead RJETS_f (j :: rest)
        = (pre ++ [((j.constituents.filter (EXTRA.cutlead RJETS_f)).length : ℤ)])
          ++ EXTRA.sizelead RJETS_f rest := by
      simp [EXTRA.sizelead]
    have hlen : (pre ++ [((j.constituents.filter (EXTRA.cutlead RJETS_f)).length : ℤ)]).length
        = pre.length + 1 := by simp
    rw [hlen, ← hlist] at hrest
    unfold EXTRA.fillLoop
    simp only [hget, hrest, List.flatMap_cons]
    by_cases he : |j.eta| ≤ EXTRA.etaspace RJETS_f
    · simp [he]
    · simp [he]

/-- The fills of `EXTRA::analyze`: the run is defined on every event, and each
selected jet makes its fills from its own kinematics and its own number of
leading constituents. -/
theorem EXTRA.analyze_eq (RJETS_f : ℚ) (evt : Event) :
    EXTRA.analyze RJETS_f evt =
      some ((jetsByPt (EXTRA.jetcuts RJETS_f) evt.jets).flatMap (fun j =>
        (if |j.rap| ≤ 1.2 then [(EXTRA.Hist._hist_jet, j.pT)] else [])
          ++ (if |j.eta| ≤ 2 then [(EXTRA.Hist._hist_cms, j.pT)] else [])
          ++ (if |j.eta| ≤ EXTRA.etaspace RJETS_f then
                (EXTRA.Hist._hist_alice2, j.pT) ::
                  (if 0 < (j.constituents.filter (EXTRA.cutlead RJETS_f)).length then
                    [(EXTRA.Hist._hist_alice, j.pT)] else [])
              else []))) := by
  have h := EXTRA.fillLoop_eq RJETS_f [] (jetsByPt (EXTRA.jetcuts RJETS_f) evt.jets)
  simpa [EXTRA.analyze] using h
theorem EXTRA.lead_count_pos_iff (RJETS_f : ℚ) (j : Jet) :
    0 < (j.constituents.filter (EXTRA.cutlead RJETS_f)).length ↔
      ∃ p ∈ j.constituents, p.pT > 10 * RJETS_f + 3 := by
  rw [List.length_pos_iff_exists_mem]
  simp [List.mem_filter, EXTRA.cutlead]

/-- The values filled into the ALICE spectrum by the fills of a list of jets. -/
theorem EXTRA.valuesOf_alice (RJETS_f : ℚ) (l : List Jet) :
    valuesOf EXTRA.Hist._hist_alice (l.flatMap (fun j =>
        (if |j.rap| ≤ 1.2 then [(EXTRA.Hist._hist_jet, j.pT)] else [])
          ++ (if |j.eta| ≤ 2 then [(EXTRA.Hist._hist_cms, j.pT)] else [])
          ++ (if |j.eta| ≤ EXTRA.etaspace RJETS_f then
                (EXTRA.Hist._hist_alice2, j.pT) ::
                  (if 0 < (j.constituents.filter (EXTRA.cutlead RJETS_f)).length then
                    [(EXTRA.Hist._hist_alice, j.pT)] else [])
              else [])))
      = (l.filter (fun j => decide (|j.eta| ≤ EXTRA.etaspace RJETS_f ∧
          ∃ p ∈ j.constituents, p.pT > 10 * RJETS_f + 3))).map (fun j => j.pT) := by
  induction l with
  | nil => rfl
  | cons j l ih =>
    rw [List.flatMap_cons, valuesOf_append, ih]
    have hp := EXTRA.lead_count_pos_iff RJETS_f j
    by_cases h1 : |j.rap| ≤ 1.2 <;> by_cases h2 : |j.eta| ≤ 2 <;>
      by_cases h3 : |j.eta| ≤ EXTRA.etaspace RJETS_f <;>
      by_cases h4 : 0 < (j.constituents.filter (EXTRA.cutlead RJETS_f)).length <;>
      simp only [h1, h2, h3, h4, if_true, if_false, List.nil_append, List.append_nil,
        List.cons_append, valuesOf_cons, valuesOf_nil, List.filter_cons, ← hp,
        and_true, and_false, true_and, and_self, false_and, decide_True, decide_False,
        List.map_cons, reduceCtorEq]

/-- The values filled into the ALICE no-lead spectrum by the fills of a list of
jets. -/
theorem EXTRA.valuesOf_alice2 (RJETS_f : ℚ) (l : List Jet) :
    valuesOf EXTRA.Hist._hist_alice2 (l.flatMap (fun j =>
        (if |j.rap| ≤ 1.2 then [(EXTRA.Hist._hist_jet, j.pT)] else [])
          ++ (if |j.eta| ≤ 2 then [(EXTRA.Hist._hist_cms, j.pT)] else [])
          ++ (if |j.eta| ≤ EXTRA.etaspace RJETS_f then
                (EXTRA.Hist._hist_alice2, j.pT) ::
                  (if 0 < (j.constituents.filter (EXTRA.cutlead RJETS_f)).length then
                    [(EXTRA.Hist._hist_alice, j.pT)] else [])
              else [])))
      = (l.filter (fun j => decide (|j.eta| ≤ EXTRA.etaspace RJETS_f))).map
          (fun j => j.pT) := by
  induction l with
  | nil => rfl
  | cons j l ih =>
    rw [List.flatMap_cons, valuesOf_append, ih]
    by_cases h1 : |j.rap| ≤ 1.2 <;> by_cases h2 : |j.eta| ≤ 2 <;>
      by_cases h3 : |j.eta| ≤ EXTRA.etaspace RJETS_f <;>
      by_cases h4 : 0 < (j.constituents.filter (EXTRA.cutlead RJETS_f)).length <;>
      simp only [h1, h2, h3, h4, if_true, if_false, List.nil_append, List.append_nil,
        List.cons_append, valuesOf_cons, valuesOf_nil, List.filter_cons,
        decide_True, decide_False, List.map_cons, reduceCtorEq]

/-- The jets of the ALICE spectrum are among those of the no-lead spectrum. -/
theorem EXTRA.alice_sublist (RJETS_f : ℚ) (l : List Jet) :
    ((l.filter (fun j => decide (|j.eta| ≤ EXTRA.etaspace RJETS_f ∧
        ∃ p ∈ j.constituents, p.pT > 10 * RJETS_f + 3))).map (fun j => j.pT)).Sublist
      ((l.filter (fun j => decide (|j.eta| ≤ EXTRA.etaspace RJETS_f))).map (fun j => j.pT)) := by
  apply List.Sublist.map
  induction l with
  | nil => exact List.Sublist.refl _
  | cons j l ih =>
    by_cases h3 : |j.eta| ≤ EXTRA.etaspace RJETS_f
    · by_cases h4 : ∃ p ∈ j.constituents, p.pT > 10 * RJETS_f + 3
      · simp only [List.filter_cons, h3, h4, and_self, decide_True, if_true]
        exact ih.cons₂ j
      · simp only [List.filter_cons, h3, h4, and_false, decide_True, decide_False, if_true,
          if_false]
        exact ih.cons j
    · simp only [List.filter_cons, h3, false_and, decide_False, if_false]
      exact ih

/-- Claim C30: leading-constituent bookkeeping in `EXTRA::analyze`. The vector
`sizelead` has one entry for each selected jet, at the position of the jet;
the run is defined on every event (no lookup `sizelead[counter_jets]` is out of
bounds); the ALICE spectrum gets the pT of the selected
jets with |eta| <= etaspace that have a constituent with pT > 10 R + 3, the
no-lead spectrum the pT of the selected jets with |eta| <= etaspace, both in
the order of the jets, so every ALICE fill comes with a no-lead fill of the
same pT. -/
theorem sizelead_bookkeeping (RJETS_f : ℚ) (evt : Event) :
    (EXTRA.sizelead RJETS_f (jetsByPt (EXTRA.jetcuts RJETS_f) evt.jets)).length
      = (jetsByPt (EXTRA.jetcuts RJETS_f) evt.jets).length ∧
    (∀ i : Nat,
      (EXTRA.sizelead RJETS_f (jetsByPt (EXTRA.jetcuts RJETS_f) evt.jets))[i]?
        = ((jetsByPt (EXTRA.jetcuts RJETS_f) evt.jets)[i]?).map
            (fun j => ((j.constituents.filter (EXTRA.cutlead RJETS_f)).length : ℤ))) ∧
    ∃ fills,
      EXTRA.analyze RJETS_f evt = some fills ∧
      valuesOf EXTRA.Hist._hist_alice fills
        = ((jetsByPt (EXTRA.jetcuts RJETS_f) evt.jets).filter
            (fun j => decide (|j.eta| ≤ EXTRA.etaspace RJETS_f ∧
              ∃ p ∈ j.constituents, p.pT > 10 * RJETS_f + 3))).map (fun j => j.pT) ∧
      valuesOf EXTRA.Hist._hist_alice2 fills
        = ((jetsByPt (EXTRA.jetcuts RJETS_f) evt.jets).filter
            (fun j => decide (|j.eta| ≤ EXTRA.etaspace RJETS_f))).map (fun j => j.pT) ∧
      (valuesOf EXTRA.Hist._hist_alice fills).Sublist
        (valuesOf EXTRA.Hist._hist_alice2 fills) := by
  refine ⟨by simp [EXTRA.sizelead], ?_, _, EXTRA.analyze_eq RJETS_f evt,
    EXTRA.valuesOf_alice RJETS_f _, EXTRA.valuesOf_alice2 RJETS_f _, ?_⟩
  · intro i
    simp [EXTRA.sizelead]
  · rw [EXTRA.valuesOf_alice, EXTRA.valuesOf_alice2]
    exact EXTRA.alice_sublist RJETS_f _

theorem USPJWL_INOUTPLANESPEC.init_three_eighths :
    USPJWL_INOUTPLANESPEC.init 0.4 0 (3 * M_PI / 8) 0
      = { RJETS_f := 0.4, PSI2 := 0, PSI3 := 3 * M_PI / 8, PSI4 := 0 } := by
  have hpi := M_PI_pos
  simp [USPJWL_INOUTPLANESPEC.init, planeConversion_zero,
    planeConversion_eq_self (by linarith : (0 : ℚ) ≤ 3 * M_PI / 8) (by linarith)]

/-- The tests for a jet at phi = 17 pi / 24 with the plane angles 0, 3 pi / 8
and 0. -/
theorem isInPlane_at_seventeen :
    isInPlane (17 * M_PI / 24) 0 2 = some false ∧
    isInPlane (17 * M_PI / 24) (0 + M_PI / 2) 2 = some false ∧
    isInPlane (17 * M_PI / 24) (3 * M_PI / 8) 3 = some false ∧
    isInPlane (17 * M_PI / 24) (3 * M_PI / 8 + M_PI / 3) 3 = some true ∧
    isInPlane (17 * M_PI / 24) (0 + M_PI / 3) 2 = some false ∧
    isInPlane (17 * M_PI / 24) 0 4 = some false ∧
    isInPlane (17 * M_PI / 24) (0 + M_PI / 4) 2 = some false := by
  have hpi := M_PI_pos
  have a0 : (0 : ℚ) ≤ 17 * M_PI / 24 := by linarith
  have a1 : 17 * M_PI / 24 < 2 * M_PI := by linarith
  refine ⟨?_, ?_, ?_, ?_, ?_, ?_, ?_⟩
  · rw [isInPlane_two]; congr 1; rw [decide_eq_false_iff_not]
    exact angDistance_not_lt a0 a1 (by linarith) (by linarith)
      (Or.inl ⟨by linarith, by linarith⟩)
  · rw [isInPlane_two]; congr 1; rw [decide_eq_false_iff_not]
    exact angDistance_not_lt a0 a1 (by linarith) (by linarith)
      (Or.inl ⟨by linarith, by linarith⟩)
  · rw [isInPlane_three]; congr 1; rw [decide_eq_false_iff_not]
    rintro (h | h)
    · exact angDistance_not_lt a0 a1 (by linarith) (by linarith)
        (Or.inl ⟨by linarith, by linarith⟩) h
    · exact angDistance_not_lt a0 a1 (by linarith) (by linarith)
        (Or.inr ⟨by linarith, by linarith⟩) h
  · rw [isInPlane_three]; congr 1; rw [decide_eq_true_eq]
    left
    exact angDistance_lt a0 a1 (by linarith) (by linarith) (by linarith) (by linarith)
      (by linarith)
  · rw [isInPlane_two]; congr 1; rw [decide_eq_false_iff_not]
    exact angDistance_not_lt a0 a1 (by linarith) (by linarith)
      (Or.inl ⟨by linarith, by linarith⟩)
  · rw [isInPlane_four]; congr 1; rw [decide_eq_false_iff_not]
    rintro (h | h | h)
    · exact angDistance_not_lt a0 a1 (by linarith) (by linarith)
        (Or.inl ⟨by linarith, by linarith⟩) h
    · exact angDistance_not_lt a0 a1 (by linarith) (by linarith)
        (Or.inl ⟨by linarith, by linarith⟩) h
    · exact angDistance_not_lt a0 a1 (by linarith) (by linarith)
        (Or.inr ⟨by linarith, by linarith⟩) h
  · rw [isInPlane_two]; congr 1; rw [decide_eq_false_iff_not]
    exact angDistance_not_lt a0 a1 (by linarith) (by linarith)
      (Or.inl ⟨by linarith, by linarith⟩)

/-- Claim C23, evaluated on the code for n = 3 at two inputs. The test of
`analyze` for the order-3 out-of-plane histogram is
`isInPlane(phi, PSI2 + M_PI / 3, 2)`, made with psi_2 and the order 2, where the
claim tests psi_3 + pi / 3 at the order 3.
With the three plane angles at 0 and a jet at phi = 11 pi / 24, the jet is not
in-plane at the order 3 for psi_3 nor for psi_3 + pi / 3, so the claim leaves
the order-3 out-of-plane histogram without a fill, and `analyze` fills it.
With the plane angles 0, 3 pi / 8 and 0 and a jet at phi = 17 pi / 24, the jet
is not in-plane for psi_3 and is in-plane at the order 3 for psi_3 + pi / 3, so
the claim fills the order-3 out-of-plane histogram, and `analyze` fills the
all-plane spectrum alone. -/
theorem outplane3_reference_mixed :
    (isInPlane (11 * M_PI / 24) 0 3 = some false ∧
      isInPlane (11 * M_PI / 24) (0 + M_PI / 3) 3 = some false ∧
      isInPlane (11 * M_PI / 24) (0 + M_PI / 3) 2 = some true ∧
      USPJWL_INOUTPLANESPEC.analyze (USPJWL_INOUTPLANESPEC.init 0.4 0 0 0)
          (USPJWL_INOUTPLANESPEC.eventAt (11 * M_PI / 24))
        = some [(USPJWL_INOUTPLANESPEC.Hist._hist_outplane2, 30),
                (USPJWL_INOUTPLANESPEC.Hist._hist_outplane3, 30),
                (USPJWL_INOUTPLANESPEC.Hist._hist_inplane4, 30),
                (USPJWL_INOUTPLANESPEC.Hist._hist_allplane, 30)]) ∧
    (isInPlane (17 * M_PI / 24) (3 * M_PI / 8) 3 = some false ∧
      isInPlane (17 * M_PI / 24) (3 * M_PI / 8 + M_PI / 3) 3 = some true ∧
      isInPlane (17 * M_PI / 24) (0 + M_PI / 3) 2 = some false ∧
      USPJWL_INOUTPLANESPEC.analyze (USPJWL_INOUTPLANESPEC.init 0.4 0 (3 * M_PI / 8) 0)
          (USPJWL_INOUTPLANESPEC.eventAt (17 * M_PI / 24))
        = some [(USPJWL_INOUTPLANESPEC.Hist._hist_allplane, 30)]) := by
  obtain ⟨e1, e2, e3, e4, e5, e6⟩ := isInPlane_at_eleven
  obtain ⟨s1, s2, s3, s4, s5, s6, s7⟩ := isInPlane_at_seventeen
  refine ⟨⟨e3, e4, e5, ?_⟩, ⟨s3, s4, s5, ?_⟩⟩
  · rw [USPJWL_INOUTPLANESPEC.init_zero]
    have h := USPJWL_INOUTPLANESPEC.analyze_eventAt
      {RJETS_f := 0.4, PSI2 := 0, PSI3 := 0, PSI4 := 0} rfl (11 * M_PI / 24)
      [(USPJWL_INOUTPLANESPEC.Hist._hist_outplane2, 30)]
      [(USPJWL_INOUTPLANESPEC.Hist._hist_outplane3, 30)]
      [(USPJWL_INOUTPLANESPEC.Hist._hist_inplane4, 30)]
      (USPJWL_INOUTPLANESPEC.planeTest_out e1 e2)
      (USPJWL_INOUTPLANESPEC.planeTest_out e3 e5)
      (USPJWL_INOUTPLANESPEC.planeTest_in e6)
    rw [h]; rfl
  · rw [USPJWL_INOUTPLANESPEC.init_three_eighths]
    have h := USPJWL_INOUTPLANESPEC.analyze_eventAt
      {RJETS_f := 0.4, PSI2 := 0, PSI3 := 3 * M_PI / 8, PSI4 := 0} rfl (17 * M_PI / 24)
      [] [] []
      (USPJWL_INOUTPLANESPEC.planeTest_neither s1 s2)
      (USPJWL_INOUTPLANESPEC.planeTest_neither s3 s5)
      (USPJWL_INOUTPLANESPEC.planeTest_neither s6 s7)
    rw [h]; rfl

end Rivet
